import Mathlib

/-!
# Rabbit trees (radix bit tries) of `src/src/rbt`

A shallow embedding of the rabbit-tree container (`rbt/key.h`, `rbt/node.h`,
`rbt/traverse_with_key.h`, `rbt/wrapper.h`) and theorems about it.

Modelling conventions.

* A key buffer (`RBT_PIN_T *`) is a `List Nat` of pins; the pin width in bits
  (`RBT_PIN_SIZE_BITS`) is the explicit parameter `w`.  Advancing a key pointer
  by `n` pins is `List.drop n`; `memcpy` of `n` pins is `List.take n`.  A read
  past the end of a buffer yields `0`.
* The key size type `RBT_KEY_SIZE_T` is an unsigned type of `S` bits, the
  explicit parameter `S`: the counter `length` of `RBT_COMMON_BIT_PREFIX_LEN`
  is kept modulo `2 ^ S`.  Bit counts handed in by a caller or stored in a
  node are natural numbers.
* A node pointer is a tree (`RBT_NODE_T.NULL` is the `NULL` pointer); a pointer
  into a tree that a function returns is the path from the root (`false` is
  `left`, `true` is `right`).  `parent_node->left == node` is the last step of
  that path.
* Values are any type with decidable equality (`RBT_VALUE_IS_EQUAL`) and a
  default element (`RBT_VALUE_NULL`); `RBT_VALUE_COPY` is assignment.
* No allocation fails.
-/

namespace Rbt

/-! ## common.h and key.h -/

/-- The macro `DIV_UP(x,y)` of `rbt/common.h`: ceiling division. -/
def DIV_UP (x y : Nat) : Nat := if x ≠ 0 then 1 + (x - 1) / y else 0

/-- The macro `BITS_TO_PINS(x)` of `rbt/key.h` for pins of `w` bits. -/
def BITS_TO_PINS (w x : Nat) : Nat := DIV_UP x w

/-- The macro `N_BIT_IS_1(x,n)`: whether the most significant bit of the
`w`-bit pin `x << n` is set. -/
def N_BIT_IS_1 (w x n : Nat) : Bool := (x <<< n).testBit (w - 1)

/-- The macro `FIRST_BIT_IS_1(x)`: whether the most significant bit of the
`w`-bit pin `x` is set. -/
def FIRST_BIT_IS_1 (w x : Nat) : Bool := x.testBit (w - 1)

/-- The GCC built-in `__builtin_clz` (and its `l`, `ll` variants) on a non-zero
`w`-bit word: the number of leading zero bits. -/
def builtin_clz (w c : Nat) : Nat :=
  ((List.range w).takeWhile (fun i => !c.testBit (w - 1 - i))).length

/-- The first loop of `RBT_COMMON_BIT_PREFIX_LEN` followed by its tail, for a
key size type of `S` bits and pins of `w` bits.  Whole pins are compared while
`length < max`, and `length += RBT_PIN_SIZE_BITS` is computed in the key size
type, modulo `2 ^ S`; at the first differing pin the leading zeros of the XOR
are added, again modulo `2 ^ S`, and the result is clamped to `max`.  `fuel`
bounds the number of iterations; the result at exhausted fuel is `0`. -/
def common_bit_prefix_len_loop (S w : Nat) :
    Nat → List Nat → List Nat → Nat → Nat → Nat
  | 0, _, _, _, _ => 0
  | fuel + 1, a, b, length, max =>
    if length < max ∧ a.headD 0 = b.headD 0 then
      common_bit_prefix_len_loop S w fuel a.tail b.tail ((length + w) % 2 ^ S) max
    else if length < max then
      let c := a.headD 0 ^^^ b.headD 0
      let length1 := (length + builtin_clz w c) % 2 ^ S
      if length1 > max then max else length1
    else max

/-- The function `RBT_COMMON_BIT_PREFIX_LEN(a, b, max)` of `rbt/key.h`
(the `__GNUC__` path) for a key size type of `S` bits.  The fuel covers both
buffers and a whole cycle of the wrapped `length`: past the end of both
buffers every pin reads as `0` and `length` runs through the same values
again, so the fuel is exhausted only where the loop of the source does not
end, and the result `0` stands for that. -/
def RBT_COMMON_BIT_PREFIX_LEN (S w : Nat) (a b : List Nat) (max : Nat) : Nat :=
  common_bit_prefix_len_loop S w (a.length + b.length + 2 ^ S + 1) a b 0 max

/-! ## node.h: nodes -/

/-- The struct `RBT_NODE_T` together with pointers to it: `NULL` is the null
pointer, `node key bits value left right` a pointer to a node with these
fields. -/
inductive RBT_NODE_T (V : Type) where
  | NULL : RBT_NODE_T V
  | node (key : List Nat) (bits : Nat) (value : V) (left right : RBT_NODE_T V) : RBT_NODE_T V
  deriving DecidableEq, Repr

variable {V : Type} [DecidableEq V] [Inhabited V]

/-- Whether a node pointer is `NULL`. -/
def is_NULL : RBT_NODE_T V → Bool
  | .NULL => true
  | .node _ _ _ _ _ => false

/-- The macro `RBT_VALUE_IS_NULL(value)`. -/
def RBT_VALUE_IS_NULL (value : V) : Bool := decide (value = default)

/-- The function `RBT_NODE_CREATE(key, bits, value, left, right)`: the first
`BITS_TO_PINS(bits)` pins of `key` are copied. -/
def RBT_NODE_CREATE (w : Nat) (key : List Nat) (bits : Nat) (value : V)
    (left right : RBT_NODE_T V) : RBT_NODE_T V :=
  .node (key.take (BITS_TO_PINS w bits)) bits value left right

/-- The function `RBT_NODE_NEW()`: an empty root. -/
def RBT_NODE_NEW (w : Nat) : RBT_NODE_T V :=
  RBT_NODE_CREATE w [] 0 default .NULL .NULL

/-- The function `RBT_NODE_MERGE_CHILD(parent_node, child_node)` where
`child_node` is the child of `parent_node` on side `side` (`true` is right).
The parent keeps its whole pins, takes the pins, value and children of the
child; the child and the other child of the parent are released.  `none` is a
dereference of `NULL`. -/
def RBT_NODE_MERGE_CHILD (w : Nat) (parent_node : RBT_NODE_T V) (side : Bool) :
    Option (RBT_NODE_T V) :=
  match parent_node with
  | .NULL => none
  | .node pkey pbits _ pleft pright =>
    match (if side then pright else pleft) with
    | .NULL => none
    | .node ckey cbits cvalue cleft cright =>
      let parent_pins := pbits / w
      let child_pins := BITS_TO_PINS w cbits
      some (.node (pkey.take parent_pins ++ ckey.take child_pins)
        (parent_pins * w + cbits) cvalue cleft cright)

/-- Replace the child on side `side` of a node. -/
def set_child (n : RBT_NODE_T V) (side : Bool) (c : RBT_NODE_T V) : RBT_NODE_T V :=
  match n with
  | .NULL => .NULL
  | .node key bits value left right =>
    if side then .node key bits value left c else .node key bits value c right

/-- The child on side `side` of a node. -/
def get_child (n : RBT_NODE_T V) (side : Bool) : RBT_NODE_T V :=
  match n with
  | .NULL => .NULL
  | .node _ _ _ left right => if side then right else left

/-- The function `RBT_NODE_REMOVE(node, parent_node)`.  `parent_node` is
`none` for `NULL`, otherwise the parent together with the side on which `node`
hangs.  The result is the updated parent if there is one, else the updated
node; `none` is a dereference of `NULL`. -/
def RBT_NODE_REMOVE (w : Nat) (node : RBT_NODE_T V)
    (parent_node : Option (RBT_NODE_T V × Bool)) : Option (RBT_NODE_T V) :=
  let reattach : RBT_NODE_T V → RBT_NODE_T V := fun n =>
    match parent_node with
    | none => n
    | some (p, side) => set_child p side n
  match node with
  | .NULL => none
  | .node _ _ _ .NULL .NULL =>
    match parent_node with
    | none => some (.node [] 0 default .NULL .NULL)
    | some (.NULL, _) => none
    | some (.node pkey pbits pvalue pleft pright, side) =>
      if RBT_VALUE_IS_NULL pvalue then
        RBT_NODE_MERGE_CHILD w (.node pkey pbits pvalue pleft pright) (!side)
      else
        some (set_child (.node pkey pbits pvalue pleft pright) side .NULL)
  | .node key bits value .NULL (.node rk rb rv rl rr) =>
    (RBT_NODE_MERGE_CHILD w (.node key bits value .NULL (.node rk rb rv rl rr)) true).map reattach
  | .node key bits value (.node lk lb lv ll lr) .NULL =>
    (RBT_NODE_MERGE_CHILD w (.node key bits value (.node lk lb lv ll lr) .NULL) false).map reattach
  | .node key bits _ (.node lk lb lv ll lr) (.node rk rb rv rl rr) =>
    some (reattach (.node key bits default (.node lk lb lv ll lr) (.node rk rb rv rl rr)))

/-- The function `RBT_NODE_INSERT_PARENT(node, bits, value)`: the node keeps
the first `bits` bits and the new value; a new child takes the remaining
pins, the old value and the old children.  Both branches of the final test
attach the child on the right, as in the source. -/
def RBT_NODE_INSERT_PARENT (w : Nat) (node : RBT_NODE_T V) (bits : Nat) (value : V) :
    RBT_NODE_T V :=
  match node with
  | .NULL => .NULL
  | .node key nbits nvalue left right =>
    let pins := bits / w
    let staggered_bits := bits % w
    let child_key := (key.drop pins).take (BITS_TO_PINS w (nbits - bits + staggered_bits))
    let child : RBT_NODE_T V := .node child_key (nbits - bits + staggered_bits) nvalue left right
    let parent_pins := if staggered_bits > 0 then pins + 1 else pins
    if N_BIT_IS_1 w (child_key.headD 0) staggered_bits then
      .node (key.take parent_pins) bits value .NULL child
    else
      .node (key.take parent_pins) bits value .NULL child

/-- The function `RBT_NODE_INSERT_SIBLING`: the node becomes a placeholder
holding the common bits; its old content moves to the new node `sibling`, the
new value to the new node `baby`.  The result is the updated node and the side
of `baby`. -/
def RBT_NODE_INSERT_SIBLING (w : Nat) (node : RBT_NODE_T V) (key : List Nat) (bits : Nat)
    (common_bits common_pins common_staggered_bits : Nat) (value : V) :
    RBT_NODE_T V × Bool :=
  match node with
  | .NULL => (.NULL, false)
  | .node nkey nbits nvalue left right =>
    let baby_key := (key.drop common_pins).take
      (BITS_TO_PINS w (bits - common_bits + common_staggered_bits))
    let baby : RBT_NODE_T V :=
      .node baby_key (bits - common_bits + common_staggered_bits) value .NULL .NULL
    let sibling : RBT_NODE_T V :=
      .node ((nkey.drop common_pins).take
        (BITS_TO_PINS w (nbits - common_bits + common_staggered_bits)))
        (nbits - common_bits + common_staggered_bits) nvalue left right
    let parent_pins := if common_staggered_bits > 0 then common_pins + 1 else common_pins
    if N_BIT_IS_1 w (baby_key.headD 0) common_staggered_bits then
      (.node (nkey.take parent_pins) common_bits default sibling baby, true)
    else
      (.node (nkey.take parent_pins) common_bits default baby sibling, false)

/-! ## node.h: retrieve -/

/-- The enum `rbt_retrieve_action_t`, restricted to the three actions that
`RBT_NODE_QUERY` passes (`RBT_RETRIEVE_ACTION_PREFIX_SUBTREE` is only used by
`RBT_NODE_WITH_PREFIX_SUBTREE_DO`). -/
inductive rbt_retrieve_action_t where
  | NOTHING
  | INSERT
  | INSERT_OR_REPLACE
  deriving DecidableEq, Repr

/-- Whether the action inserts a missing node (the `case` labels
`RBT_RETRIEVE_ACTION_INSERT` and `RBT_RETRIEVE_ACTION_INSERT_OR_REPLACE`). -/
def rbt_retrieve_action_t.inserts : rbt_retrieve_action_t → Bool
  | .NOTHING => false
  | .INSERT => true
  | .INSERT_OR_REPLACE => true

/-- Prepend a step to the path of a returned node pointer. -/
def below (side : Bool) (r : RBT_NODE_T V × Option (List Bool)) :
    Option (List Bool) :=
  r.2.map (fun p => side :: p)

/-- The `while (1)` loop of `RBT_NODE_RETRIEVE`, entered at `node` with the
remaining key `key` and `bits`.  The result is the updated subtree and the
path from `node` to the returned node (`none` for a `NULL` return). -/
def retrieve_loop (S w : Nat) (action : rbt_retrieve_action_t) (value : V) :
    RBT_NODE_T V → List Nat → Nat → RBT_NODE_T V × Option (List Bool)
  | .NULL, _, _ => (.NULL, none)
  | .node nkey nbits nvalue left right, key, bits =>
    let common_bits := RBT_COMMON_BIT_PREFIX_LEN S w key nkey (min bits nbits)
    if common_bits = bits then
      if common_bits = nbits then
        if action = .INSERT_OR_REPLACE then (.node nkey nbits value left right, some [])
        else (.node nkey nbits nvalue left right, some [])
      else
        if action.inserts then
          (RBT_NODE_INSERT_PARENT w (.node nkey nbits nvalue left right) bits value, some [])
        else
          (.node nkey nbits nvalue left right, none)
    else
      let common_pins := common_bits / w
      let common_staggered_bits := common_bits % w
      if common_bits = nbits then
        let key1 := key.drop common_pins
        let bits1 := bits + common_staggered_bits - common_bits
        if N_BIT_IS_1 w (key1.headD 0) common_staggered_bits then
          if is_NULL right then
            if action.inserts then
              (.node nkey nbits nvalue left (RBT_NODE_CREATE w key1 bits1 value .NULL .NULL),
                some [true])
            else
              (.node nkey nbits nvalue left right, none)
          else
            (.node nkey nbits nvalue left (retrieve_loop S w action value right key1 bits1).1,
              below true (retrieve_loop S w action value right key1 bits1))
        else
          if is_NULL left then
            if action.inserts then
              (.node nkey nbits nvalue (RBT_NODE_CREATE w key1 bits1 value .NULL .NULL) right,
                some [false])
            else
              (.node nkey nbits nvalue left right, none)
          else
            (.node nkey nbits nvalue (retrieve_loop S w action value left key1 bits1).1 right,
              below false (retrieve_loop S w action value left key1 bits1))
      else
        if action.inserts then
          ((RBT_NODE_INSERT_SIBLING w (.node nkey nbits nvalue left right) key bits
              common_bits common_pins common_staggered_bits value).1,
            some [(RBT_NODE_INSERT_SIBLING w (.node nkey nbits nvalue left right) key bits
              common_bits common_pins common_staggered_bits value).2])
        else
          (.node nkey nbits nvalue left right, none)

/-- The function `RBT_NODE_RETRIEVE(node, key, bits, action, value,
parent_node_ptr)`.  The result is the updated tree and the path of the
returned node; the parent written to `parent_node_ptr` is the node one step
above on that path. -/
def RBT_NODE_RETRIEVE (S w : Nat) (node : RBT_NODE_T V) (key : List Nat) (bits : Nat)
    (action : rbt_retrieve_action_t) (value : V) : RBT_NODE_T V × Option (List Bool) :=
  match node with
  | .NULL => (.NULL, none)
  | .node nkey nbits nvalue left right =>
    if nbits = 0 then
      if bits = 0 then
        if action = .INSERT_OR_REPLACE then (.node nkey nbits value left right, some [])
        else (.node nkey nbits nvalue left right, some [])
      else if is_NULL left ∧ is_NULL right then
        if action.inserts then
          if RBT_VALUE_IS_NULL nvalue then
            (.node (key.take (BITS_TO_PINS w bits)) bits value left right, some [])
          else if FIRST_BIT_IS_1 w (key.headD 0) then
            (.node nkey nbits nvalue left (RBT_NODE_CREATE w key bits value .NULL .NULL),
              some [true])
          else
            (.node nkey nbits nvalue (RBT_NODE_CREATE w key bits value .NULL .NULL) right,
              some [false])
        else
          (.node nkey nbits nvalue left right, none)
      else
        if FIRST_BIT_IS_1 w (key.headD 0) then
          if is_NULL right then
            if action.inserts then
              (.node nkey nbits nvalue left (RBT_NODE_CREATE w key bits value .NULL .NULL),
                some [true])
            else
              (.node nkey nbits nvalue left right, none)
          else
            (.node nkey nbits nvalue left (retrieve_loop S w action value right key bits).1,
              below true (retrieve_loop S w action value right key bits))
        else
          if is_NULL left then
            if action.inserts then
              (.node nkey nbits nvalue (RBT_NODE_CREATE w key bits value .NULL .NULL) right,
                some [false])
            else
              (.node nkey nbits nvalue left right, none)
          else
            (.node nkey nbits nvalue (retrieve_loop S w action value left key bits).1 right,
              below false (retrieve_loop S w action value left key bits))
    else
      retrieve_loop S w action value (.node nkey nbits nvalue left right) key bits

/-! ## node.h: query -/

/-- The field `value` of the node at a path (`target_node->value`); `none` if
the path leaves the tree. -/
def value_at : RBT_NODE_T V → List Bool → Option V
  | .NULL, _ => none
  | .node _ _ value _ _, [] => some value
  | .node _ _ _ left right, side :: p => value_at (if side then right else left) p

/-- The assignment `target_node->value = value` for the node at a path. -/
def set_value_at (value : V) : RBT_NODE_T V → List Bool → Option (RBT_NODE_T V)
  | .NULL, _ => none
  | .node key bits _ left right, [] => some (.node key bits value left right)
  | .node key bits v left right, side :: p =>
    if side then (set_value_at value right p).map (fun r => .node key bits v left r)
    else (set_value_at value left p).map (fun l => .node key bits v l right)

/-- The call `RBT_NODE_REMOVE(target_node, parent_node)` for the node at a
path of the tree, `parent_node` being the node one step above (`NULL` for the
empty path). -/
def remove_at (w : Nat) : RBT_NODE_T V → List Bool → Option (RBT_NODE_T V)
  | .NULL, _ => none
  | .node key bits value left right, [] =>
    RBT_NODE_REMOVE w (.node key bits value left right) none
  | .node key bits value left right, [side] =>
    RBT_NODE_REMOVE w (if side then right else left)
      (some (.node key bits value left right, side))
  | .node key bits value left right, side :: s :: p =>
    if side then (remove_at w right (s :: p)).map (fun r => .node key bits value left r)
    else (remove_at w left (s :: p)).map (fun l => .node key bits value l right)

/-- The enum `rbt_query_action_t`. -/
inductive rbt_query_action_t where
  | DELETE
  | INSERT
  | RETRIEVE
  | RETRIEVE_AND_INSERT
  | SWAP
  deriving DecidableEq, Repr

/-- The `case RBT_QUERY_ACTION_DELETE` of `RBT_NODE_QUERY`. -/
def query_delete (S w : Nat) (root_node : RBT_NODE_T V) (key : List Nat) (bits : Nat) :
    Option (RBT_NODE_T V × V) :=
  let r := RBT_NODE_RETRIEVE S w root_node key bits .NOTHING (default : V)
  match r.2 with
  | none => some (r.1, default)
  | some p =>
    match value_at r.1 p with
    | none => none
    | some target_value =>
      if !RBT_VALUE_IS_NULL target_value then
        (remove_at w r.1 p).map (fun t => (t, default))
      else some (r.1, default)

/-- The `case RBT_QUERY_ACTION_RETRIEVE` of `RBT_NODE_QUERY`. -/
def query_retrieve (S w : Nat) (root_node : RBT_NODE_T V) (key : List Nat) (bits : Nat) :
    Option (RBT_NODE_T V × V) :=
  let r := RBT_NODE_RETRIEVE S w root_node key bits .NOTHING (default : V)
  match r.2 with
  | none => some (r.1, default)
  | some p => (value_at r.1 p).map (fun v => (r.1, v))

/-- The `case RBT_QUERY_ACTION_INSERT` of `RBT_NODE_QUERY`. -/
def query_insert (S w : Nat) (root_node : RBT_NODE_T V) (key : List Nat) (bits : Nat)
    (value : V) : Option (RBT_NODE_T V × V) :=
  let r := RBT_NODE_RETRIEVE S w root_node key bits .INSERT_OR_REPLACE value
  some (r.1, value)

/-- The `case RBT_QUERY_ACTION_RETRIEVE_AND_INSERT` of `RBT_NODE_QUERY`. -/
def query_retrieve_and_insert (S w : Nat) (root_node : RBT_NODE_T V) (key : List Nat)
    (bits : Nat) (value : V) : Option (RBT_NODE_T V × V) :=
  let r := RBT_NODE_RETRIEVE S w root_node key bits .INSERT (default : V)
  match r.2 with
  | none => none
  | some p =>
    match value_at r.1 p with
    | none => none
    | some target_value =>
      match set_value_at (default : V) r.1 p with
      | none => none
      | some t1 =>
        if RBT_VALUE_IS_NULL value then
          (remove_at w t1 p).map (fun t => (t, target_value))
        else
          (set_value_at value t1 p).map (fun t => (t, target_value))

/-- The `case RBT_QUERY_ACTION_SWAP` of `RBT_NODE_QUERY`. -/
def query_swap (S w : Nat) (root_node : RBT_NODE_T V) (key : List Nat) (bits : Nat)
    (value : V) : Option (RBT_NODE_T V × V) :=
  let r := RBT_NODE_RETRIEVE S w root_node key bits .INSERT (default : V)
  match r.2 with
  | none => none
  | some p =>
    match value_at r.1 p with
    | none => none
    | some target_value =>
      if RBT_VALUE_IS_NULL value then
        match set_value_at (default : V) r.1 p with
        | none => none
        | some t1 => (remove_at w t1 p).map (fun t => (t, target_value))
      else
        (set_value_at value r.1 p).map (fun t => (t, target_value))

/-- The function `RBT_NODE_QUERY(root_node, key, bits, action, value)`.  The
result is the tree after the call and the returned value; `none` is a
dereference of `NULL`.  Inserting the empty value is a deletion (the first
`switch`). -/
def RBT_NODE_QUERY (S w : Nat) (root_node : RBT_NODE_T V) (key : List Nat) (bits : Nat)
    (action : rbt_query_action_t) (value : V) : Option (RBT_NODE_T V × V) :=
  match action with
  | .DELETE => query_delete S w root_node key bits
  | .RETRIEVE => query_retrieve S w root_node key bits
  | .INSERT =>
    if RBT_VALUE_IS_NULL value then query_delete S w root_node key bits
    else query_insert S w root_node key bits value
  | .RETRIEVE_AND_INSERT => query_retrieve_and_insert S w root_node key bits value
  | .SWAP => query_swap S w root_node key bits value

/-- The function `RBT_HAS_KEY(node, key)` of `rbt/wrapper.h`, with the key
already cast to pins and counted in bits by `RBT_NODE_QUERY_WRAPPER`. -/
def RBT_HAS_KEY (S w : Nat) (node : RBT_NODE_T V) (key : List Nat) (bits : Nat) : Option Bool :=
  (RBT_NODE_QUERY S w node key bits .RETRIEVE (default : V)).map
    (fun r => !RBT_VALUE_IS_NULL r.2)

/-! ## node.h: is copy -/

/-- The number of nodes of a tree. -/
def node_total : RBT_NODE_T V → Nat
  | .NULL => 0
  | .node _ _ _ left right => 1 + node_total left + node_total right

/-- The `while (rc)` loop of `RBT_NODE_IS_COPY` with its stack of pending
pairs of right children; `fuel` bounds the number of iterations, `none` is
exhausted fuel or a dereference of `NULL`. -/
def is_copy_loop (S w : Nat) :
    Nat → RBT_NODE_T V → RBT_NODE_T V → List (RBT_NODE_T V × RBT_NODE_T V) → Option Bool
  | 0, _, _, _ => none
  | _ + 1, .NULL, _, _ => none
  | _ + 1, .node _ _ _ _ _, .NULL, _ => none
  | fuel + 1, .node akey abits avalue aleft aright, .node bkey bbits bvalue bleft bright, stack =>
    if abits ≠ bbits ∨ is_NULL aleft ≠ is_NULL bleft ∨ is_NULL aright ≠ is_NULL bright ∨
        ¬ avalue = bvalue ∨ RBT_COMMON_BIT_PREFIX_LEN S w akey bkey abits ≠ abits then
      some false
    else if !is_NULL aleft then
      if !is_NULL aright then
        is_copy_loop S w fuel aleft bleft ((aright, bright) :: stack)
      else
        is_copy_loop S w fuel aleft bleft stack
    else if !is_NULL aright then
      is_copy_loop S w fuel aright bright stack
    else
      match stack with
      | [] => some true
      | (a, b) :: rest => is_copy_loop S w fuel a b rest

/-- The function `RBT_NODE_IS_COPY(a, b)`. -/
def RBT_NODE_IS_COPY (S w : Nat) (a b : RBT_NODE_T V) : Option Bool :=
  match a, b with
  | .NULL, .NULL => some true
  | .NULL, .node _ _ _ _ _ => some false
  | .node _ _ _ _ _, .NULL => some false
  | .node ak ab av al ar, .node bk bb bv bl br =>
    is_copy_loop S w (node_total (.node ak ab av al ar))
      (.node ak ab av al ar) (.node bk bb bv bl br) []

/-! ## node.h: traverse -/

/-- The struct `RBT_KEY_DATA_T`. -/
structure RBT_KEY_DATA_T (V : Type) where
  /-- The key buffer. -/
  key : List Nat
  /-- The number of significant bits in the key. -/
  bits : Nat
  /-- The number of bytes of the key that precede the current fragment. -/
  bytes : Nat
  /-- The associated node. -/
  node : RBT_NODE_T V
  deriving DecidableEq, Repr

/-- The macro `RBT_PIN_SIZE_BITS` for pins of `pin_size` bytes
(`BITS_PER_BYTE` is 8). -/
def RBT_PIN_SIZE_BITS (pin_size : Nat) : Nat := pin_size * 8

/-- The call `memcpy(key + offset, src, n)` on buffers of pins, `offset` and
`n` counted in pins. -/
def memcpy_pins (key : List Nat) (offset : Nat) (src : List Nat) (n : Nat) : List Nat :=
  (key ++ List.replicate (offset - key.length) 0).take offset
    ++ (src ++ List.replicate (n - src.length) 0).take n
    ++ key.drop (offset + n)

/-- The common section of `RBT_NODE_TRAVERSE_WITH_KEY` and
`RBT_NODE_FILTER_WITH_KEY` for pins of `pin_size` bytes: the fragment of
`node` is copied behind the first `bytes` bytes of the key buffer, and
`key_data` is updated.  The key buffer is taken to be large enough. -/
def key_section (pin_size : Nat) (key : List Nat) (key_bytes : Nat)
    (nkey : List Nat) (nbits : Nat) (node : RBT_NODE_T V) : RBT_KEY_DATA_T V :=
  let pins := nbits / RBT_PIN_SIZE_BITS pin_size
  let key_data_bits := nbits % RBT_PIN_SIZE_BITS pin_size
  let bytes := if key_data_bits ≠ 0 then pins * pin_size + pin_size else pins * pin_size
  let key1 := memcpy_pins key (key_bytes / pin_size) nkey (bytes / pin_size)
  let key_data_bytes := key_bytes + bytes
  let key_data_bytes1 :=
    if key_data_bits ≠ 0 then key_data_bytes - pin_size else key_data_bytes
  { key := key1
    bits := key_data_bits + key_data_bytes1 * RBT_PIN_SIZE_BITS pin_size
    bytes := key_data_bytes1
    node := node }

/-- The `while (1)` loop of `RBT_NODE_TRAVERSE_WITH_KEY`: the calls
`func_v(&key_data, height)` it makes, in order.  A stack entry holds the node,
`bytes_in_key_prefix` and the height. -/
def traverse_with_key_loop (pin_size : Nat) (func_v : RBT_KEY_DATA_T V → Nat → Bool) :
    Nat → RBT_NODE_T V → Nat → List (RBT_NODE_T V × Nat × Nat) → List Nat → Nat →
      Option (List (RBT_KEY_DATA_T V × Nat))
  | 0, _, _, _, _, _ => none
  | _ + 1, .NULL, _, _, _, _ => none
  | fuel + 1, .node nkey nbits value left right, height, stack, key, key_bytes =>
    let node : RBT_NODE_T V := .node nkey nbits value left right
    let key_data := key_section pin_size key key_bytes nkey nbits node
    if func_v key_data height then some [(key_data, height)]
    else
      let rest :=
        if is_NULL right then
          if is_NULL left then
            match stack with
            | [] => some []
            | (n, b, h) :: stack1 =>
              traverse_with_key_loop pin_size func_v fuel n h stack1 key_data.key b
          else
            traverse_with_key_loop pin_size func_v fuel left (height + 1) stack
              key_data.key key_data.bytes
        else if is_NULL left then
          traverse_with_key_loop pin_size func_v fuel right (height + 1) stack
            key_data.key key_data.bytes
        else
          traverse_with_key_loop pin_size func_v fuel left (height + 1)
            ((right, key_data.bytes, height + 1) :: stack) key_data.key key_data.bytes
      rest.map (fun calls => (key_data, height) :: calls)

/-- The function `RBT_NODE_TRAVERSE_WITH_KEY(node, func_v, ...)` for pins of
`pin_size` bytes: the sequence of calls `func_v(&key_data, height)`. -/
def RBT_NODE_TRAVERSE_WITH_KEY (pin_size : Nat) (node : RBT_NODE_T V)
    (func_v : RBT_KEY_DATA_T V → Nat → Bool) : Option (List (RBT_KEY_DATA_T V × Nat)) :=
  match node with
  | .NULL => some []
  | .node key bits value left right =>
    traverse_with_key_loop pin_size func_v (node_total (.node key bits value left right))
      (.node key bits value left right) 0 [] [] 0

/-! ## key.h: the path of `RBT_COMMON_BIT_PREFIX_LEN` without a built-in

For a pin type other than `unsigned int`, `unsigned long` and `unsigned long
long` (and without `__GNUC__`) the leading zeros of the XOR are counted by a
loop that shifts the pin. -/

/-- The loop `while (c < MOST_SIGNIFICANT_BIT_W(RBT_PIN_T) && length < max)`
with the body `c <<= 1; length += 1`, for a key size type of `S` bits and pins
of `w` bits: the final `length`.  `fuel` bounds the number of iterations. -/
def count_shift_loop (S w : Nat) : Nat → Nat → Nat → Nat → Nat
  | 0, _, length, _ => length
  | fuel + 1, c, length, max =>
    if c < 2 ^ (w - 1) ∧ length < max then
      count_shift_loop S w fuel ((c <<< 1) % 2 ^ w) ((length + 1) % 2 ^ S) max
    else length

/-- The first loop of `RBT_COMMON_BIT_PREFIX_LEN` followed by the tail that
counts by shifting.  The tail is entered with a non-zero `c`, which reaches
the most significant bit within `w` shifts. -/
def common_bit_prefix_len_shift_loop (S w : Nat) :
    Nat → List Nat → List Nat → Nat → Nat → Nat
  | 0, _, _, _, _ => 0
  | fuel + 1, a, b, length, max =>
    if length < max ∧ a.headD 0 = b.headD 0 then
      common_bit_prefix_len_shift_loop S w fuel a.tail b.tail ((length + w) % 2 ^ S) max
    else if length < max then
      count_shift_loop S w w (a.headD 0 ^^^ b.headD 0) length max
    else max

/-- The function `RBT_COMMON_BIT_PREFIX_LEN(a, b, max)` of `rbt/key.h` on the
path without a built-in, with the fuel of `RBT_COMMON_BIT_PREFIX_LEN`. -/
def RBT_COMMON_BIT_PREFIX_LEN_SHIFT (S w : Nat) (a b : List Nat) (max : Nat) : Nat :=
  common_bit_prefix_len_shift_loop S w (a.length + b.length + 2 ^ S + 1) a b 0 max

/-! ## node.h: filter, on a heap

`RBT_NODE_FILTER` compares node pointers and keeps pointers to nodes that
`RBT_NODE_REMOVE` may release, so it is embedded over a heap: an address is an
index into a list of cells, a released cell is `none`, and a dereference of
`NULL`, of a released cell or of an address outside the heap is the result
`none`. -/

namespace Heap

/-- The struct `RBT_NODE_T` in memory: the child pointers are addresses
(`none` is `NULL`). -/
structure node_t (V : Type) where
  /-- The key fragment. -/
  key : List Nat
  /-- The number of significant bits. -/
  bits : Nat
  /-- The value. -/
  value : V
  /-- The left child. -/
  left : Option Nat
  /-- The right child. -/
  right : Option Nat
  deriving DecidableEq, Repr

/-- The dereference `*p` of a node pointer. -/
def deref (h : List (Option (node_t V))) (p : Option Nat) : Option (node_t V) :=
  match p with
  | none => none
  | some a => (h.get? a).join

/-- The assignment `*a = n` to a live cell. -/
def store (h : List (Option (node_t V))) (a : Nat) (n : node_t V) :
    Option (List (Option (node_t V))) :=
  match deref h (some a) with
  | none => none
  | some _ => some (h.set a (some n))

/-- The call `free(a)` (or `RBT_NODE_CACHE_OR_FREE`) of a live cell. -/
def release (h : List (Option (node_t V))) (a : Nat) : Option (List (Option (node_t V))) :=
  match deref h (some a) with
  | none => none
  | some _ => some (h.set a none)

/-- The loop `while (descendent->left != NULL) descendent = descendent->left`
of `RBT_NODE_FREE`. -/
def leftmost (h : List (Option (node_t V))) : Nat → Nat → Option Nat
  | 0, _ => none
  | fuel + 1, descendent =>
    match deref h (some descendent) with
    | none => none
    | some d =>
      match d.left with
      | none => some descendent
      | some l => leftmost h fuel l

/-- The `while (1)` loop of `RBT_NODE_FREE(node)` with its variable
`descendent`. -/
def free_loop : Nat → List (Option (node_t V)) → Nat → Option Nat →
    Option (List (Option (node_t V)))
  | 0, _, _, _ => none
  | fuel + 1, h, node, descendent =>
    match deref h (some node) with
    | none => none
    | some n =>
      match n.right, n.left with
      | none, none => release h node
      | none, some heir =>
        (release h node).bind (fun h1 => free_loop fuel h1 heir descendent)
      | some heir, none =>
        (release h node).bind (fun h1 => free_loop fuel h1 heir descendent)
      | some orphan, some heir =>
        (release h node).bind (fun h1 =>
          (match descendent with
            | none => leftmost h1 (h1.length + 1) heir
            | some d => some d).bind (fun d =>
          (deref h1 (some d)).bind (fun dn =>
          (store h1 d { dn with left := some orphan }).bind (fun h2 =>
          (leftmost h2 (h2.length + 1) orphan).bind (fun d1 =>
          free_loop fuel h2 heir (some d1))))))

/-- The function `RBT_NODE_FREE(node)`. -/
def RBT_NODE_FREE (h : List (Option (node_t V))) (node : Option Nat) :
    Option (List (Option (node_t V))) :=
  match node with
  | none => some h
  | some a => free_loop (h.length + 1) h a none

/-- The function `RBT_NODE_MERGE_CHILD(parent_node, child_node)`. -/
def RBT_NODE_MERGE_CHILD (w : Nat) (h : List (Option (node_t V))) (parent_node : Nat)
    (child_node : Option Nat) : Option (List (Option (node_t V))) :=
  match deref h (some parent_node), child_node with
  | some pn, some c =>
    match deref h (some c) with
    | none => none
    | some cn =>
      let parent_pins := pn.bits / w
      let child_pins := BITS_TO_PINS w cn.bits
      let tmp_node := if pn.left = some c then pn.right else pn.left
      let pn1 : node_t V :=
        { key := pn.key.take parent_pins ++ cn.key.take child_pins
          bits := parent_pins * w + cn.bits
          value := cn.value
          left := cn.left
          right := cn.right }
      let cn1 : node_t V := { cn with value := pn.value, left := tmp_node, right := none }
      ((store h parent_node pn1).bind (fun h1 => store h1 c cn1)).bind
        (fun h2 => RBT_NODE_FREE h2 (some c))
  | _, _ => none

/-- The function `RBT_NODE_REMOVE(node, parent_node)`: the heap after the call
and the returned pointer. -/
def RBT_NODE_REMOVE (w : Nat) (h : List (Option (node_t V))) (node : Nat)
    (parent_node : Option Nat) : Option (List (Option (node_t V)) × Nat) :=
  match deref h (some node) with
  | none => none
  | some n =>
    match n.left, n.right with
    | none, none =>
      match parent_node with
      | none =>
        (store h node { n with value := default, key := [], bits := 0 }).map
          (fun h1 => (h1, node))
      | some p =>
        match deref h (some p) with
        | none => none
        | some pn =>
          if RBT_VALUE_IS_NULL pn.value then
            if pn.left = some node then
              (RBT_NODE_MERGE_CHILD w h p pn.right).map (fun h1 => (h1, p))
            else
              (RBT_NODE_MERGE_CHILD w h p pn.left).map (fun h1 => (h1, p))
          else
            ((store h p (if pn.left = some node then { pn with left := none }
                else { pn with right := none })).bind
              (fun h1 => RBT_NODE_FREE h1 (some node))).map (fun h2 => (h2, p))
    | none, some r => (RBT_NODE_MERGE_CHILD w h node (some r)).map (fun h1 => (h1, node))
    | some l, none => (RBT_NODE_MERGE_CHILD w h node (some l)).map (fun h1 => (h1, node))
    | some _, some _ => (store h node { n with value := default }).map (fun h1 => (h1, node))

/-- The variables of the `while (1)` loop of `RBT_NODE_FILTER`.  The cells of
the linked list `parent_stack` are reused in the order of their allocation
(`_RBT_NODE_STACK_ALLOCATE`, `_RBT_NODE_STACK_POP`), so the list is the first
`depth` entries of `cells`, a pointer to a cell is its position counted from
one, and a popped cell keeps its `node` field.  An entry of `stack` is the
pending right child and the pointer `parent_stack` stored with it. -/
structure filter_state (V : Type) where
  /-- The heap. -/
  h : List (Option (node_t V))
  /-- The variable `node`. -/
  node : Option Nat
  /-- The `node` fields of all cells allocated for `parent_stack`. -/
  cells : List Nat
  /-- The number of cells on `parent_stack` (`0` is `NULL`). -/
  depth : Nat
  /-- The list `stack`. -/
  stack : List (Nat × Nat)

/-- The loop `while (parent_stack != NULL && parent_stack != stack->parent_stack)`
that pops `parent_stack`: the remaining depth. -/
def pop_until : Nat → Nat → Nat
  | 0, _ => 0
  | depth + 1, cell => if depth + 1 ≠ cell then pop_until depth cell else depth + 1

/-- The statements `_RBT_NODE_STACK_ALLOCATE(parent_stack, ...);
parent_stack->node = node`. -/
def push_parent (s : filter_state V) (node : Nat) : filter_state V :=
  { s with
    cells := if s.depth < s.cells.length then s.cells.set s.depth node else s.cells ++ [node]
    depth := s.depth + 1 }

/-- The end of the loop body of `RBT_NODE_FILTER`: `if (stack != NULL)` the
walk resumes at the pending right child, `else break`.  `Sum.inr` is the heap
at the `break`. -/
def filter_resume (s : filter_state V) :
    Option (filter_state V ⊕ List (Option (node_t V))) :=
  match s.stack with
  | [] => some (.inr s.h)
  | (n, cell) :: rest =>
    some (.inl { s with node := some n, depth := pop_until s.depth cell, stack := rest })

/-- The part of the loop body of `RBT_NODE_FILTER` from `if (node->left !=
NULL)` on, for the non-`NULL` node `a`. -/
def filter_descend (s : filter_state V) (a : Nat) :
    Option (filter_state V ⊕ List (Option (node_t V))) :=
  match deref s.h (some a) with
  | none => none
  | some n =>
    match n.left, n.right with
    | some l, some r =>
      some (.inl { push_parent s a with
        node := some l, stack := (r, (push_parent s a).depth) :: s.stack })
    | some l, none => some (.inl { push_parent s a with node := some l })
    | none, some r => some (.inl { push_parent s a with node := some r })
    | none, none => filter_resume s

/-- One iteration of the `while (1)` loop of `RBT_NODE_FILTER`: the next
state (`Sum.inl`) or the heap at a `break` (`Sum.inr`).  `func_v` returns
whether its `int` result is non-zero and does not change the value. -/
def filter_step (w : Nat) (func_v : V → Bool) (include_empty : Bool) (s : filter_state V) :
    Option (filter_state V ⊕ List (Option (node_t V))) :=
  match s.node with
  | none => filter_resume s
  | some a =>
    match deref s.h (some a) with
    | none => none
    | some n =>
      if (include_empty || !RBT_VALUE_IS_NULL n.value) && func_v n.value then
        if s.depth ≠ 0 then
          match s.cells.get? (s.depth - 1) with
          | none => none
          | some p =>
            match deref s.h (some p) with
            | none => none
            | some pn =>
              let is_left : Bool := decide (pn.left = some a)
              let placeholder : Bool := n.left.isSome && n.right.isSome
              let sibling_node := if is_left then pn.right else pn.left
              match RBT_NODE_REMOVE w s.h a (some p) with
              | none => none
              | some (h1, tmp_node) =>
                if tmp_node ≠ a then
                  if is_left then
                    match deref h1 (some p) with
                    | none => none
                    | some pn1 =>
                      if pn1.right = sibling_node then
                        some (.inl { s with h := h1, node := sibling_node })
                      else
                        match s.stack with
                        | [] => some (.inl { s with h := h1, node := some p, depth := s.depth - 1 })
                        | (n1, cell) :: rest =>
                          if s.cells.get? (cell - 1) = some p then
                            some (.inl { s with
                              h := h1, node := some p, depth := s.depth - 1, stack := rest })
                          else
                            some (.inl { s with
                              h := h1, node := some p, depth := s.depth - 1,
                              stack := (n1, cell) :: rest })
                  else
                    filter_resume { s with h := h1 }
                else if !placeholder then
                  some (.inl { s with h := h1 })
                else
                  filter_descend { s with h := h1 } a
        else
          match RBT_NODE_REMOVE w s.h a none with
          | none => none
          | some (h1, _) => filter_descend { s with h := h1 } a
      else
        filter_descend s a

/-- The `while (1)` loop of `RBT_NODE_FILTER`; `none` is a dereference of an
invalid pointer or exhausted fuel. -/
def filter_loop (w : Nat) (func_v : V → Bool) (include_empty : Bool) :
    Nat → filter_state V → Option (List (Option (node_t V)))
  | 0, _ => none
  | fuel + 1, s =>
    match filter_step w func_v include_empty s with
    | none => none
    | some (.inr h) => some h
    | some (.inl s1) => filter_loop w func_v include_empty fuel s1

/-- Lay a tree out on the heap: every node gets a fresh address. -/
def alloc_tree : RBT_NODE_T V → List (Option (node_t V)) →
    Option Nat × List (Option (node_t V))
  | .NULL, h => (none, h)
  | .node key bits value left right, h =>
    let a := h.length
    let l := alloc_tree left (h ++ [none])
    let r := alloc_tree right l.2
    (some a, r.2.set a
      (some { key := key, bits := bits, value := value, left := l.1, right := r.1 }))

/-- Read the tree below a pointer off the heap. -/
def read_tree (h : List (Option (node_t V))) : Nat → Option Nat → Option (RBT_NODE_T V)
  | _, none => some .NULL
  | 0, some _ => none
  | fuel + 1, some a =>
    match deref h (some a) with
    | none => none
    | some n =>
      match read_tree h fuel n.left, read_tree h fuel n.right with
      | some l, some r => some (.node n.key n.bits n.value l r)
      | _, _ => none

end Heap

/-- The function `RBT_NODE_FILTER(node, func_v, include_empty, ...)`: the tree
after the call.  The tree is laid out on a heap, the loop runs there, and the
tree below the root pointer is read back.  `none` is a dereference of an
invalid pointer (or exhausted fuel). -/
def RBT_NODE_FILTER (w : Nat) (node : RBT_NODE_T V) (func_v : V → Bool)
    (include_empty : Bool) : Option (RBT_NODE_T V) :=
  match Heap.alloc_tree node [] with
  | (none, _) => some .NULL
  | (some root, h) =>
    match Heap.filter_loop w func_v include_empty (2 ^ (node_total node + 2))
        { h := h, node := some root, cells := [], depth := 0, stack := [] } with
    | none => none
    | some h1 => Heap.read_tree h1 (h1.length + 1) (some root)

/-! ## traverse_with_key.h: filter with key, on a heap -/

namespace Heap

/-- The struct `RBT_KEY_DATA_T` as `RBT_NODE_FILTER_WITH_KEY` hands it to the
callback; `node` is the node that `key_data.node` points to. -/
structure key_data_t (V : Type) where
  /-- The key buffer. -/
  key : List Nat
  /-- The number of significant bits in the key. -/
  bits : Nat
  /-- The number of bytes of the key that precede the current fragment. -/
  bytes : Nat
  /-- The associated node. -/
  node : node_t V
  deriving DecidableEq, Repr

/-- The variables of the `while (1)` loop of `RBT_NODE_FILTER_WITH_KEY`: those
of `RBT_NODE_FILTER`, an entry of `stack` holding the pending right child,
`bytes_in_key_prefix` and the pointer `parent_stack`; the key buffer;
`key_data.bytes`; and the calls of `func_v` made so far, in order. -/
structure filter_with_key_state (V : Type) where
  /-- The heap. -/
  h : List (Option (node_t V))
  /-- The variable `node`. -/
  node : Option Nat
  /-- The `node` fields of all cells allocated for `parent_stack`. -/
  cells : List Nat
  /-- The number of cells on `parent_stack` (`0` is `NULL`). -/
  depth : Nat
  /-- The list `stack`. -/
  stack : List (Nat × Nat × Nat)
  /-- The buffer `key_data.key`. -/
  key : List Nat
  /-- The variable `key_data.bytes`. -/
  key_bytes : Nat
  /-- The arguments of the calls of `func_v` so far. -/
  calls : List (key_data_t V)

/-- The statements `_RBT_NODE_STACK_ALLOCATE(parent_stack, ...);
parent_stack->node = node` of `RBT_NODE_FILTER_WITH_KEY`. -/
def push_parent_with_key (s : filter_with_key_state V) (node : Nat) :
    filter_with_key_state V :=
  { s with
    cells := if s.depth < s.cells.length then s.cells.set s.depth node else s.cells ++ [node]
    depth := s.depth + 1 }

/-- The end of the loop body of `RBT_NODE_FILTER_WITH_KEY`: `if (stack !=
NULL)` the walk resumes at the pending right child with its
`bytes_in_key_prefix`, `else break`.  `Sum.inr` is the heap and the calls at
the `break`. -/
def filter_with_key_resume (s : filter_with_key_state V) :
    Option (filter_with_key_state V ⊕ (List (Option (node_t V)) × List (key_data_t V))) :=
  match s.stack with
  | [] => some (.inr (s.h, s.calls))
  | (n, b, cell) :: rest =>
    some (.inl { s with
      node := some n, key_bytes := b, depth := pop_until s.depth cell, stack := rest })

/-- The part of the loop body of `RBT_NODE_FILTER_WITH_KEY` from
`if (node->left != NULL)` on, for the non-`NULL` node `a`. -/
def filter_with_key_descend (s : filter_with_key_state V) (a : Nat) :
    Option (filter_with_key_state V ⊕ (List (Option (node_t V)) × List (key_data_t V))) :=
  match deref s.h (some a) with
  | none => none
  | some n =>
    match n.left, n.right with
    | some l, some r =>
      some (.inl { push_parent_with_key s a with
        node := some l
        stack := (r, s.key_bytes, (push_parent_with_key s a).depth) :: s.stack })
    | some l, none => some (.inl { push_parent_with_key s a with node := some l })
    | none, some r => some (.inl { push_parent_with_key s a with node := some r })
    | none, none => filter_with_key_resume s

/-- The jump back to the parent `p` after a removal merged the sibling into
it: `parent_stack` is popped, `stack` is popped if its top belongs to the
parent, and `key_data.bytes` is set to the `bytes_in_key_prefix` of the top of
`stack`, or to 0 if `stack` is empty. -/
def filter_with_key_to_parent (s : filter_with_key_state V) (p : Nat) :
    filter_with_key_state V :=
  let stack1 :=
    match s.stack with
    | [] => []
    | (n1, b1, cell) :: rest =>
      if s.cells.get? (cell - 1) = some p then rest else (n1, b1, cell) :: rest
  let key_bytes1 :=
    match stack1 with
    | [] => 0
    | (_, b, _) :: _ => b
  { s with node := some p, depth := s.depth - 1, stack := stack1, key_bytes := key_bytes1 }

/-- One iteration of the `while (1)` loop of `RBT_NODE_FILTER_WITH_KEY` for
pins of `pin_size` bytes.  The common section that builds `key_data` runs
first, before `if (node != NULL)`, and dereferences `node`.  The subtraction
`key_data.bytes -= bytes` below zero wraps around in `RBT_KEY_SIZE_T`; the
next `memcpy` would then write outside the key buffer, so it is the result
`none`. -/
def filter_with_key_step (pin_size : Nat) (func_v : key_data_t V → Bool)
    (include_empty : Bool) (s : filter_with_key_state V) :
    Option (filter_with_key_state V ⊕ (List (Option (node_t V)) × List (key_data_t V))) :=
  match s.node with
  | none => none
  | some a =>
    match deref s.h (some a) with
    | none => none
    | some n =>
      let pins := n.bits / RBT_PIN_SIZE_BITS pin_size
      let key_data_bits := n.bits % RBT_PIN_SIZE_BITS pin_size
      let bytes := if key_data_bits ≠ 0 then pins * pin_size + pin_size else pins * pin_size
      let key1 := memcpy_pins s.key (s.key_bytes / pin_size) n.key (bytes / pin_size)
      let key_data_bytes := s.key_bytes + bytes
      let key_data_bytes1 :=
        if key_data_bits ≠ 0 then key_data_bytes - pin_size else key_data_bytes
      let key_data : key_data_t V :=
        { key := key1
          bits := key_data_bits + key_data_bytes1 * RBT_PIN_SIZE_BITS pin_size
          bytes := key_data_bytes1
          node := n }
      let s0 : filter_with_key_state V := { s with key := key1, key_bytes := key_data_bytes1 }
      if include_empty || !RBT_VALUE_IS_NULL n.value then
        let s1 : filter_with_key_state V := { s0 with calls := s.calls ++ [key_data] }
        if func_v key_data then
          if s1.depth ≠ 0 then
            match s1.cells.get? (s1.depth - 1) with
            | none => none
            | some p =>
              match deref s1.h (some p) with
              | none => none
              | some pn =>
                let is_left : Bool := decide (pn.left = some a)
                let placeholder : Bool := n.left.isSome && n.right.isSome
                let sibling_node := if is_left then pn.right else pn.left
                match RBT_NODE_REMOVE (RBT_PIN_SIZE_BITS pin_size) s1.h a (some p) with
                | none => none
                | some (h1, tmp_node) =>
                  if tmp_node ≠ a then
                    if is_left then
                      match deref h1 (some p) with
                      | none => none
                      | some pn1 =>
                        if pn1.right = sibling_node then
                          if bytes ≤ key_data_bytes1 then
                            some (.inl { s1 with
                              h := h1, node := sibling_node
                              key_bytes := key_data_bytes1 - bytes })
                          else none
                        else
                          some (.inl (filter_with_key_to_parent { s1 with h := h1 } p))
                    else
                      filter_with_key_resume { s1 with h := h1 }
                  else if !placeholder then
                    some (.inl { s1 with h := h1 })
                  else
                    filter_with_key_descend { s1 with h := h1 } a
          else
            match RBT_NODE_REMOVE (RBT_PIN_SIZE_BITS pin_size) s1.h a none with
            | none => none
            | some (h1, _) => filter_with_key_descend { s1 with h := h1 } a
        else
          filter_with_key_descend s1 a
      else
        filter_with_key_descend s0 a

/-- The `while (1)` loop of `RBT_NODE_FILTER_WITH_KEY`; `none` is a
dereference of an invalid pointer or exhausted fuel. -/
def filter_with_key_loop (pin_size : Nat) (func_v : key_data_t V → Bool)
    (include_empty : Bool) :
    Nat → filter_with_key_state V → Option (List (Option (node_t V)) × List (key_data_t V))
  | 0, _ => none
  | fuel + 1, s =>
    match filter_with_key_step pin_size func_v include_empty s with
    | none => none
    | some (.inr r) => some r
    | some (.inl s1) => filter_with_key_loop pin_size func_v include_empty fuel s1

end Heap

/-- The function `RBT_NODE_FILTER_WITH_KEY(node, func_v, include_empty, ...)`
for pins of `pin_size` bytes: the tree after the call and the arguments of the
calls of `func_v`, in order.  `func_v` returns whether its `int` result is
non-zero and does not change the value.  `none` is a dereference of an invalid
pointer (or exhausted fuel). -/
def RBT_NODE_FILTER_WITH_KEY (pin_size : Nat) (node : RBT_NODE_T V)
    (func_v : Heap.key_data_t V → Bool) (include_empty : Bool) :
    Option (RBT_NODE_T V × List (Heap.key_data_t V)) :=
  match Heap.alloc_tree node [] with
  | (none, _) => some (.NULL, [])
  | (some root, h) =>
    match Heap.filter_with_key_loop pin_size func_v include_empty (2 ^ (node_total node + 2))
        { h := h, node := some root, cells := [], depth := 0, stack := [], key := [],
          key_bytes := 0, calls := [] } with
    | none => none
    | some (h1, calls) =>
      (Heap.read_tree h1 (h1.length + 1) (some root)).map (fun t => (t, calls))

/-! ## node.h: copy -/

/-- The assignment `* ptr = new_node`, where `ptr` points to a child field of
the tree under construction: the path `[]` is `&new_root`, and `p ++ [side]`
is the field `left` or `right` of the node at `p`. -/
def set_at : RBT_NODE_T V → List Bool → RBT_NODE_T V → RBT_NODE_T V
  | _, [], new_node => new_node
  | .NULL, _ :: _, _ => .NULL
  | .node key bits value left right, side :: p, new_node =>
    if side then .node key bits value left (set_at right p new_node)
    else .node key bits value (set_at left p new_node) right

/-- The loop `while (node != NULL)` of `RBT_NODE_COPY` with its variables
`node`, `child_ptr`, `stack` (pending right children with the field to fill)
and the tree below `new_root`; `fuel` bounds the number of iterations. -/
def copy_loop (w : Nat) : Nat → RBT_NODE_T V → List Bool →
    List (RBT_NODE_T V × List Bool) → RBT_NODE_T V → Option (RBT_NODE_T V)
  | 0, _, _, _, _ => none
  | _ + 1, .NULL, _, _, new_root => some new_root
  | fuel + 1, .node key bits value left right, child_ptr, stack, new_root =>
    let new_root1 := set_at new_root child_ptr (RBT_NODE_CREATE w key bits value .NULL .NULL)
    if !is_NULL left then
      if !is_NULL right then
        copy_loop w fuel left (child_ptr ++ [false]) ((right, child_ptr ++ [true]) :: stack)
          new_root1
      else
        copy_loop w fuel left (child_ptr ++ [false]) stack new_root1
    else if !is_NULL right then
      copy_loop w fuel right (child_ptr ++ [true]) stack new_root1
    else
      match stack with
      | (n, ptr) :: rest => copy_loop w fuel n ptr rest new_root1
      | [] => some new_root1

/-- The function `RBT_NODE_COPY(node)`: the root of the copy. -/
def RBT_NODE_COPY (w : Nat) (node : RBT_NODE_T V) : Option (RBT_NODE_T V) :=
  match node with
  | .NULL => some .NULL
  | .node key bits value left right =>
    copy_loop w (node_total (.node key bits value left right))
      (.node key bits value left right) [] [] .NULL

/-- The tree with the key buffer of every node cut down to the pins that
`RBT_NODE_CREATE` copies. -/
def trimmed (w : Nat) : RBT_NODE_T V → RBT_NODE_T V
  | .NULL => .NULL
  | .node key bits value left right =>
    .node (key.take (BITS_TO_PINS w bits)) bits value (trimmed w left) (trimmed w right)

/-- The stores that the entries of the copy stack stand for. -/
def fill_stack (w : Nat) : List (RBT_NODE_T V × List Bool) → RBT_NODE_T V → RBT_NODE_T V
  | [], new_root => new_root
  | (n, ptr) :: rest, new_root => fill_stack w rest (set_at new_root ptr (trimmed w n))

/-! ## node.h: sibling insertion with allocations that may fail, on a heap -/

namespace Heap

/-- The function `RBT_NODE_CREATE(key, bits, value, left, right)` on the heap:
the new node gets a fresh address.  `ok` is whether its allocations succeed;
if not, the heap is unchanged and the result is `NULL`. -/
def RBT_NODE_CREATE (w : Nat) (h : List (Option (node_t V))) (key : List Nat) (bits : Nat)
    (value : V) (left right : Option Nat) (ok : Bool) :
    List (Option (node_t V)) × Option Nat :=
  if ok then
    (h ++ [some { key := key.take (BITS_TO_PINS w bits), bits := bits, value := value,
                  left := left, right := right }], some h.length)
  else (h, none)

/-- The function `RBT_NODE_INSERT_SIBLING(node, key, bits, common_bits,
common_pins, common_staggered_bits, value)` on the heap.  `ok_baby`,
`ok_sibling` and `ok_realloc` are whether the two calls of `RBT_NODE_CREATE`
and the `realloc` of the key of `node` succeed.  The result is the heap after
the call and the returned pointer; `none` is an invalid access. -/
def RBT_NODE_INSERT_SIBLING (w : Nat) (h : List (Option (node_t V))) (node : Nat)
    (key : List Nat) (bits common_bits common_pins common_staggered_bits : Nat) (value : V)
    (ok_baby ok_sibling ok_realloc : Bool) :
    Option (List (Option (node_t V)) × Option Nat) :=
  match deref h (some node) with
  | none => none
  | some n =>
    let created := RBT_NODE_CREATE w h (key.drop common_pins)
      (bits - common_bits + common_staggered_bits) value none none ok_baby
    match created.2 with
    | none => some (created.1, none)
    | some baby =>
      let created1 := RBT_NODE_CREATE w created.1 (n.key.drop common_pins)
        (n.bits - common_bits + common_staggered_bits) default n.left n.right ok_sibling
      match created1.2 with
      | none => (RBT_NODE_FREE created1.1 (some baby)).map (fun h1 => (h1, none))
      | some sibling =>
        let parent_pins := if common_staggered_bits > 0 then common_pins + 1 else common_pins
        if !ok_realloc && parent_pins ≠ 0 then
          ((RBT_NODE_FREE created1.1 (some sibling)).bind
            (fun h1 => RBT_NODE_FREE h1 (some baby))).map (fun h2 => (h2, none))
        else
          match deref created1.1 (some baby), deref created1.1 (some sibling) with
          | some bn, some sn =>
            let sn1 : node_t V := { sn with value := n.value }
            let n1 : node_t V :=
              if N_BIT_IS_1 w (bn.key.headD 0) common_staggered_bits then
                { key := n.key.take parent_pins, bits := common_bits, value := sn.value,
                  left := some sibling, right := some baby }
              else
                { key := n.key.take parent_pins, bits := common_bits, value := sn.value,
                  left := some baby, right := some sibling }
            ((store created1.1 sibling sn1).bind (fun h1 => store h1 node n1)).map
              (fun h2 => (h2, some baby))
          | _, _ => none

end Heap

/-! ## Auxiliary predicates -/

/-- The root that `RBT_NODE_RETRIEVE` fills in place: no bits, no children,
no value, and a key of at least one bit. -/
def fills_root (n : RBT_NODE_T V) (bits : Nat) : Prop :=
  match n with
  | .NULL => False
  | .node _ nbits nvalue left right =>
    nbits = 0 ∧ bits ≠ 0 ∧ is_NULL left = true ∧ is_NULL right = true ∧
      RBT_VALUE_IS_NULL nvalue = true


/-- A key buffer of pins of `w` bits that holds `bits` bits. -/
def key_ok (w : Nat) (key : List Nat) (bits : Nat) : Prop :=
  bits ≤ w * key.length ∧ ∀ p ∈ key, p < 2 ^ w

/-- The trees reachable from the empty tree `RBT_NODE_NEW()` by calls of
`RBT_NODE_QUERY` (insert, delete, retrieve, retrieve-and-insert, swap) that
return. -/
inductive Reachable (S w : Nat) : RBT_NODE_T V → Prop where
  | new : Reachable S w (RBT_NODE_NEW w)
  | query (t t1 : RBT_NODE_T V) (key : List Nat) (bits : Nat) (action : rbt_query_action_t)
      (value ret : V) : Reachable S w t → key_ok w key bits →
      RBT_NODE_QUERY S w t key bits action value = some (t1, ret) → Reachable S w t1

/-- Every node of the subtree that holds the empty value has both a left and
a right child. -/
def no_redundant : RBT_NODE_T V → Prop
  | .NULL => True
  | .node _ _ value left right =>
    (value = default → is_NULL left = false ∧ is_NULL right = false) ∧
      no_redundant left ∧ no_redundant right

/-- The empty tree: a root without bits, value and children. -/
def is_empty_root (n : RBT_NODE_T V) : Prop :=
  match n with
  | .NULL => False
  | .node _ bits value left right =>
    bits = 0 ∧ value = default ∧ is_NULL left = true ∧ is_NULL right = true

/-- The structural invariant of a tree: it is the empty tree, or no node with
the empty value has fewer than two children. -/
def structural_invariant (root : RBT_NODE_T V) : Prop :=
  is_empty_root root ∨ (is_NULL root = false ∧ no_redundant root)

/-- The path `p` leads to a node of the tree, and `no_redundant` holds
everywhere except possibly at that node. -/
def almost_good : RBT_NODE_T V → List Bool → Prop
  | .NULL, _ => False
  | .node _ _ _ left right, [] => no_redundant left ∧ no_redundant right
  | .node _ _ value left right, side :: p =>
    (value = default → is_NULL left = false ∧ is_NULL right = false) ∧
      (if side then no_redundant left ∧ almost_good right p
       else almost_good left p ∧ no_redundant right)

/-- The bit that `RBT_NODE_RETRIEVE` tests to choose a child, read off the
child's own fragment: the bit of the first pin of `child` that follows the
`parent_bits % w` staggered bits of its parent (`true` for the empty child). -/
def first_own_bit (w : Nat) (parent_bits : Nat) (child : RBT_NODE_T V) : Bool :=
  match child with
  | .NULL => true
  | .node key _ _ _ _ => N_BIT_IS_1 w (key.headD 0) (parent_bits % w)

/-- The child-side invariant: at every node the first own bit of a left child
is 0 and the first own bit of a right child is 1. -/
def child_sides_ok (w : Nat) : RBT_NODE_T V → Bool
  | .NULL => true
  | .node _ bits _ left right =>
    (is_NULL left || !first_own_bit w bits left) &&
      (is_NULL right || first_own_bit w bits right) &&
      child_sides_ok w left && child_sides_ok w right

/-- Bit `i` of a key buffer of pins of `w` bits: the pins in order, the most
significant bit of each pin first (a pin past the end reads as 0). -/
def key_bit (w : Nat) (a : List Nat) (i : Nat) : Bool :=
  (a.getD (i / w) 0).testBit (w - 1 - i % w)

/-! ## set.h

A set is a tree with values of type `int` (`RBT_VALUE_NULL` is `0`); pins have
`pin_size` bytes, so `RBT_PIN_SIZE_BITS pin_size` bits.  The callbacks below
return `0`, so `RBT_NODE_TRAVERSE_WITH_KEY` visits every node of the traversed
set, and their effect on the other set (a different tree, taken from the
variable arguments) is folded over the calls in order.  `none` is a
dereference of `NULL`. -/

/-- The expression `b->value` for the node pointer `b` into the tree `t`. -/
def deref_value (t : RBT_NODE_T V) (b : Option (List Bool)) : Option V :=
  b.bind (value_at t)

/-- The function `RBT_SET_ADD(set, item)`: `RBT_INSERT(set, item, 1)`, with the
item already cast to pins. -/
def RBT_SET_ADD (S pin_size : Nat) (set : RBT_NODE_T Int) (item : List Nat) (bits : Nat) :
    Option (RBT_NODE_T Int) :=
  (RBT_NODE_QUERY S (RBT_PIN_SIZE_BITS pin_size) set item bits .INSERT 1).map (fun r => r.1)

/-- The function `RBT_SET_INCLUDES(set, item)`: `RBT_HAS_KEY(set, item)`. -/
def RBT_SET_INCLUDES (S pin_size : Nat) (set : RBT_NODE_T Int) (item : List Nat) (bits : Nat) :
    Option Bool :=
  RBT_HAS_KEY S (RBT_PIN_SIZE_BITS pin_size) set item bits

/-- The set obtained from `RBT_NODE_NEW()` by `RBT_SET_ADD` of the items of a
list, in order. -/
def set_from (S pin_size : Nat) (items : List (List Nat × Nat)) : Option (RBT_NODE_T Int) :=
  items.foldlM (fun set item => RBT_SET_ADD S pin_size set item.1 item.2)
    (RBT_NODE_NEW (RBT_PIN_SIZE_BITS pin_size))

/-- The callback `_RBT_SET_MODIFY_UNION_TRAVERSE(key_data, height, args)`: the
set `target` after the call. -/
def SET_MODIFY_UNION_TRAVERSE (S pin_size : Nat) (key_data : RBT_KEY_DATA_T Int)
    (target : RBT_NODE_T Int) : Option (RBT_NODE_T Int) :=
  (deref_value key_data.node (some [])).map (fun value =>
    if !RBT_VALUE_IS_NULL value then
      (RBT_NODE_RETRIEVE S (RBT_PIN_SIZE_BITS pin_size) target key_data.key key_data.bits
        .INSERT 1).1
    else target)

/-- The function `RBT_SET_MODIFY_UNION(a, b)`: the set `a` after the call. -/
def RBT_SET_MODIFY_UNION (S pin_size : Nat) (a b : RBT_NODE_T Int) : Option (RBT_NODE_T Int) :=
  (RBT_NODE_TRAVERSE_WITH_KEY pin_size b (fun _ _ => false)).bind (fun calls =>
    calls.foldlM (fun target c => SET_MODIFY_UNION_TRAVERSE S pin_size c.1 target) a)

/-- The callback `_RBT_SET_DIFFERENCE_TRAVERSE(key_data, height, args)` with
the sets `b` and `c` of `args`: the set `c` after the call.  The lookup result
is assigned to `b`, and `b->value` is evaluated inside `if (b == NULL)`. -/
def SET_DIFFERENCE_TRAVERSE (S pin_size : Nat) (key_data : RBT_KEY_DATA_T Int)
    (b c : RBT_NODE_T Int) : Option (RBT_NODE_T Int) :=
  (deref_value key_data.node (some [])).bind (fun value =>
    if !RBT_VALUE_IS_NULL value then
      let found := (RBT_NODE_RETRIEVE S (RBT_PIN_SIZE_BITS pin_size) b key_data.key
        key_data.bits .NOTHING default).2
      if found.isNone then
        (deref_value b found).map (fun b_value =>
          (RBT_NODE_RETRIEVE S (RBT_PIN_SIZE_BITS pin_size) c key_data.key key_data.bits
            .INSERT_OR_REPLACE b_value).1)
      else some c
    else some c)

/-- The function `RBT_SET_DIFFERENCE(a, b)`: the returned set `c`. -/
def RBT_SET_DIFFERENCE (S pin_size : Nat) (a b : RBT_NODE_T Int) : Option (RBT_NODE_T Int) :=
  (RBT_NODE_TRAVERSE_WITH_KEY pin_size a (fun _ _ => false)).bind (fun calls =>
    calls.foldlM (fun c call => SET_DIFFERENCE_TRAVERSE S pin_size call.1 b c)
      (RBT_NODE_NEW (RBT_PIN_SIZE_BITS pin_size)))

/-- The callback `_RBT_SET_MODIFY_EXCLUSIVE_DISJUNCTION_TRAVERSE(key_data,
height, args)`: the set `target` after the call.  The action passed to
`RBT_NODE_RETRIEVE` is `RBT_QUERY_ACTION_INSERT`, the enumerator with the
value 1 of `RBT_RETRIEVE_ACTION_INSERT`. -/
def SET_MODIFY_EXCLUSIVE_DISJUNCTION_TRAVERSE (S pin_size : Nat)
    (key_data : RBT_KEY_DATA_T Int) (target : RBT_NODE_T Int) : Option (RBT_NODE_T Int) :=
  (deref_value key_data.node (some [])).bind (fun value =>
    if !RBT_VALUE_IS_NULL value then
      let r := RBT_NODE_RETRIEVE S (RBT_PIN_SIZE_BITS pin_size) target key_data.key
        key_data.bits .INSERT default
      (deref_value r.1 r.2).bind (fun target_value =>
        if target_value ≠ 0 then r.2.bind (remove_at (RBT_PIN_SIZE_BITS pin_size) r.1)
        else r.2.bind (set_value_at 1 r.1))
    else some target)

/-- The function `RBT_SET_MODIFY_EXCLUSIVE_DISJUNCTION(a, b)`: the set `a`
after the call. -/
def RBT_SET_MODIFY_EXCLUSIVE_DISJUNCTION (S pin_size : Nat) (a b : RBT_NODE_T Int) :
    Option (RBT_NODE_T Int) :=
  (RBT_NODE_TRAVERSE_WITH_KEY pin_size b (fun _ _ => false)).bind (fun calls =>
    calls.foldlM (fun target c => SET_MODIFY_EXCLUSIVE_DISJUNCTION_TRAVERSE S pin_size c.1 target)
      a)

/-- The callback `_RBT_SET_MODIFY_INTERSECTION_FILTER(key_data, args)` with the
set `target` of `args`: whether the result is non-zero.  The result of the
lookup is compared with `NULL`; the value of the node found is not read. -/
def SET_MODIFY_INTERSECTION_FILTER (S pin_size : Nat) (target : RBT_NODE_T Int)
    (key_data : Heap.key_data_t Int) : Bool :=
  if !RBT_VALUE_IS_NULL key_data.node.value then
    (RBT_NODE_RETRIEVE S (RBT_PIN_SIZE_BITS pin_size) target key_data.key key_data.bits
      .NOTHING default).2.isNone
  else true

/-- The function `RBT_SET_MODIFY_INTERSECTION(a, b)`: the set `a` after the
call. -/
def RBT_SET_MODIFY_INTERSECTION (S pin_size : Nat) (a b : RBT_NODE_T Int) :
    Option (RBT_NODE_T Int) :=
  (RBT_NODE_FILTER_WITH_KEY pin_size a (SET_MODIFY_INTERSECTION_FILTER S pin_size b) false).map
    (fun r => r.1)

/-! ## set.h: subset test, difference in place, and the variants that copy -/

/-- The callback `_RBT_SET_IS_SUBSET_TRAVERSE(key_data, height, args)` with the
set `target` of `args`: whether the result is non-zero, in which case
`* is_subset = 0` has been executed.  The result of the lookup is compared
with `NULL`; the value of the node found is not read. -/
def SET_IS_SUBSET_TRAVERSE (S pin_size : Nat) (target : RBT_NODE_T Int)
    (key_data : RBT_KEY_DATA_T Int) (_height : Nat) : Bool :=
  match key_data.node with
  | .NULL => false
  | .node _ _ value _ _ =>
    if !RBT_VALUE_IS_NULL value then
      (RBT_NODE_RETRIEVE S (RBT_PIN_SIZE_BITS pin_size) target key_data.key key_data.bits
        .NOTHING default).2.isNone
    else false

/-- The function `RBT_SET_IS_SUBSET(a, b)`: whether the result is non-zero.
`is_subset` starts as 1 and is cleared by the call of the callback that stops
the traversal of `a`. -/
def RBT_SET_IS_SUBSET (S pin_size : Nat) (a b : RBT_NODE_T Int) : Option Bool :=
  (RBT_NODE_TRAVERSE_WITH_KEY pin_size a (SET_IS_SUBSET_TRAVERSE S pin_size b)).map
    (fun calls => !calls.any (fun c => SET_IS_SUBSET_TRAVERSE S pin_size b c.1 c.2))

/-- The callback `_RBT_SET_MODIFY_DIFFERENCE_TRAVERSE(key_data, height, args)`:
the set `target` after the call. -/
def SET_MODIFY_DIFFERENCE_TRAVERSE (S pin_size : Nat) (key_data : RBT_KEY_DATA_T Int)
    (target : RBT_NODE_T Int) : Option (RBT_NODE_T Int) :=
  (deref_value key_data.node (some [])).bind (fun value =>
    if !RBT_VALUE_IS_NULL value then
      match (RBT_NODE_RETRIEVE S (RBT_PIN_SIZE_BITS pin_size) target key_data.key
        key_data.bits .NOTHING default).2 with
      | none => some target
      | some p => remove_at (RBT_PIN_SIZE_BITS pin_size) target p
    else some target)

/-- The function `RBT_SET_MODIFY_DIFFERENCE(a, b)`: the set `a` after the
call. -/
def RBT_SET_MODIFY_DIFFERENCE (S pin_size : Nat) (a b : RBT_NODE_T Int) :
    Option (RBT_NODE_T Int) :=
  (RBT_NODE_TRAVERSE_WITH_KEY pin_size b (fun _ _ => false)).bind (fun calls =>
    calls.foldlM (fun target c => SET_MODIFY_DIFFERENCE_TRAVERSE S pin_size c.1 target) a)

/-- The function `RBT_SET_UNION(a, b)`: the returned set. -/
def RBT_SET_UNION (S pin_size : Nat) (a b : RBT_NODE_T Int) : Option (RBT_NODE_T Int) :=
  (RBT_NODE_COPY (RBT_PIN_SIZE_BITS pin_size) a).bind (fun c =>
    (RBT_NODE_TRAVERSE_WITH_KEY pin_size b (fun _ _ => false)).bind (fun calls =>
      calls.foldlM (fun target call => SET_MODIFY_UNION_TRAVERSE S pin_size call.1 target) c))

/-- The function `RBT_SET_INTERSECTION(a, b)`: the returned set. -/
def RBT_SET_INTERSECTION (S pin_size : Nat) (a b : RBT_NODE_T Int) : Option (RBT_NODE_T Int) :=
  (RBT_NODE_COPY (RBT_PIN_SIZE_BITS pin_size) a).bind (fun c =>
    RBT_SET_MODIFY_INTERSECTION S pin_size c b)

/-- The function `RBT_SET_EXCLUSIVE_DISJUNCTION(a, b)`: the returned set. -/
def RBT_SET_EXCLUSIVE_DISJUNCTION (S pin_size : Nat) (a b : RBT_NODE_T Int) :
    Option (RBT_NODE_T Int) :=
  (RBT_NODE_COPY (RBT_PIN_SIZE_BITS pin_size) a).bind (fun c =>
    (RBT_NODE_TRAVERSE_WITH_KEY pin_size b (fun _ _ => false)).bind (fun calls =>
      calls.foldlM
        (fun target call => SET_MODIFY_EXCLUSIVE_DISJUNCTION_TRAVERSE S pin_size call.1 target) c))

/-! ## node.h: count -/

/-- The number of nodes of a tree that hold a non-empty value. -/
def valued_total : RBT_NODE_T V → Nat
  | .NULL => 0
  | .node _ _ value left right =>
    (if RBT_VALUE_IS_NULL value then 0 else 1) + valued_total left + valued_total right

/-- The number of nodes of a tree that hold the empty value. -/
def empty_total : RBT_NODE_T V → Nat
  | .NULL => 0
  | .node _ _ value left right =>
    (if RBT_VALUE_IS_NULL value then 1 else 0) + empty_total left + empty_total right

/-- The `while (1)` loop of `RBT_NODE_COUNT` with its stack of pending right
children and the counter `n` of type `RBT_KEY_SIZE_T`, an unsigned type of `S`
bits: `n ++` wraps around.  `fuel` bounds the number of iterations. -/
def count_loop (S : Nat) : Nat → RBT_NODE_T V → List (RBT_NODE_T V) → Nat → Option Nat
  | 0, _, _, _ => none
  | _ + 1, .NULL, _, _ => none
  | fuel + 1, .node _ _ value left right, stack, n =>
    let n1 := if !RBT_VALUE_IS_NULL value then (n + 1) % 2 ^ S else n
    if is_NULL right then
      if is_NULL left then
        match stack with
        | [] => some n1
        | node1 :: rest => count_loop S fuel node1 rest n1
      else count_loop S fuel left stack n1
    else if is_NULL left then count_loop S fuel right stack n1
    else count_loop S fuel left (right :: stack) n1

/-- The function `RBT_NODE_COUNT(node)` with a key size type of `S` bits. -/
def RBT_NODE_COUNT (S : Nat) (node : RBT_NODE_T V) : Option Nat :=
  match node with
  | .NULL => some 0
  | .node key bits value left right =>
    count_loop S (node_total (.node key bits value left right))
      (.node key bits value left right) [] 0

/-- A tree of `n` nodes, each with the value 1 and, but for the last, a left
child only: the keys 0, 00, 000, ... over pins of 8 bits, the node at depth
`d` holding the pin 0 and `d % 8 + 1` bits. -/
def left_chain : Nat → Nat → RBT_NODE_T Nat
  | 0, _ => .NULL
  | n + 1, d => .node [0] (d % 8 + 1) 1 (left_chain n (d + 1)) .NULL

/-! ## Arithmetic in the key size type

The functions below take the width `S` in bits of `RBT_KEY_SIZE_T`, an
unsigned type: sums and products wrap around modulo `2 ^ S`. -/

/-- The function `RBT_COMMON_BIT_PREFIX_LEN(a, b, max)` with `length` in a key
size type of `S` bits, on buffers that end: a read of a pin past the end of
`a` or `b` is the result `none`.  Every iteration of the first loop advances
both buffers by one pin. -/
def RBT_COMMON_BIT_PREFIX_LEN_WRAP (S w : Nat) : List Nat → List Nat → Nat → Nat → Option Nat
  | [], _, length, max => if length < max then none else some max
  | _ :: _, [], length, max => if length < max then none else some max
  | x :: a, y :: b, length, max =>
    if length < max then
      if x = y then RBT_COMMON_BIT_PREFIX_LEN_WRAP S w a b ((length + w) % 2 ^ S) max
      else
        let length1 := (length + builtin_clz w (x ^^^ y)) % 2 ^ S
        some (if length1 > max then max else length1)
    else some max

/-- The struct `RBT_NODE_CACHE_T`: the linked list of cached nodes (their
addresses, the first one is `node`) and the counter `n`. -/
structure RBT_NODE_CACHE_T where
  /-- The cached nodes, linked through their `left` pointers. -/
  node : List Nat
  /-- The number of nodes in the cache. -/
  n : Nat
  deriving DecidableEq, Repr

/-- The macro `RBT_NODE_CACHE_OR_FREE(node)` of the caching variant, for
`RBT_NODE_CACHE_SIZE = cache_size`: the cache after the call. -/
def RBT_NODE_CACHE_OR_FREE (cache_size : Nat) (cache : RBT_NODE_CACHE_T) (node : Nat) :
    RBT_NODE_CACHE_T :=
  if cache_size = 0 ∨ cache.n ≤ cache_size then
    { node := node :: cache.node, n := cache.n + 1 }
  else cache

/-- The part of `RBT_NODE_CREATE` that takes a node from the cache: the cache
after the call and the node taken (`none` if the cache is empty and a node is
allocated). -/
def cache_take (cache : RBT_NODE_CACHE_T) : RBT_NODE_CACHE_T × Option Nat :=
  match cache.node with
  | [] => (cache, none)
  | node :: rest => ({ node := rest, n := cache.n - 1 }, some node)

/-! ## main.c: the mode that `adjust_attrib` applies -/

/-- The constant `S_IFMT` of `sys/stat.h`. -/
def S_IFMT : Nat := 0o170000
/-- The constant `S_IRWXU`. -/
def S_IRWXU : Nat := 0o700
/-- The constant `S_IRUSR`. -/
def S_IRUSR : Nat := 0o400
/-- The constant `S_IWUSR`. -/
def S_IWUSR : Nat := 0o200
/-- The constant `S_IXUSR`. -/
def S_IXUSR : Nat := 0o100
/-- The constant `S_IRGRP`. -/
def S_IRGRP : Nat := 0o040
/-- The constant `S_IWGRP`. -/
def S_IWGRP : Nat := 0o020
/-- The constant `S_IXGRP`. -/
def S_IXGRP : Nat := 0o010
/-- The constant `S_IROTH`. -/
def S_IROTH : Nat := 0o004
/-- The constant `S_IWOTH`. -/
def S_IWOTH : Nat := 0o002
/-- The constant `S_IXOTH`. -/
def S_IXOTH : Nat := 0o001

/-- The complement `~x` of a `mode_t`, an unsigned integer of 32 bits. -/
def mode_not (x : Nat) : Nat := (2 ^ 32 - 1) ^^^ (x % 2 ^ 32)

/-- The variable `mode` of `adjust_attrib` when it is compared with
`st->st_mode` and passed to `chmod`, computed from the current mode
`st_mode` and a mask that is not the kill mask. -/
def adjust_attrib_mode (st_mode mask : Nat) : Nat :=
  let mode := st_mode &&& (S_IRWXU ||| S_IFMT)
  let mode1 := if mode &&& S_IRUSR ≠ 0 then mode ||| (S_IRGRP ||| S_IROTH) else mode
  let mode2 := if mode1 &&& S_IWUSR ≠ 0 then mode1 ||| (S_IWGRP ||| S_IWOTH) else mode1
  let mode3 := if mode2 &&& S_IXUSR ≠ 0 then mode2 ||| (S_IXGRP ||| S_IXOTH) else mode2
  mode3 &&& mode_not mask

/-- The mode that the header `file_parser.h` documents for the mask: the owner
part of the mask is applied to the owner bits first, the result is copied to
group and others, and the group and other parts of the mask are removed. -/
def documented_mode (st_mode mask : Nat) : Nat :=
  let owner := ((st_mode &&& S_IRWXU) >>> 6) &&& mode_not (mask >>> 6) &&& 7
  let group := owner &&& mode_not (mask >>> 3) &&& 7
  let other := owner &&& mode_not mask &&& 7
  (st_mode &&& S_IFMT) ||| (owner <<< 6) ||| (group <<< 3) ||| other

/-- The bit of the current mode that bit `i` of the adjusted mode is taken
from before the mask is cleared: the owner bits serve the owner, the group and
the others, the file type bits are kept, every other bit is dropped. -/
def mode_src (m i : Nat) : Bool :=
  if i = 8 ∨ i = 5 ∨ i = 2 then m.testBit 8
  else if i = 7 ∨ i = 4 ∨ i = 1 then m.testBit 7
  else if i = 6 ∨ i = 3 ∨ i = 0 then m.testBit 6
  else if 12 ≤ i ∧ i ≤ 15 then m.testBit i
  else false

/-! ## node.h: the descent loop of `RBT_NODE_RETRIEVE` as a loop -/

/-- The enum `rbt_retrieve_action_t` with all four enumerators. -/
inductive rbt_retrieve_action_all_t where
  | NOTHING
  | INSERT
  | INSERT_OR_REPLACE
  | PREFIX_SUBTREE
  deriving DecidableEq, Repr

/-- Whether the action inserts a missing node. -/
def rbt_retrieve_action_all_t.inserts : rbt_retrieve_action_all_t → Bool
  | .NOTHING => false
  | .INSERT => true
  | .INSERT_OR_REPLACE => true
  | .PREFIX_SUBTREE => false

/-- The first `L` bits of a key buffer. -/
def key_bits (w : Nat) (key : List Nat) (L : Nat) : List Bool :=
  (List.range L).map (key_bit w key)

/-- Lookup in a reference map, an association list from keys (bit strings) to
values: the value of the first entry for the key, the empty value if there is
none. -/
def ref_lookup : List (List Bool × V) → List Bool → V
  | [], _ => default
  | e :: m, k => if e.1 = k then e.2 else ref_lookup m k

/-- Removal of a key from a reference map. -/
def ref_remove (m : List (List Bool × V)) (k : List Bool) : List (List Bool × V) :=
  m.filter (fun e => decide (e.1 ≠ k))

/-- The operation on a reference map that corresponds to a query: retrieve
leaves the map as it is, delete removes the key, insert, retrieve-and-insert
and swap bind the key to the value (the empty value removes the key). -/
def ref_step (m : List (List Bool × V)) (k : List Bool) (action : rbt_query_action_t)
    (value : V) : List (List Bool × V) :=
  match action with
  | .RETRIEVE => m
  | .DELETE => ref_remove m k
  | .INSERT => if value = default then ref_remove m k else (k, value) :: ref_remove m k
  | .RETRIEVE_AND_INSERT =>
    if value = default then ref_remove m k else (k, value) :: ref_remove m k
  | .SWAP => if value = default then ref_remove m k else (k, value) :: ref_remove m k

/-- A sequence of calls of `RBT_NODE_QUERY` with keys of `L` bits on a tree:
the tree after the last call, `none` if a call dereferences `NULL`. -/
def run_queries (S w L : Nat) :
    RBT_NODE_T V → List (rbt_query_action_t × List Nat × V) → Option (RBT_NODE_T V)
  | t, [] => some t
  | t, (action, key, value) :: ops =>
    match RBT_NODE_QUERY S w t key L action value with
    | none => none
    | some r => run_queries S w L r.1 ops

/-- The same sequence of operations on a reference map. -/
def ref_run (w L : Nat) :
    List (List Bool × V) → List (rbt_query_action_t × List Nat × V) → List (List Bool × V)
  | m, [] => m
  | m, (action, key, value) :: ops => ref_run w L (ref_step m (key_bits w key L) action value) ops

set_option linter.unusedSectionVars false

/-! ## Lemmas on `RBT_COMMON_BIT_PREFIX_LEN` -/

theorem cbpl_loop_le (S w : Nat) : ∀ (f : Nat) (a b : List Nat) (len m : Nat),
    common_bit_prefix_len_loop S w f a b len m ≤ m := by
  intro f
  induction f with
  | zero => intro a b len m; simp [common_bit_prefix_len_loop]
  | succ f ih =>
    intro a b len m
    simp only [common_bit_prefix_len_loop]
    split_ifs <;> first | exact ih _ _ _ _ | omega

theorem cbpl_le (S w : Nat) (a b : List Nat) (m : Nat) :
    RBT_COMMON_BIT_PREFIX_LEN S w a b m ≤ m :=
  cbpl_loop_le S w _ _ _ _ _

theorem cbpl_zero (S w : Nat) (a b : List Nat) : RBT_COMMON_BIT_PREFIX_LEN S w a b 0 = 0 :=
  Nat.le_zero.mp (cbpl_le S w a b 0)

theorem cbpl_loop_nil (S w : Nat) (f len m : Nat) :
    common_bit_prefix_len_loop S w (f + 1) [] [] len m =
      if len < m then common_bit_prefix_len_loop S w f [] [] ((len + w) % 2 ^ S) m else m := by
  rw [common_bit_prefix_len_loop]
  by_cases h : len < m
  · rw [if_pos ⟨h, rfl⟩, if_pos h]; rfl
  · rw [if_neg (fun hh => h hh.1), if_neg h, if_neg h]

theorem orbit_step (S w len j : Nat) :
    ((len + w) % 2 ^ S + j * w) % 2 ^ S = (len + (j + 1) * w) % 2 ^ S := by
  rw [Nat.mod_add_mod]
  congr 1
  ring

theorem cbpl_loop_nil_exit (S w m : Nat) : ∀ (k f len : Nat), k < f →
    (∀ j, j < k → (len + j * w) % 2 ^ S < m) → m ≤ (len + k * w) % 2 ^ S → len < 2 ^ S →
    common_bit_prefix_len_loop S w f [] [] len m = m := by
  intro k
  induction k with
  | zero =>
    intro f len hf _ hk hl
    obtain ⟨f1, rfl⟩ : ∃ f1, f = f1 + 1 := ⟨f - 1, by omega⟩
    simp only [Nat.zero_mul, Nat.add_zero, Nat.mod_eq_of_lt hl] at hk
    rw [cbpl_loop_nil, if_neg (by omega)]
  | succ k ih =>
    intro f len hf hj hk hl
    obtain ⟨f1, rfl⟩ : ∃ f1, f = f1 + 1 := ⟨f - 1, by omega⟩
    have h0 := hj 0 (by omega)
    simp only [Nat.zero_mul, Nat.add_zero, Nat.mod_eq_of_lt hl] at h0
    rw [cbpl_loop_nil, if_pos h0]
    apply ih f1 _ (by omega)
    · intro j hjk
      rw [orbit_step]
      exact hj (j + 1) (by omega)
    · rw [orbit_step]; exact hk
    · exact Nat.mod_lt _ (Nat.two_pow_pos S)

theorem cbpl_loop_nil_never (S w m : Nat) : ∀ (f len : Nat),
    (∀ j, (len + j * w) % 2 ^ S < m) → len < 2 ^ S →
    common_bit_prefix_len_loop S w f [] [] len m = 0 := by
  intro f
  induction f with
  | zero => intro len _ _; rfl
  | succ f ih =>
    intro len hj hl
    have h0 := hj 0
    simp only [Nat.zero_mul, Nat.add_zero, Nat.mod_eq_of_lt hl] at h0
    rw [cbpl_loop_nil, if_pos h0]
    apply ih
    · intro j
      rw [orbit_step]
      exact hj (j + 1)
    · exact Nat.mod_lt _ (Nat.two_pow_pos S)

theorem orbit_period (S w len k : Nat) :
    (len + k * w) % 2 ^ S = (len + (k % 2 ^ S) * w) % 2 ^ S := by
  conv_lhs => rw [← Nat.div_add_mod k (2 ^ S)]
  have e : len + (2 ^ S * (k / 2 ^ S) + k % 2 ^ S) * w =
      len + (k % 2 ^ S) * w + 2 ^ S * (k / 2 ^ S * w) := by ring
  rw [e, Nat.add_mul_mod_self_left]

theorem cbpl_loop_nil_fuel (S w m f1 f2 len : Nat) (h1 : 2 ^ S < f1) (h2 : 2 ^ S < f2)
    (hl : len < 2 ^ S) :
    common_bit_prefix_len_loop S w f1 [] [] len m =
      common_bit_prefix_len_loop S w f2 [] [] len m := by
  by_cases hex : ∃ k, m ≤ (len + k * w) % 2 ^ S
  · classical
    have hk := Nat.find_spec hex
    have hmin := fun j (hj : j < Nat.find hex) => Nat.find_min hex hj
    have hlt : Nat.find hex < 2 ^ S := by
      by_contra hge
      have hmod : Nat.find hex % 2 ^ S < Nat.find hex :=
        lt_of_lt_of_le (Nat.mod_lt _ (Nat.two_pow_pos S)) (by omega)
      apply hmin _ hmod
      rw [← orbit_period]
      exact hk
    rw [cbpl_loop_nil_exit S w m (Nat.find hex) f1 len (by omega)
        (fun j hj => by have := hmin j hj; omega) hk hl,
      cbpl_loop_nil_exit S w m (Nat.find hex) f2 len (by omega)
        (fun j hj => by have := hmin j hj; omega) hk hl]
  · have hn : ∀ j, (len + j * w) % 2 ^ S < m := by
      intro j
      by_contra h
      exact hex ⟨j, by omega⟩
    rw [cbpl_loop_nil_never S w m f1 len hn hl, cbpl_loop_nil_never S w m f2 len hn hl]

theorem cbpl_loop_fuel (S w m : Nat) : ∀ (a b : List Nat) (f1 f2 len : Nat),
    a.length + b.length + 2 ^ S < f1 → a.length + b.length + 2 ^ S < f2 → len < 2 ^ S →
    common_bit_prefix_len_loop S w f1 a b len m =
      common_bit_prefix_len_loop S w f2 a b len m := by
  intro a
  induction a with
  | nil =>
    intro b
    induction b with
    | nil =>
      intro f1 f2 len h1 h2 hl
      exact cbpl_loop_nil_fuel S w m f1 f2 len (by simpa using h1) (by simpa using h2) hl
    | cons y b ihb =>
      intro f1 f2 len h1 h2 hl
      simp only [List.length_cons, List.length_nil] at h1 h2
      obtain ⟨g1, rfl⟩ : ∃ g1, f1 = g1 + 1 := ⟨f1 - 1, by omega⟩
      obtain ⟨g2, rfl⟩ : ∃ g2, f2 = g2 + 1 := ⟨f2 - 1, by omega⟩
      rw [common_bit_prefix_len_loop, common_bit_prefix_len_loop]
      split_ifs
      · exact ihb g1 g2 _ (by simp only [List.tail_cons, List.length_nil]; omega)
          (by simp only [List.tail_cons, List.length_nil]; omega)
          (Nat.mod_lt _ (Nat.two_pow_pos S))
      · rfl
      · rfl
  | cons x a iha =>
    intro b f1 f2 len h1 h2 hl
    simp only [List.length_cons] at h1 h2
    obtain ⟨g1, rfl⟩ : ∃ g1, f1 = g1 + 1 := ⟨f1 - 1, by omega⟩
    obtain ⟨g2, rfl⟩ : ∃ g2, f2 = g2 + 1 := ⟨f2 - 1, by omega⟩
    rw [common_bit_prefix_len_loop, common_bit_prefix_len_loop]
    have hb : b.tail.length ≤ b.length := by simp
    split_ifs
    · exact iha b.tail g1 g2 _ (by omega) (by omega) (Nat.mod_lt _ (Nat.two_pow_pos S))
    · rfl
    · rfl

/-- The fuel of `RBT_COMMON_BIT_PREFIX_LEN` is enough: more fuel gives the
same result, so where the fuel is exhausted the loop does not end with any
fuel. -/
theorem cbpl_fuel (S w : Nat) (a b : List Nat) (m f : Nat)
    (hf : a.length + b.length + 2 ^ S + 1 ≤ f) :
    common_bit_prefix_len_loop S w f a b 0 m = RBT_COMMON_BIT_PREFIX_LEN S w a b m :=
  cbpl_loop_fuel S w m a b f _ 0 (by omega) (by omega) (Nat.two_pow_pos S)

/-! ## Lemmas on the retrieve loop -/

theorem retrieve_loop_node (S w : Nat) (action : rbt_retrieve_action_t) (value : V)
    (nkey : List Nat) (nbits : Nat) (nvalue : V) (left right : RBT_NODE_T V)
    (key : List Nat) (bits : Nat) :
    retrieve_loop S w action value (.node nkey nbits nvalue left right) key bits =
      (let n : RBT_NODE_T V := .node nkey nbits nvalue left right
       let common_bits := RBT_COMMON_BIT_PREFIX_LEN S w key nkey (min bits nbits)
       if common_bits = bits then
         if common_bits = nbits then
           if action = .INSERT_OR_REPLACE then (.node nkey nbits value left right, some [])
           else (n, some [])
         else if action.inserts then (RBT_NODE_INSERT_PARENT w n bits value, some [])
         else (n, none)
       else if common_bits = nbits then
         let key1 := key.drop (common_bits / w)
         let bits1 := bits + common_bits % w - common_bits
         let side := N_BIT_IS_1 w (key1.headD 0) (common_bits % w)
         if is_NULL (get_child n side) then
           if action.inserts then
             (set_child n side (RBT_NODE_CREATE w key1 bits1 value .NULL .NULL), some [side])
           else (n, none)
         else
           (set_child n side (retrieve_loop S w action value (get_child n side) key1 bits1).1,
             below side (retrieve_loop S w action value (get_child n side) key1 bits1))
       else if action.inserts then
         ((RBT_NODE_INSERT_SIBLING w n key bits common_bits (common_bits / w)
            (common_bits % w) value).1,
          some [(RBT_NODE_INSERT_SIBLING w n key bits common_bits (common_bits / w)
            (common_bits % w) value).2])
       else (n, none)) := by
  rw [retrieve_loop]
  dsimp only
  by_cases h3 : N_BIT_IS_1 w ((List.drop (RBT_COMMON_BIT_PREFIX_LEN S w key nkey (min bits nbits) / w)
      key).headD 0) (RBT_COMMON_BIT_PREFIX_LEN S w key nkey (min bits nbits) % w) = true
  · simp only [h3, if_true, get_child, set_child]
  · simp only [h3, if_false, get_child, set_child, Bool.false_eq_true]
theorem bits_to_pins_mul (w : Nat) (hw : 0 < w) (x : Nat) : x ≤ BITS_TO_PINS w x * w := by
  unfold BITS_TO_PINS DIV_UP
  split_ifs with h
  · have h1 := Nat.div_add_mod (x - 1) w
    have h2 := Nat.mod_lt (x - 1) hw
    have h3 : (1 + (x - 1) / w) * w = w + w * ((x - 1) / w) := by ring
    omega
  · omega

theorem bits_to_pins_pos (w : Nat) (x : Nat) (hx : x ≠ 0) : 1 ≤ BITS_TO_PINS w x := by
  unfold BITS_TO_PINS DIV_UP
  rw [if_pos hx]; exact Nat.le_add_right 1 _

theorem headD_take (l : List Nat) (n : Nat) (hn : 1 ≤ n) : (l.take n).headD 0 = l.headD 0 := by
  cases n with
  | zero => omega
  | succ n => cases l <;> simp

theorem retrieve_loop_nothing_fst (S w : Nat) (v : V) (n : RBT_NODE_T V) :
    ∀ (key : List Nat) (bits : Nat), (retrieve_loop S w .NOTHING v n key bits).1 = n := by
  induction n with
  | NULL => intro key bits; rfl
  | node nkey nbits nvalue left right ihl ihr =>
    intro key bits
    rw [retrieve_loop_node]
    dsimp only
    split_ifs
    all_goals first
      | rfl
      | (rename_i h; simp [rbt_retrieve_action_t.inserts] at h; done)
      | skip
    generalize N_BIT_IS_1 w _ _ = side
    cases side <;> simp [get_child, set_child, ihl, ihr]

theorem is_NULL_iff (n : RBT_NODE_T V) : is_NULL n = true ↔ n = .NULL := by
  cases n <;> simp [is_NULL]

theorem retrieve_loop_not_NULL (S w : Nat) (action : rbt_retrieve_action_t) (v : V)
    (n : RBT_NODE_T V) (hn : is_NULL n = false) (key : List Nat) (bits : Nat) :
    is_NULL (retrieve_loop S w action v n key bits).1 = false := by
  cases n with
  | NULL => simp [is_NULL] at hn
  | node nkey nbits nvalue left right =>
    rw [retrieve_loop_node]
    dsimp only
    split_ifs
    all_goals first
      | rfl
      | (simp only [RBT_NODE_INSERT_PARENT]; split_ifs <;> rfl)
      | (simp only [RBT_NODE_INSERT_SIBLING]; split_ifs <;> rfl)
      | (generalize N_BIT_IS_1 w _ _ = side; cases side <;> rfl)
theorem get_child_set_child (n : RBT_NODE_T V) (hn : is_NULL n = false) (side : Bool)
    (c : RBT_NODE_T V) : get_child (set_child n side c) side = c := by
  cases n with
  | NULL => simp [is_NULL] at hn
  | node k b v l r => cases side <;> simp [get_child, set_child]

theorem value_at_set_child (n : RBT_NODE_T V) (hn : is_NULL n = false) (side : Bool)
    (c : RBT_NODE_T V) (p : List Bool) :
    value_at (set_child n side c) (side :: p) = value_at c p := by
  cases n with
  | NULL => simp [is_NULL] at hn
  | node k b v l r => cases side <;> simp [value_at, set_child]

theorem parent_pins_mul (w : Nat) (hw : 0 < w) (bits : Nat) :
    bits ≤ (if bits % w > 0 then bits / w + 1 else bits / w) * w := by
  have h1 := Nat.div_add_mod bits w
  have h2 := Nat.mod_lt bits hw
  split_ifs with h
  · have : (bits / w + 1) * w = w * (bits / w) + w := by ring
    omega
  · have : bits / w * w = w * (bits / w) := by ring
    omega
theorem retrieve_loop_matched (S w : Nat) (action : rbt_retrieve_action_t) (value : V)
    (nkey : List Nat) (nbits : Nat) (nvalue : V) (left right : RBT_NODE_T V)
    (key : List Nat) (bits : Nat)
    (h1 : RBT_COMMON_BIT_PREFIX_LEN S w key nkey (min bits nbits) = bits)
    (h2 : RBT_COMMON_BIT_PREFIX_LEN S w key nkey (min bits nbits) = nbits) :
    retrieve_loop S w action value (.node nkey nbits nvalue left right) key bits =
      if action = .INSERT_OR_REPLACE then (.node nkey nbits value left right, some [])
      else (.node nkey nbits nvalue left right, some []) := by
  rw [retrieve_loop_node]; dsimp only; rw [if_pos h1, if_pos h2]

theorem retrieve_loop_parent (S w : Nat) (action : rbt_retrieve_action_t) (value : V)
    (nkey : List Nat) (nbits : Nat) (nvalue : V) (left right : RBT_NODE_T V)
    (key : List Nat) (bits : Nat)
    (h1 : RBT_COMMON_BIT_PREFIX_LEN S w key nkey (min bits nbits) = bits)
    (h2 : RBT_COMMON_BIT_PREFIX_LEN S w key nkey (min bits nbits) ≠ nbits) :
    retrieve_loop S w action value (.node nkey nbits nvalue left right) key bits =
      if action.inserts then
        (RBT_NODE_INSERT_PARENT w (.node nkey nbits nvalue left right) bits value, some [])
      else (.node nkey nbits nvalue left right, none) := by
  rw [retrieve_loop_node]; dsimp only; rw [if_pos h1, if_neg h2]

theorem retrieve_loop_child (S w : Nat) (action : rbt_retrieve_action_t) (value : V)
    (nkey : List Nat) (nbits : Nat) (nvalue : V) (left right : RBT_NODE_T V)
    (key : List Nat) (bits : Nat)
    (h1 : RBT_COMMON_BIT_PREFIX_LEN S w key nkey (min bits nbits) ≠ bits)
    (h2 : RBT_COMMON_BIT_PREFIX_LEN S w key nkey (min bits nbits) = nbits)
    (side : Bool) (hside : N_BIT_IS_1 w ((key.drop (nbits / w)).headD 0) (nbits % w) = side) :
    retrieve_loop S w action value (.node nkey nbits nvalue left right) key bits =
      if is_NULL (get_child (.node nkey nbits nvalue left right) side) then
        if action.inserts then
          (set_child (.node nkey nbits nvalue left right) side
            (RBT_NODE_CREATE w (key.drop (nbits / w)) (bits + nbits % w - nbits) value
              .NULL .NULL), some [side])
        else (.node nkey nbits nvalue left right, none)
      else
        (set_child (.node nkey nbits nvalue left right) side
          (retrieve_loop S w action value (get_child (.node nkey nbits nvalue left right) side)
            (key.drop (nbits / w)) (bits + nbits % w - nbits)).1,
         below side
          (retrieve_loop S w action value (get_child (.node nkey nbits nvalue left right) side)
            (key.drop (nbits / w)) (bits + nbits % w - nbits))) := by
  rw [retrieve_loop_node]; dsimp only; rw [if_neg h1, if_pos h2, h2, hside]

theorem retrieve_loop_sibling (S w : Nat) (action : rbt_retrieve_action_t) (value : V)
    (nkey : List Nat) (nbits : Nat) (nvalue : V) (left right : RBT_NODE_T V)
    (key : List Nat) (bits : Nat) (c : Nat)
    (hc : RBT_COMMON_BIT_PREFIX_LEN S w key nkey (min bits nbits) = c)
    (h1 : c ≠ bits) (h2 : c ≠ nbits) :
    retrieve_loop S w action value (.node nkey nbits nvalue left right) key bits =
      if action.inserts then
        ((RBT_NODE_INSERT_SIBLING w (.node nkey nbits nvalue left right) key bits c (c / w)
            (c % w) value).1,
         some [(RBT_NODE_INSERT_SIBLING w (.node nkey nbits nvalue left right) key bits c (c / w)
            (c % w) value).2])
      else (.node nkey nbits nvalue left right, none) := by
  subst hc
  rw [retrieve_loop_node]; dsimp only; rw [if_neg h1, if_neg h2]

theorem set_child_node (n : RBT_NODE_T V) (hn : is_NULL n = false) (side : Bool)
    (c : RBT_NODE_T V) :
    ∃ k b v, n = .node k b v (get_child n false) (get_child n true) ∧
      set_child n side c = .node k b v (get_child (set_child n side c) false)
        (get_child (set_child n side c) true) := by
  cases n with
  | NULL => simp [is_NULL] at hn
  | node k b v l r => exact ⟨k, b, v, rfl, by cases side <;> rfl⟩

theorem retrieve_loop_child_set (S w : Nat) (action : rbt_retrieve_action_t) (value : V)
    (nkey : List Nat) (nbits : Nat) (nvalue : V) (left right : RBT_NODE_T V)
    (key : List Nat) (bits : Nat)
    (h1 : RBT_COMMON_BIT_PREFIX_LEN S w key nkey (min bits nbits) ≠ bits)
    (h2 : RBT_COMMON_BIT_PREFIX_LEN S w key nkey (min bits nbits) = nbits)
    (side : Bool) (hside : N_BIT_IS_1 w ((key.drop (nbits / w)).headD 0) (nbits % w) = side)
    (c : RBT_NODE_T V) (hc : is_NULL c = false) :
    retrieve_loop S w action value (set_child (.node nkey nbits nvalue left right) side c)
        key bits =
      (set_child (.node nkey nbits nvalue left right) side
          (retrieve_loop S w action value c (key.drop (nbits / w)) (bits + nbits % w - nbits)).1,
       below side
          (retrieve_loop S w action value c (key.drop (nbits / w)) (bits + nbits % w - nbits))) := by
  cases side with
  | false =>
    simp only [set_child, Bool.false_eq_true, if_false]
    rw [retrieve_loop_child S w action value nkey nbits nvalue c right key bits h1 h2 false hside]
    simp [get_child, set_child, hc]
  | true =>
    simp only [set_child, if_true]
    rw [retrieve_loop_child S w action value nkey nbits nvalue left c key bits h1 h2 true hside]
    simp [get_child, set_child, hc]
theorem insert_parent_node (w : Nat) (nkey : List Nat) (nbits : Nat) (nvalue : V)
    (left right : RBT_NODE_T V) (bits : Nat) (v : V) :
    RBT_NODE_INSERT_PARENT w (.node nkey nbits nvalue left right) bits v
      = .node (nkey.take (if bits % w > 0 then bits / w + 1 else bits / w)) bits v .NULL
          (.node ((nkey.drop (bits / w)).take (BITS_TO_PINS w (nbits - bits + bits % w)))
            (nbits - bits + bits % w) nvalue left right) := by
  simp only [RBT_NODE_INSERT_PARENT]; split_ifs <;> rfl

theorem insert_sibling_node (w : Nat) (nkey : List Nat) (nbits : Nat) (nvalue : V)
    (left right : RBT_NODE_T V) (key : List Nat) (bits c : Nat) (v : V) (hc : c < bits) :
    RBT_NODE_INSERT_SIBLING w (.node nkey nbits nvalue left right) key bits c (c / w) (c % w) v
      = (set_child
          (set_child (.node (nkey.take (if c % w > 0 then c / w + 1 else c / w)) c default
              .NULL .NULL)
            (N_BIT_IS_1 w ((key.drop (c / w)).headD 0) (c % w))
            (RBT_NODE_CREATE w (key.drop (c / w)) (bits - c + c % w) v .NULL .NULL))
          (!N_BIT_IS_1 w ((key.drop (c / w)).headD 0) (c % w))
          (.node ((nkey.drop (c / w)).take (BITS_TO_PINS w (nbits - c + c % w)))
            (nbits - c + c % w) nvalue left right),
         N_BIT_IS_1 w ((key.drop (c / w)).headD 0) (c % w)) := by
  have hpos : 1 ≤ BITS_TO_PINS w (bits - c + c % w) := bits_to_pins_pos w _ (by omega)
  simp only [RBT_NODE_INSERT_SIBLING]
  rw [headD_take _ _ hpos]
  by_cases hs : N_BIT_IS_1 w ((key.drop (c / w)).headD 0) (c % w) = true
  · rw [if_pos hs, hs]; rfl
  · rw [if_neg hs]
    have hs2 : N_BIT_IS_1 w ((key.drop (c / w)).headD 0) (c % w) = false := by
      simpa using hs
    rw [hs2]; rfl
theorem n_bit_zero (w x : Nat) : N_BIT_IS_1 w x 0 = FIRST_BIT_IS_1 w x := by
  simp [N_BIT_IS_1, FIRST_BIT_IS_1]

theorem retrieve_eq_loop (S w : Nat) (n : RBT_NODE_T V) (key : List Nat) (bits : Nat)
    (action : rbt_retrieve_action_t) (value : V) (h : ¬ fills_root n bits) :
    RBT_NODE_RETRIEVE S w n key bits action value = retrieve_loop S w action value n key bits := by
  cases n with
  | NULL => rfl
  | node nkey nbits nvalue left right =>
    simp only [RBT_NODE_RETRIEVE]
    by_cases hb : nbits = 0
    · subst hb
      rw [if_pos rfl]
      have hc : RBT_COMMON_BIT_PREFIX_LEN S w key nkey (min bits 0) = 0 := by
        rw [Nat.min_zero, cbpl_zero]
      by_cases hz : bits = 0
      · subst hz
        rw [if_pos rfl, retrieve_loop_matched S w _ _ _ _ _ _ _ _ _ hc hc]
      · rw [if_neg hz]
        have hc1 : RBT_COMMON_BIT_PREFIX_LEN S w key nkey (min bits 0) ≠ bits := by
          rw [hc]; exact fun h => hz h.symm
        rw [retrieve_loop_child S w _ _ _ _ _ _ _ _ _ hc1 hc _ rfl]
        simp only [Nat.zero_div, Nat.zero_mod, List.drop_zero, n_bit_zero, Nat.add_zero,
          Nat.sub_zero]
        have hv : is_NULL left = true → is_NULL right = true →
            RBT_VALUE_IS_NULL nvalue = false := by
          intro hl hr
          by_contra hv
          exact h ⟨rfl, hz, hl, hr, by simpa using hv⟩
        generalize FIRST_BIT_IS_1 w (key.headD 0) = side
        cases left <;> cases right <;> cases side <;>
          simp [is_NULL, get_child, set_child] <;>
          simp [is_NULL] at hv <;> simp [hv]
    · rw [if_neg hb]
theorem value_at_nil_of_leaf (nkey : List Nat) (nbits : Nat) (nvalue : V) (p : List Bool) (v : V)
    (h : value_at (.node nkey nbits nvalue .NULL .NULL) p = some v) : nvalue = v := by
  cases p with
  | nil => simpa [value_at] using h
  | cons s p => cases s <;> simp [value_at] at h


/-! ## The structural invariant -/

theorem almost_good_set_child (nkey : List Nat) (nbits : Nat) (nvalue : V)
    (left right : RBT_NODE_T V) (side : Bool) (c : RBT_NODE_T V) (p : List Bool)
    (h1 : nvalue = default → is_NULL (get_child (set_child (.node nkey nbits nvalue left right)
      side c) false) = false ∧ is_NULL (get_child (set_child (.node nkey nbits nvalue left right)
      side c) true) = false)
    (h2 : almost_good c p)
    (h3 : no_redundant (get_child (.node nkey nbits nvalue left right) (!side))) :
    almost_good (set_child (.node nkey nbits nvalue left right) side c) (side :: p) := by
  cases side with
  | false =>
    simp only [set_child, get_child, Bool.false_eq_true, if_false, Bool.not_false, if_true] at *
    exact ⟨h1, h2, h3⟩
  | true =>
    simp only [set_child, get_child, Bool.false_eq_true, if_false, Bool.not_true, if_true] at *
    exact ⟨h1, h3, h2⟩

theorem retrieve_loop_almost_good (S w : Nat) (action : rbt_retrieve_action_t)
    (hact : action.inserts = true) (v : V) (n : RBT_NODE_T V) :
    ∀ (key : List Nat) (bits : Nat), is_NULL n = false → no_redundant n →
      ∃ p, (retrieve_loop S w action v n key bits).2 = some p ∧
        almost_good (retrieve_loop S w action v n key bits).1 p ∧
        (action = .INSERT_OR_REPLACE → value_at (retrieve_loop S w action v n key bits).1 p
          = some v) := by
  induction n with
  | NULL => intro key bits hn; simp [is_NULL] at hn
  | node nkey nbits nvalue left right ihl ihr =>
    intro key bits _ hg
    obtain ⟨hg1, hg2, hg3⟩ := hg
    have hle := cbpl_le S w key nkey (min bits nbits)
    by_cases h1 : RBT_COMMON_BIT_PREFIX_LEN S w key nkey (min bits nbits) = bits
    · by_cases h2 : RBT_COMMON_BIT_PREFIX_LEN S w key nkey (min bits nbits) = nbits
      · rw [retrieve_loop_matched S w _ _ _ _ _ _ _ _ _ h1 h2]
        split_ifs with ha
        · exact ⟨[], rfl, ⟨hg2, hg3⟩, fun _ => rfl⟩
        · exact ⟨[], rfl, ⟨hg2, hg3⟩, fun h => absurd h ha⟩
      · rw [retrieve_loop_parent S w _ _ _ _ _ _ _ _ _ h1 h2, if_pos hact, insert_parent_node]
        exact ⟨[], rfl, ⟨trivial, hg1, hg2, hg3⟩, fun _ => rfl⟩
    · by_cases h2 : RBT_COMMON_BIT_PREFIX_LEN S w key nkey (min bits nbits) = nbits
      · generalize hside : N_BIT_IS_1 w ((key.drop (nbits / w)).headD 0) (nbits % w) = side
        rw [retrieve_loop_child S w _ _ _ _ _ _ _ _ _ h1 h2 side hside]
        by_cases h3 : is_NULL (get_child (.node nkey nbits nvalue left right) side) = true
        · rw [if_pos h3, if_pos hact]
          refine ⟨[side], rfl, ?_, ?_⟩
          · apply almost_good_set_child
            · intro hd
              have := hg1 hd
              cases side <;> simp [get_child] at h3 <;> simp [h3] at this
            · exact ⟨trivial, trivial⟩
            · cases side <;> simp [get_child] <;> assumption
          · intro _
            rw [value_at_set_child (.node nkey nbits nvalue left right) rfl]; rfl
        · rw [if_neg h3]
          have h3' : is_NULL (get_child (.node nkey nbits nvalue left right) side) = false := by
            simpa using h3
          have ih : ∃ p, (retrieve_loop S w action v
                (get_child (.node nkey nbits nvalue left right) side)
                (key.drop (nbits / w)) (bits + nbits % w - nbits)).2 = some p ∧
              almost_good (retrieve_loop S w action v
                (get_child (.node nkey nbits nvalue left right) side)
                (key.drop (nbits / w)) (bits + nbits % w - nbits)).1 p ∧
              (action = .INSERT_OR_REPLACE → value_at (retrieve_loop S w action v
                (get_child (.node nkey nbits nvalue left right) side)
                (key.drop (nbits / w)) (bits + nbits % w - nbits)).1 p = some v) := by
            cases side with
            | false => exact ihl _ _ h3' hg2
            | true => exact ihr _ _ h3' hg3
          obtain ⟨p, hp1, hp2, hp3⟩ := ih
          refine ⟨side :: p, ?_, ?_, ?_⟩
          · simp only [below, hp1, Option.map_some']
          · apply almost_good_set_child
            · intro hd
              have := hg1 hd
              have hnn := retrieve_loop_not_NULL S w action v _ h3' (key.drop (nbits / w))
                (bits + nbits % w - nbits)
              cases side <;> simp [get_child, set_child] at hnn ⊢ <;> simp [hnn, this]
            · exact hp2
            · cases side <;> simp [get_child] <;> assumption
          · intro ha
            rw [value_at_set_child (.node nkey nbits nvalue left right) rfl]; exact hp3 ha
      · have hlt : RBT_COMMON_BIT_PREFIX_LEN S w key nkey (min bits nbits) < bits := by omega
        rw [retrieve_loop_sibling S w _ _ _ _ _ _ _ _ _ _ rfl h1 h2, if_pos hact,
          insert_sibling_node w _ _ _ _ _ _ _ _ _ hlt]
        generalize RBT_COMMON_BIT_PREFIX_LEN S w key nkey (min bits nbits) = c
        generalize N_BIT_IS_1 w ((key.drop (c / w)).headD 0) (c % w) = side
        refine ⟨[side], rfl, ?_, ?_⟩
        · cases side
          · simp only [set_child, Bool.false_eq_true, if_false, Bool.not_false, if_true]
            exact ⟨fun _ => ⟨rfl, rfl⟩, ⟨trivial, trivial⟩, hg1, hg2, hg3⟩
          · simp only [set_child, Bool.false_eq_true, if_false, Bool.not_true, if_true]
            exact ⟨fun _ => ⟨rfl, rfl⟩, ⟨hg1, hg2, hg3⟩, ⟨trivial, trivial⟩⟩
        · intro _; cases side <;> rfl
theorem retrieve_loop_nothing_valid (S w : Nat) (v : V) (n : RBT_NODE_T V) :
    ∀ (key : List Nat) (bits : Nat) (p : List Bool),
      (retrieve_loop S w .NOTHING v n key bits).2 = some p → ∃ tv, value_at n p = some tv := by
  induction n with
  | NULL => intro key bits p h; simp [retrieve_loop] at h
  | node nkey nbits nvalue left right ihl ihr =>
    intro key bits p h
    by_cases h1 : RBT_COMMON_BIT_PREFIX_LEN S w key nkey (min bits nbits) = bits
    · by_cases h2 : RBT_COMMON_BIT_PREFIX_LEN S w key nkey (min bits nbits) = nbits
      · rw [retrieve_loop_matched S w _ _ _ _ _ _ _ _ _ h1 h2] at h
        simp at h
        subst h
        exact ⟨nvalue, rfl⟩
      · rw [retrieve_loop_parent S w _ _ _ _ _ _ _ _ _ h1 h2] at h
        simp [rbt_retrieve_action_t.inserts] at h
    · by_cases h2 : RBT_COMMON_BIT_PREFIX_LEN S w key nkey (min bits nbits) = nbits
      · generalize hside : N_BIT_IS_1 w ((key.drop (nbits / w)).headD 0) (nbits % w) = side at h
        rw [retrieve_loop_child S w _ _ _ _ _ _ _ _ _ h1 h2 side hside] at h
        by_cases h3 : is_NULL (get_child (.node nkey nbits nvalue left right) side) = true
        · rw [if_pos h3] at h
          simp [rbt_retrieve_action_t.inserts] at h
        · rw [if_neg h3] at h
          simp only [below, Option.map_eq_some'] at h
          obtain ⟨q, hq, rfl⟩ := h
          cases side with
          | false => exact ihl _ _ q hq
          | true => exact ihr _ _ q hq
      · rw [retrieve_loop_sibling S w _ _ _ _ _ _ _ _ _ _ rfl h1 h2] at h
        simp [rbt_retrieve_action_t.inserts] at h

theorem retrieve_nothing (S w : Nat) (v : V) (n : RBT_NODE_T V) (key : List Nat) (bits : Nat) :
    (RBT_NODE_RETRIEVE S w n key bits .NOTHING v).1 = n ∧
      ∀ p, (RBT_NODE_RETRIEVE S w n key bits .NOTHING v).2 = some p →
        ∃ tv, value_at n p = some tv := by
  by_cases hf : fills_root n bits
  · cases n with
    | NULL => exact absurd hf (by simp [fills_root])
    | node nkey nbits nvalue left right =>
      obtain ⟨h0, hb, hl, hr, hnull⟩ := hf
      have e : RBT_NODE_RETRIEVE S w (.node nkey nbits nvalue left right) key bits .NOTHING v
          = (.node nkey nbits nvalue left right, none) := by
        simp [RBT_NODE_RETRIEVE, h0, hb, hl, hr, rbt_retrieve_action_t.inserts]
      rw [e]
      exact ⟨rfl, fun p h => by simp at h⟩
  · rw [retrieve_eq_loop S w n key bits _ v hf]
    exact ⟨retrieve_loop_nothing_fst S w v n key bits, retrieve_loop_nothing_valid S w v n key bits⟩

theorem almost_good_of_no_redundant (n : RBT_NODE_T V) :
    ∀ (p : List Bool) (tv : V), no_redundant n → value_at n p = some tv → almost_good n p := by
  induction n with
  | NULL => intro p tv _ h; simp [value_at] at h
  | node nkey nbits nvalue left right ihl ihr =>
    intro p tv hg h
    obtain ⟨hg1, hg2, hg3⟩ := hg
    cases p with
    | nil => exact ⟨hg2, hg3⟩
    | cons side q =>
      cases side with
      | false => exact ⟨hg1, ihl q tv hg2 (by simpa [value_at] using h), hg3⟩
      | true => exact ⟨hg1, hg2, ihr q tv hg3 (by simpa [value_at] using h)⟩

theorem almost_good_value (n : RBT_NODE_T V) :
    ∀ (p : List Bool), almost_good n p → ∃ tv, value_at n p = some tv := by
  induction n with
  | NULL => intro p h; exact absurd h (by simp [almost_good])
  | node nkey nbits nvalue left right ihl ihr =>
    intro p h
    cases p with
    | nil => exact ⟨nvalue, rfl⟩
    | cons side q =>
      cases side with
      | false => exact ihl q h.2.1
      | true => exact ihr q h.2.2

theorem no_redundant_of_almost_good (n : RBT_NODE_T V) :
    ∀ (p : List Bool) (tv : V), almost_good n p → value_at n p = some tv → tv ≠ default →
      no_redundant n := by
  induction n with
  | NULL => intro p tv h; exact absurd h (by simp [almost_good])
  | node nkey nbits nvalue left right ihl ihr =>
    intro p tv h hv hne
    cases p with
    | nil =>
      simp only [value_at, Option.some.injEq] at hv
      subst hv
      exact ⟨fun hd => absurd hd hne, h.1, h.2⟩
    | cons side q =>
      cases side with
      | false => exact ⟨h.1, ihl q tv h.2.1 (by simpa [value_at] using hv) hne, h.2.2⟩
      | true => exact ⟨h.1, h.2.1, ihr q tv h.2.2 (by simpa [value_at] using hv) hne⟩

theorem almost_good_not_NULL (n : RBT_NODE_T V) (p : List Bool) (h : almost_good n p) :
    is_NULL n = false := by
  cases n with
  | NULL => exact absurd h (by simp [almost_good])
  | node _ _ _ _ _ => rfl

theorem set_value_at_almost_good (x : V) (n : RBT_NODE_T V) :
    ∀ (p : List Bool), almost_good n p →
      ∃ n1, set_value_at x n p = some n1 ∧ almost_good n1 p ∧ value_at n1 p = some x := by
  induction n with
  | NULL => intro p h; exact absurd h (by simp [almost_good])
  | node nkey nbits nvalue left right ihl ihr =>
    intro p h
    cases p with
    | nil => exact ⟨_, rfl, h, rfl⟩
    | cons side q =>
      cases side with
      | false =>
        obtain ⟨l1, hl1, hl2, hl3⟩ := ihl q h.2.1
        refine ⟨.node nkey nbits nvalue l1 right, by simp [set_value_at, hl1], ?_, ?_⟩
        · refine ⟨fun hd => ?_, hl2, h.2.2⟩
          have := h.1 hd
          exact ⟨almost_good_not_NULL l1 q hl2, this.2⟩
        · simpa [value_at] using hl3
      | true =>
        obtain ⟨r1, hr1, hr2, hr3⟩ := ihr q h.2.2
        refine ⟨.node nkey nbits nvalue left r1, by simp [set_value_at, hr1], ?_, ?_⟩
        · refine ⟨fun hd => ?_, h.2.1, hr2⟩
          have := h.1 hd
          exact ⟨this.1, almost_good_not_NULL r1 q hr2⟩
        · simpa [value_at] using hr3
theorem remove_root_invariant (w : Nat) (n : RBT_NODE_T V) (h : almost_good n []) :
    ∃ n1, RBT_NODE_REMOVE w n none = some n1 ∧ structural_invariant n1 := by
  cases n with
  | NULL => exact absurd h (by simp [almost_good])
  | node nkey nbits nvalue left right =>
    obtain ⟨hl, hr⟩ := h
    cases left with
    | NULL =>
      cases right with
      | NULL =>
        exact ⟨_, rfl, Or.inl ⟨rfl, rfl, rfl, rfl⟩⟩
      | node rk rb rv rl rr =>
        exact ⟨_, rfl, Or.inr ⟨rfl, hr⟩⟩
    | node lk lb lv ll lr =>
      cases right with
      | NULL => exact ⟨_, rfl, Or.inr ⟨rfl, hl⟩⟩
      | node rk rb rv rl rr =>
        exact ⟨_, rfl, Or.inr ⟨rfl, fun _ => ⟨rfl, rfl⟩, hl, hr⟩⟩

theorem remove_child_invariant (w : Nat) (nkey : List Nat) (nbits : Nat) (nvalue : V)
    (left right : RBT_NODE_T V) (side : Bool)
    (h : almost_good (.node nkey nbits nvalue left right) [side]) :
    ∃ n1, RBT_NODE_REMOVE w (if side then right else left)
        (some (.node nkey nbits nvalue left right, side)) = some n1 ∧
      is_NULL n1 = false ∧ no_redundant n1 := by
  cases side with
  | false =>
    obtain ⟨hc, hl, hr⟩ := h
    simp only [Bool.false_eq_true, if_false]
    cases left with
    | NULL => exact absurd hl (by simp [almost_good])
    | node lk lb lv ll lr =>
      obtain ⟨hll, hlr⟩ := hl
      by_cases hv : nvalue = default
      · have := (hc hv).2
        cases right with
        | NULL => simp [is_NULL] at this
        | node rk rb rv rl rr =>
          cases ll <;> cases lr <;>
            simp_all [RBT_NODE_REMOVE, RBT_VALUE_IS_NULL, RBT_NODE_MERGE_CHILD, set_child,
              is_NULL, no_redundant]
      · cases ll <;> cases lr <;>
          simp_all [RBT_NODE_REMOVE, RBT_VALUE_IS_NULL, RBT_NODE_MERGE_CHILD, set_child,
            is_NULL, no_redundant]
  | true =>
    obtain ⟨hc, hl, hr⟩ := h
    simp only [if_true]
    cases right with
    | NULL => exact absurd hr (by simp [almost_good])
    | node rk rb rv rl rr =>
      obtain ⟨hrl, hrr⟩ := hr
      by_cases hv : nvalue = default
      · have := (hc hv).1
        cases left with
        | NULL => simp [is_NULL] at this
        | node lk lb lv ll lr =>
          cases rl <;> cases rr <;>
            simp_all [RBT_NODE_REMOVE, RBT_VALUE_IS_NULL, RBT_NODE_MERGE_CHILD, set_child,
              is_NULL, no_redundant]
      · cases rl <;> cases rr <;>
          simp_all [RBT_NODE_REMOVE, RBT_VALUE_IS_NULL, RBT_NODE_MERGE_CHILD, set_child,
            is_NULL, no_redundant]
theorem remove_at_invariant (w : Nat) (n : RBT_NODE_T V) :
    ∀ (p : List Bool), almost_good n p →
      ∃ n1, remove_at w n p = some n1 ∧ structural_invariant n1 ∧
        (p ≠ [] → is_NULL n1 = false ∧ no_redundant n1) := by
  induction n with
  | NULL => intro p h; exact absurd h (by simp [almost_good])
  | node nkey nbits nvalue left right ihl ihr =>
    intro p h
    cases p with
    | nil =>
      obtain ⟨n1, h1, h2⟩ := remove_root_invariant w _ h
      exact ⟨n1, by simpa [remove_at] using h1, h2, fun hne => absurd rfl hne⟩
    | cons side q =>
      cases q with
      | nil =>
        obtain ⟨n1, h1, h2, h3⟩ := remove_child_invariant w nkey nbits nvalue left right side h
        exact ⟨n1, by simpa [remove_at] using h1, Or.inr ⟨h2, h3⟩, fun _ => ⟨h2, h3⟩⟩
      | cons s q =>
        cases side with
        | false =>
          obtain ⟨hc, hl, hr⟩ := h
          obtain ⟨l1, e1, _, e3⟩ := ihl (s :: q) hl
          have e4 := e3 (by simp)
          have hg : no_redundant (.node nkey nbits nvalue l1 right) :=
            ⟨fun hd => ⟨e4.1, (hc hd).2⟩, e4.2, hr⟩
          exact ⟨.node nkey nbits nvalue l1 right, by simp [remove_at, e1],
            Or.inr ⟨rfl, hg⟩, fun _ => ⟨rfl, hg⟩⟩
        | true =>
          obtain ⟨hc, hl, hr⟩ := h
          obtain ⟨r1, e1, _, e3⟩ := ihr (s :: q) hr
          have e4 := e3 (by simp)
          have hg : no_redundant (.node nkey nbits nvalue left r1) :=
            ⟨fun hd => ⟨(hc hd).1, e4.1⟩, hl, e4.2⟩
          exact ⟨.node nkey nbits nvalue left r1, by simp [remove_at, e1],
            Or.inr ⟨rfl, hg⟩, fun _ => ⟨rfl, hg⟩⟩

theorem retrieve_almost_good (S w : Nat) (action : rbt_retrieve_action_t)
    (hact : action.inserts = true) (v : V) (n : RBT_NODE_T V) (key : List Nat) (bits : Nat)
    (h : structural_invariant n) :
    ∃ p, (RBT_NODE_RETRIEVE S w n key bits action v).2 = some p ∧
      almost_good (RBT_NODE_RETRIEVE S w n key bits action v).1 p ∧
      (action = .INSERT_OR_REPLACE →
        value_at (RBT_NODE_RETRIEVE S w n key bits action v).1 p = some v) := by
  rcases h with he | ⟨hn, hg⟩
  · cases n with
    | NULL => exact absurd he (by simp [is_empty_root])
    | node nkey nbits nvalue left right =>
      obtain ⟨h0, hd, hl, hr⟩ := he
      subst h0 hd
      rw [(is_NULL_iff left).mp hl, (is_NULL_iff right).mp hr]
      by_cases hb : bits = 0
      · subst hb
        simp only [RBT_NODE_RETRIEVE, if_true]
        split_ifs with ha
        · exact ⟨[], rfl, ⟨trivial, trivial⟩, fun _ => rfl⟩
        · exact ⟨[], rfl, ⟨trivial, trivial⟩, fun h => absurd h ha⟩
      · simp only [RBT_NODE_RETRIEVE, if_true, hb, if_false, is_NULL, and_self, hact,
          RBT_VALUE_IS_NULL, decide_True]
        exact ⟨[], rfl, ⟨trivial, trivial⟩, fun _ => rfl⟩
  · have hf : ¬ fills_root n bits := by
      intro hf
      cases n with
      | NULL => exact hf
      | node nkey nbits nvalue left right =>
        obtain ⟨_, _, hl, _, hv⟩ := hf
        have := (hg.1 (by simpa [RBT_VALUE_IS_NULL] using hv)).1
        rw [hl] at this
        exact absurd this (by simp)
    rw [retrieve_eq_loop S w n key bits action v hf]
    exact retrieve_loop_almost_good S w action hact v n key bits hn hg
theorem structural_invariant_not_NULL (n : RBT_NODE_T V) (h : structural_invariant n) :
    is_NULL n = false := by
  rcases h with he | ⟨hn, _⟩
  · cases n with
    | NULL => exact absurd he (by simp [is_empty_root])
    | node _ _ _ _ _ => rfl
  · exact hn

theorem query_delete_invariant (S w : Nat) (t : RBT_NODE_T V) (h : structural_invariant t)
    (key : List Nat) (bits : Nat) :
    ∃ t1 ret, query_delete S w t key bits = some (t1, ret) ∧ structural_invariant t1 := by
  simp only [query_delete]
  obtain ⟨h1, h2⟩ := retrieve_nothing S w (default : V) t key bits
  rw [h1]
  cases hp : (RBT_NODE_RETRIEVE S w t key bits .NOTHING (default : V)).2 with
  | none => exact ⟨t, default, rfl, h⟩
  | some p =>
    obtain ⟨tv, htv⟩ := h2 p hp
    simp only [htv]
    by_cases hnull : RBT_VALUE_IS_NULL tv = true
    · simp only [hnull, Bool.not_true, Bool.false_eq_true, if_false]
      exact ⟨t, default, rfl, h⟩
    · have hnull' : RBT_VALUE_IS_NULL tv = false := by simpa using hnull
      simp only [hnull', Bool.not_false, if_true]
      have hg : no_redundant t := by
        rcases h with he | ⟨_, hg⟩
        · cases t with
          | NULL => exact absurd he (by simp [is_empty_root])
          | node nkey nbits nvalue left right =>
            obtain ⟨_, hd, hl, hr⟩ := he
            rw [(is_NULL_iff left).mp hl, (is_NULL_iff right).mp hr] at htv
            have := value_at_nil_of_leaf nkey nbits nvalue p tv htv
            subst this
            simp [RBT_VALUE_IS_NULL, hd] at hnull'
        · exact hg
      obtain ⟨n1, e1, e2, _⟩ := remove_at_invariant w t p
        (almost_good_of_no_redundant t p tv hg htv)
      exact ⟨n1, default, by simp [e1], e2⟩

theorem query_insert_invariant (S w : Nat) (t : RBT_NODE_T V) (h : structural_invariant t)
    (key : List Nat) (bits : Nat) (value : V) (hv : value ≠ default) :
    ∃ t1 ret, query_insert S w t key bits value = some (t1, ret) ∧ structural_invariant t1 := by
  obtain ⟨p, _, hp2, hp3⟩ := retrieve_almost_good S w .INSERT_OR_REPLACE rfl value t key bits h
  exact ⟨_, value, rfl, Or.inr ⟨almost_good_not_NULL _ p hp2,
    no_redundant_of_almost_good _ p value hp2 (hp3 rfl) hv⟩⟩

theorem query_retrieve_invariant (S w : Nat) (t : RBT_NODE_T V) (h : structural_invariant t)
    (key : List Nat) (bits : Nat) :
    ∃ t1 ret, query_retrieve S w t key bits = some (t1, ret) ∧ structural_invariant t1 := by
  simp only [query_retrieve]
  obtain ⟨h1, h2⟩ := retrieve_nothing S w (default : V) t key bits
  rw [h1]
  cases hp : (RBT_NODE_RETRIEVE S w t key bits .NOTHING (default : V)).2 with
  | none => exact ⟨t, default, rfl, h⟩
  | some p =>
    obtain ⟨tv, htv⟩ := h2 p hp
    exact ⟨t, tv, by simp [htv], h⟩
theorem remove_at_set_value (w : Nat) (x : V) (n : RBT_NODE_T V) :
    ∀ (p : List Bool) (n1 : RBT_NODE_T V), set_value_at x n p = some n1 →
      remove_at w n1 p = remove_at w n p := by
  induction n with
  | NULL => intro p n1 h; simp [set_value_at] at h
  | node nkey nbits nvalue left right ihl ihr =>
    intro p n1 h
    cases p with
    | nil =>
      simp only [set_value_at, Option.some.injEq] at h
      subst h
      cases left <;> cases right <;> simp [remove_at, RBT_NODE_REMOVE, RBT_NODE_MERGE_CHILD]
    | cons side q =>
      cases side with
      | false =>
        simp only [set_value_at, Bool.false_eq_true, if_false, Option.map_eq_some'] at h
        obtain ⟨l1, hl1, rfl⟩ := h
        cases q with
        | nil =>
          cases left with
          | NULL => simp [set_value_at] at hl1
          | node lk lb lv ll lr =>
            simp only [set_value_at, Option.some.injEq] at hl1
            subst hl1
            cases ll <;> cases lr <;>
              simp [remove_at, RBT_NODE_REMOVE, RBT_NODE_MERGE_CHILD, set_child]
        | cons s q =>
          simp only [remove_at, Bool.false_eq_true, if_false]
          rw [ihl (s :: q) l1 hl1]
      | true =>
        simp only [set_value_at, if_true, Option.map_eq_some'] at h
        obtain ⟨r1, hr1, rfl⟩ := h
        cases q with
        | nil =>
          cases right with
          | NULL => simp [set_value_at] at hr1
          | node rk rb rv rl rr =>
            simp only [set_value_at, Option.some.injEq] at hr1
            subst hr1
            cases rl <;> cases rr <;>
              simp [remove_at, RBT_NODE_REMOVE, RBT_NODE_MERGE_CHILD, set_child]
        | cons s q =>
          simp only [remove_at, if_true]
          rw [ihr (s :: q) r1 hr1]

theorem query_retrieve_and_insert_invariant (S w : Nat) (t : RBT_NODE_T V)
    (h : structural_invariant t) (key : List Nat) (bits : Nat) (value : V) :
    ∃ t1 ret, query_retrieve_and_insert S w t key bits value = some (t1, ret) ∧
      structural_invariant t1 := by
  obtain ⟨p, hp1, hp2, _⟩ := retrieve_almost_good S w .INSERT rfl (default : V) t key bits h
  obtain ⟨tv, htv⟩ := almost_good_value _ p hp2
  obtain ⟨t1, ht1, hg1, _⟩ := set_value_at_almost_good (default : V) _ p hp2
  simp only [query_retrieve_and_insert, hp1, htv, ht1]
  by_cases hv : RBT_VALUE_IS_NULL value = true
  · simp only [hv, if_true]
    obtain ⟨n1, e1, e2, _⟩ := remove_at_invariant w t1 p hg1
    exact ⟨n1, tv, by simp [e1], e2⟩
  · simp only [hv, if_false, Bool.false_eq_true]
    obtain ⟨t2, ht2, hg2, hval⟩ := set_value_at_almost_good value t1 p hg1
    refine ⟨t2, tv, by simp [ht2], Or.inr ⟨almost_good_not_NULL _ p hg2,
      no_redundant_of_almost_good _ p value hg2 hval ?_⟩⟩
    simpa [RBT_VALUE_IS_NULL] using hv

theorem query_swap_invariant (S w : Nat) (t : RBT_NODE_T V)
    (h : structural_invariant t) (key : List Nat) (bits : Nat) (value : V) :
    ∃ t1 ret, query_swap S w t key bits value = some (t1, ret) ∧ structural_invariant t1 := by
  obtain ⟨p, hp1, hp2, _⟩ := retrieve_almost_good S w .INSERT rfl (default : V) t key bits h
  obtain ⟨tv, htv⟩ := almost_good_value _ p hp2
  simp only [query_swap, hp1, htv]
  by_cases hv : RBT_VALUE_IS_NULL value = true
  · simp only [hv, if_true]
    obtain ⟨t1, ht1, hg1, _⟩ := set_value_at_almost_good (default : V) _ p hp2
    simp only [ht1]
    obtain ⟨n1, e1, e2, _⟩ := remove_at_invariant w t1 p hg1
    exact ⟨n1, tv, by simp [e1], e2⟩
  · simp only [hv, if_false, Bool.false_eq_true]
    obtain ⟨t2, ht2, hg2, hval⟩ := set_value_at_almost_good value _ p hp2
    refine ⟨t2, tv, by simp [ht2], Or.inr ⟨almost_good_not_NULL _ p hg2,
      no_redundant_of_almost_good _ p value hg2 hval ?_⟩⟩
    simpa [RBT_VALUE_IS_NULL] using hv

theorem query_invariant (S w : Nat) (t : RBT_NODE_T V) (h : structural_invariant t)
    (key : List Nat) (bits : Nat) (action : rbt_query_action_t) (value : V) :
    ∃ t1 ret, RBT_NODE_QUERY S w t key bits action value = some (t1, ret) ∧
      structural_invariant t1 := by
  cases action with
  | DELETE => exact query_delete_invariant S w t h key bits
  | RETRIEVE => exact query_retrieve_invariant S w t h key bits
  | INSERT =>
    simp only [RBT_NODE_QUERY]
    by_cases hv : RBT_VALUE_IS_NULL value = true
    · rw [if_pos hv]; exact query_delete_invariant S w t h key bits
    · rw [if_neg hv]
      exact query_insert_invariant S w t h key bits value (by simpa [RBT_VALUE_IS_NULL] using hv)
  | RETRIEVE_AND_INSERT => exact query_retrieve_and_insert_invariant S w t h key bits value
  | SWAP => exact query_swap_invariant S w t h key bits value

theorem reachable_invariant (S w : Nat) (t : RBT_NODE_T V) (h : Reachable S w t) :
    structural_invariant t := by
  induction h with
  | new => exact Or.inl ⟨rfl, rfl, rfl, rfl⟩
  | query t t1 key bits action value ret _ _ hq ih =>
    obtain ⟨t2, ret2, e, hinv⟩ := query_invariant S w t ih key bits action value
    rw [e] at hq
    simp only [Option.some.injEq, Prod.mk.injEq] at hq
    rw [← hq.1]
    exact hinv

/-! ## Lemmas on `RBT_NODE_IS_COPY` -/

theorem node_total_pos (n : RBT_NODE_T V) (h : is_NULL n = false) : 1 ≤ node_total n := by
  cases n with
  | NULL => simp [is_NULL] at h
  | node _ _ _ l r => simp [node_total]; omega

theorem is_NULL_NULL : is_NULL (.NULL : RBT_NODE_T V) = true := rfl

theorem set_at_append : ∀ (p : List Bool) (R X Y : RBT_NODE_T V) (q : List Bool),
    set_at (set_at R p X) (p ++ q) Y = set_at R p (set_at X q Y) := by
  intro p
  induction p with
  | nil => intro R X Y q; cases R <;> simp [set_at]
  | cons s p ih =>
    intro R X Y q
    cases R with
    | NULL => simp [set_at]
    | node k b v l r =>
      cases s <;> simp [set_at, ih]

theorem is_NULL_trimmed (w : Nat) (n : RBT_NODE_T V) : is_NULL (trimmed w n) = is_NULL n := by
  cases n <;> rfl

theorem node_total_trimmed (w : Nat) (n : RBT_NODE_T V) :
    node_total (trimmed w n) = node_total n := by
  induction n with
  | NULL => rfl
  | node k b v l r ihl ihr => simp [trimmed, node_total, ihl, ihr]

theorem copy_loop_spec (w : Nat) : ∀ (fuel : Nat) (node : RBT_NODE_T V) (p : List Bool)
    (stack : List (RBT_NODE_T V × List Bool)) (R : RBT_NODE_T V),
    is_NULL node = false → (∀ e ∈ stack, is_NULL e.1 = false) →
    node_total node + (stack.map (fun e => node_total e.1)).sum ≤ fuel →
    copy_loop w fuel node p stack R = some (fill_stack w stack (set_at R p (trimmed w node))) := by
  intro fuel
  induction fuel with
  | zero =>
    intro node p stack R hn _ hf
    have := node_total_pos node hn
    omega
  | succ fuel ih =>
    intro node p stack R hn hs hf
    cases node with
    | NULL => simp [is_NULL] at hn
    | node k b v l r =>
      simp only [copy_loop, RBT_NODE_CREATE]
      simp only [node_total] at hf
      by_cases hl : is_NULL l = true
      · have el := (is_NULL_iff l).mp hl
        subst el
        by_cases hr : is_NULL r = true
        · have er := (is_NULL_iff r).mp hr
          subst er
          simp only [is_NULL_NULL, Bool.not_true, Bool.false_eq_true, if_false, trimmed]
          cases stack with
          | nil => rfl
          | cons e rest =>
            obtain ⟨x, px⟩ := e
            have hxn := hs (x, px) (by simp)
            simp only
            rw [ih x px rest _ hxn (fun e he => hs e (by simp [he]))
              (by simp only [List.map_cons, List.sum_cons] at hf; omega)]
            rfl
        · have hr' : is_NULL r = false := by simpa using hr
          simp only [is_NULL_NULL, hr', Bool.not_true, Bool.false_eq_true, if_false,
            Bool.not_false, if_true]
          rw [ih r (p ++ [true]) stack _ hr' hs (by simp [node_total] at hf; omega)]
          rw [set_at_append]
          simp [set_at, trimmed]
      · have hl' : is_NULL l = false := by simpa using hl
        by_cases hr : is_NULL r = true
        · have er := (is_NULL_iff r).mp hr
          subst er
          simp only [is_NULL_NULL, hl', Bool.not_true, Bool.false_eq_true, if_false,
            Bool.not_false, if_true]
          rw [ih l (p ++ [false]) stack _ hl' hs (by simp [node_total] at hf; omega)]
          rw [set_at_append]
          simp [set_at, trimmed]
        · have hr' : is_NULL r = false := by simpa using hr
          simp only [hl', hr', Bool.not_false, if_true]
          rw [ih l (p ++ [false]) ((r, p ++ [true]) :: stack) _ hl'
            (by
              intro e he
              simp only [List.mem_cons] at he
              rcases he with rfl | he
              · exact hr'
              · exact hs e he)
            (by simp only [List.map_cons, List.sum_cons]; omega)]
          simp only [fill_stack]
          rw [set_at_append, set_at_append]
          simp [set_at, trimmed]

theorem copy_spec (w : Nat) (node : RBT_NODE_T V) :
    RBT_NODE_COPY w node = some (trimmed w node) := by
  cases node with
  | NULL => rfl
  | node k b v l r =>
    simp only [RBT_NODE_COPY]
    rw [copy_loop_spec w _ (.node k b v l r) [] [] .NULL rfl (by simp) (by simp)]
    rfl


/-! ## The specification of `RBT_COMMON_BIT_PREFIX_LEN` -/

theorem takeWhile_all {α : Type} (p : α → Bool) : ∀ (l : List α) (i : Nat) (x : α),
    i < (l.takeWhile p).length → l[i]? = some x → p x = true := by
  intro l
  induction l with
  | nil => intro i x h; simp at h
  | cons a l ih =>
    intro i x h hx
    by_cases ha : p a = true
    · simp only [List.takeWhile_cons, ha, if_true, List.length_cons] at h
      cases i with
      | zero =>
        simp only [List.getElem?_cons_zero, Option.some.injEq] at hx
        rw [← hx]; exact ha
      | succ i =>
        simp only [List.getElem?_cons_succ] at hx
        exact ih i x (by omega) hx
    · simp [List.takeWhile_cons, ha] at h

theorem takeWhile_stop {α : Type} (p : α → Bool) : ∀ (l : List α) (x : α),
    l[(l.takeWhile p).length]? = some x → p x = false := by
  intro l
  induction l with
  | nil => intro x h; simp at h
  | cons a l ih =>
    intro x hx
    by_cases ha : p a = true
    · simp only [List.takeWhile_cons, ha, if_true, List.length_cons,
        List.getElem?_cons_succ] at hx
      exact ih x hx
    · simp only [List.takeWhile_cons, ha, Bool.false_eq_true, if_false, List.length_nil,
        List.getElem?_cons_zero, Option.some.injEq] at hx
      rw [← hx]; simpa using ha

theorem takeWhile_length_le {α : Type} (p : α → Bool) : ∀ (l : List α),
    (l.takeWhile p).length ≤ l.length := by
  intro l
  induction l with
  | nil => simp
  | cons a l ih =>
    by_cases ha : p a = true
    · simp only [List.takeWhile_cons, ha, if_true, List.length_cons]; omega
    · simp [List.takeWhile_cons, ha]

theorem clz_spec (w x y : Nat) (hx : x < 2 ^ w) (hy : y < 2 ^ w) (hne : x ≠ y) :
    builtin_clz w (x ^^^ y) < w ∧
      (∀ i, i < builtin_clz w (x ^^^ y) → x.testBit (w - 1 - i) = y.testBit (w - 1 - i)) ∧
      x.testBit (w - 1 - builtin_clz w (x ^^^ y)) ≠
        y.testBit (w - 1 - builtin_clz w (x ^^^ y)) := by
  have hle : builtin_clz w (x ^^^ y) ≤ w := by
    have := takeWhile_length_le (fun i => !(x ^^^ y).testBit (w - 1 - i)) (List.range w)
    simpa [builtin_clz] using this
  have hall : ∀ i, i < builtin_clz w (x ^^^ y) →
      x.testBit (w - 1 - i) = y.testBit (w - 1 - i) := by
    intro i hi
    have h := takeWhile_all (fun i => !(x ^^^ y).testBit (w - 1 - i)) (List.range w) i i
      (by simpa [builtin_clz] using hi)
      (by rw [List.getElem?_range]; omega)
    simp only [Nat.testBit_xor, Bool.not_eq_true', bne_eq_false_iff_eq] at h
    simpa using h
  have hlt : builtin_clz w (x ^^^ y) < w := by
    rcases Nat.lt_or_ge (builtin_clz w (x ^^^ y)) w with h | h
    · exact h
    · exfalso
      apply hne
      apply Nat.eq_of_testBit_eq
      intro k
      by_cases hk : k < w
      · have := hall (w - 1 - k) (by omega)
        have e : w - 1 - (w - 1 - k) = k := by omega
        rw [e] at this
        exact this
      · have h1 : x < 2 ^ k := lt_of_lt_of_le hx (Nat.pow_le_pow_right (by decide) (by omega))
        have h2 : y < 2 ^ k := lt_of_lt_of_le hy (Nat.pow_le_pow_right (by decide) (by omega))
        rw [Nat.testBit_eq_false_of_lt h1, Nat.testBit_eq_false_of_lt h2]
  refine ⟨hlt, hall, ?_⟩
  have h := takeWhile_stop (fun i => !(x ^^^ y).testBit (w - 1 - i)) (List.range w)
    (builtin_clz w (x ^^^ y)) (by
      rw [List.getElem?_range]
      · rfl
      · simpa [builtin_clz] using hlt)
  simp only [Nat.testBit_xor] at h
  intro heq
  rw [heq] at h
  simp at h
theorem key_bit_head (w : Nat) (a : List Nat) (i : Nat) (hi : i < w) :
    key_bit w a i = (a.headD 0).testBit (w - 1 - i) := by
  unfold key_bit
  rw [Nat.div_eq_of_lt hi, Nat.mod_eq_of_lt hi]
  cases a <;> rfl

theorem key_bit_tail (w : Nat) (hw : 0 < w) (a : List Nat) (i : Nat) :
    key_bit w a.tail i = key_bit w a (i + w) := by
  unfold key_bit
  rw [Nat.add_div_right i hw, Nat.add_mod_right]
  cases a <;> simp

theorem headD_lt (w : Nat) (a : List Nat) (ha : ∀ p ∈ a, p < 2 ^ w) : a.headD 0 < 2 ^ w := by
  cases a with
  | nil => exact Nat.two_pow_pos w
  | cons x l => exact ha x (by simp)

theorem cbpl_loop_spec (S w : Nat) (hw : 0 < w) : ∀ (fuel : Nat) (a b : List Nat) (len m : Nat),
    (∀ p ∈ a, p < 2 ^ w) → (∀ p ∈ b, p < 2 ^ w) → m - len + w ≤ fuel * w → m + w ≤ 2 ^ S →
    (∀ i, len + i < common_bit_prefix_len_loop S w fuel a b len m →
      key_bit w a i = key_bit w b i) ∧
    (common_bit_prefix_len_loop S w fuel a b len m < m →
      len ≤ common_bit_prefix_len_loop S w fuel a b len m ∧
      key_bit w a (common_bit_prefix_len_loop S w fuel a b len m - len) ≠
        key_bit w b (common_bit_prefix_len_loop S w fuel a b len m - len)) := by
  intro fuel
  induction fuel with
  | zero =>
    intro a b len m _ _ hf _
    omega
  | succ fuel ih =>
    intro a b len m ha hb hf hS
    have hfw : fuel * w = 0 ∨ w ≤ fuel * w := by
      cases fuel with
      | zero => left; simp
      | succ f => right; rw [Nat.succ_mul]; omega
    rw [common_bit_prefix_len_loop]
    by_cases h1 : len < m ∧ a.headD 0 = b.headD 0
    · rw [if_pos h1, Nat.mod_eq_of_lt (by omega)]
      have hta : ∀ p ∈ a.tail, p < 2 ^ w := fun p hp => ha p (List.mem_of_mem_tail hp)
      have htb : ∀ p ∈ b.tail, p < 2 ^ w := fun p hp => hb p (List.mem_of_mem_tail hp)
      obtain ⟨ih1, ih2⟩ := ih a.tail b.tail (len + w) m hta htb
        (by have : (fuel + 1) * w = fuel * w + w := by ring
            omega) hS
      constructor
      · intro i hi
        by_cases hiw : i < w
        · rw [key_bit_head w a i hiw, key_bit_head w b i hiw, h1.2]
        · have e : i = (i - w) + w := by omega
          rw [e, ← key_bit_tail w hw a, ← key_bit_tail w hw b]
          exact ih1 (i - w) (by omega)
      · intro hr
        obtain ⟨h3, h4⟩ := ih2 hr
        refine ⟨by omega, ?_⟩
        rw [key_bit_tail w hw a, key_bit_tail w hw b] at h4
        have e : common_bit_prefix_len_loop S w fuel a.tail b.tail (len + w) m - (len + w) + w
            = common_bit_prefix_len_loop S w fuel a.tail b.tail (len + w) m - len := by omega
        rw [e] at h4
        exact h4
    · rw [if_neg h1]
      by_cases h2 : len < m
      · rw [if_pos h2]
        have hne : a.headD 0 ≠ b.headD 0 := fun e => h1 ⟨h2, e⟩
        obtain ⟨c1, c2, c3⟩ := clz_spec w (a.headD 0) (b.headD 0) (headD_lt w a ha)
          (headD_lt w b hb) hne
        dsimp only
        generalize builtin_clz w (a.headD 0 ^^^ b.headD 0) = j at c1 c2 c3
        rw [Nat.mod_eq_of_lt (by omega)]
        by_cases h3 : len + j > m
        · rw [if_pos h3]
          refine ⟨fun i hi => ?_, fun h => by omega⟩
          rw [key_bit_head w a i (by omega), key_bit_head w b i (by omega)]
          exact c2 i (by omega)
        · rw [if_neg h3]
          refine ⟨fun i hi => ?_, fun _ => ⟨by omega, ?_⟩⟩
          · rw [key_bit_head w a i (by omega), key_bit_head w b i (by omega)]
            exact c2 i (by omega)
          · have e : len + j - len = j := by omega
            rw [e, key_bit_head w a j c1, key_bit_head w b j c1]
            exact c3
      · rw [if_neg h2]
        exact ⟨fun i hi => by omega, fun h => by omega⟩

/-- Without wrap-around of `length` (`m + w ≤ 2 ^ S`) the result of
`RBT_COMMON_BIT_PREFIX_LEN` is the largest `r ≤ m` such that the first `r`
bits of the two keys agree. -/
theorem cbpl_spec (S w : Nat) (hw : 0 < w) (a b : List Nat) (ha : ∀ p ∈ a, p < 2 ^ w)
    (hb : ∀ p ∈ b, p < 2 ^ w) (m : Nat) (hS : m + w ≤ 2 ^ S) :
    RBT_COMMON_BIT_PREFIX_LEN S w a b m ≤ m ∧
    (∀ i, i < RBT_COMMON_BIT_PREFIX_LEN S w a b m → key_bit w a i = key_bit w b i) ∧
    (∀ r, r ≤ m → (∀ i, i < r → key_bit w a i = key_bit w b i) →
      r ≤ RBT_COMMON_BIT_PREFIX_LEN S w a b m) := by
  obtain ⟨h1, h2⟩ := cbpl_loop_spec S w hw (a.length + b.length + 2 ^ S + 1) a b 0 m ha hb
    (by have h1 : (m + 2) * w ≤ (a.length + b.length + 2 ^ S + 1) * w :=
          Nat.mul_le_mul_right w (by omega)
        have h2 : (m + 2) * w = m * w + 2 * w := by ring
        have h3 : m ≤ m * w := Nat.le_mul_of_pos_right m hw
        omega) hS
  refine ⟨cbpl_le S w a b m, fun i hi => h1 i (by simpa [RBT_COMMON_BIT_PREFIX_LEN] using hi), ?_⟩
  intro r hr hall
  by_contra hlt
  have hlt1 : RBT_COMMON_BIT_PREFIX_LEN S w a b m < r := by omega
  have h3 := h2 (by unfold RBT_COMMON_BIT_PREFIX_LEN at hlt1; omega)
  simp only [Nat.sub_zero] at h3
  exact h3.2 (hall _ hlt1)
theorem clz_unique (w c j : Nat) (hc : c < 2 ^ w)
    (h0 : ∀ i, i < j → c.testBit (w - 1 - i) = false) (h1 : c.testBit (w - 1 - j) = true) :
    builtin_clz w c = j := by
  have hne : c ≠ 0 := by
    intro e
    rw [e] at h1
    simp at h1
  obtain ⟨c1, c2, c3⟩ := clz_spec w c 0 hc (Nat.two_pow_pos w) hne
  simp only [Nat.xor_zero, Nat.zero_testBit] at c1 c2 c3
  rcases Nat.lt_trichotomy (builtin_clz w c) j with h | h | h
  · exact absurd (h0 _ h) c3
  · exact h
  · have := c2 j h
    rw [h1] at this
    exact absurd this (by decide)

theorem xor_lt_two_pow (w x y : Nat) (hx : x < 2 ^ w) (hy : y < 2 ^ w) : x ^^^ y < 2 ^ w :=
  Nat.xor_lt_two_pow hx hy

theorem count_shift_loop_spec (S w : Nat) (hw : 0 < w) : ∀ (fuel c len m : Nat),
    0 < c → c < 2 ^ w → len ≤ m → builtin_clz w c ≤ fuel → len + builtin_clz w c < 2 ^ S →
    count_shift_loop S w fuel c len m =
      if len + builtin_clz w c > m then m else len + builtin_clz w c := by
  intro fuel
  induction fuel with
  | zero =>
    intro c len m _ _ hlm hf _
    simp only [count_shift_loop]
    split_ifs <;> omega
  | succ fuel ih =>
    intro c len m hc0 hc hlm hf hS
    obtain ⟨c1, c2, c3⟩ := clz_spec w c 0 hc (Nat.two_pow_pos w) (by omega)
    simp only [Nat.xor_zero, Nat.zero_testBit] at c1 c2 c3
    have c3t : c.testBit (w - 1 - builtin_clz w c) = true := by simpa using c3
    rw [count_shift_loop]
    by_cases h : c < 2 ^ (w - 1) ∧ len < m
    · rw [if_pos h]
      have htop : c.testBit (w - 1) = false := Nat.testBit_eq_false_of_lt h.1
      have hj1 : 1 ≤ builtin_clz w c := by
        rcases Nat.eq_zero_or_pos (builtin_clz w c) with e | e
        · rw [e] at c3t
          simp only [Nat.sub_zero] at c3t
          rw [htop] at c3t
          exact absurd c3t (by decide)
        · exact e
      have h2c : c <<< 1 < 2 ^ w := by
        have e : 2 ^ w = 2 ^ (w - 1) * 2 := by
          rw [← Nat.pow_succ]
          congr 1
          omega
        rw [Nat.shiftLeft_eq, e]
        omega
      rw [Nat.mod_eq_of_lt h2c, Nat.mod_eq_of_lt (by omega : len + 1 < 2 ^ S)]
      have hclz : builtin_clz w (c <<< 1) = builtin_clz w c - 1 := by
        apply clz_unique w (c <<< 1) (builtin_clz w c - 1) h2c
        · intro i hi
          rw [Nat.testBit_shiftLeft]
          have := c2 (i + 1) (by omega)
          have e : w - 1 - i - 1 = w - 1 - (i + 1) := by omega
          rw [e, this]
          simp
        · rw [Nat.testBit_shiftLeft]
          have e : w - 1 - (builtin_clz w c - 1) - 1 = w - 1 - builtin_clz w c := by omega
          rw [e, c3t]
          simp
          omega
      rw [ih (c <<< 1) (len + 1) m (by rw [Nat.shiftLeft_eq]; omega) h2c (by omega)
        (by rw [hclz]; omega) (by rw [hclz]; omega), hclz]
      have e : len + 1 + (builtin_clz w c - 1) = len + builtin_clz w c := by omega
      rw [e]
    · rw [if_neg h]
      by_cases h1 : len < m
      · have hge : 2 ^ (w - 1) ≤ c := by
          by_contra hlt
          exact h ⟨by omega, h1⟩
        have hz : builtin_clz w c = 0 := by
          apply clz_unique w c 0 hc (fun i hi => by omega)
          simp only [Nat.sub_zero]
          have e : c = 2 ^ (w - 1) + (c - 2 ^ (w - 1)) := by omega
          have e2 : 2 ^ w = 2 ^ (w - 1) * 2 := by
            rw [← Nat.pow_succ]
            congr 1
            omega
          rw [e, Nat.testBit_two_pow_add_eq, Nat.testBit_lt_two_pow (by omega)]
          rfl
        rw [hz]
        simp only [Nat.add_zero]
        rw [if_neg (by omega)]
      · have : m ≤ len := by omega
        split_ifs <;> omega

theorem add_pin_le (S w len : Nat) (hwS : w ∣ 2 ^ S) (hd : w ∣ len) (hl : len < 2 ^ S) :
    len + w ≤ 2 ^ S := by
  obtain ⟨j, hj⟩ := hwS
  obtain ⟨i, hi⟩ := hd
  rw [hj, hi] at hl
  have hij : i < j := Nat.lt_of_mul_lt_mul_left hl
  rw [hj, hi]
  calc w * i + w = w * (i + 1) := by ring
    _ ≤ w * j := Nat.mul_le_mul_left w hij

theorem cbpl_shift_loop_eq (S w : Nat) (hw : 0 < w) (hwS : w ∣ 2 ^ S) : ∀ (fuel : Nat)
    (a b : List Nat) (len m : Nat), (∀ p ∈ a, p < 2 ^ w) → (∀ p ∈ b, p < 2 ^ w) →
    w ∣ len → len < 2 ^ S →
    common_bit_prefix_len_shift_loop S w fuel a b len m =
      common_bit_prefix_len_loop S w fuel a b len m := by
  intro fuel
  induction fuel with
  | zero => intro a b len m _ _ _ _; rfl
  | succ fuel ih =>
    intro a b len m ha hb hd hl
    rw [common_bit_prefix_len_shift_loop, common_bit_prefix_len_loop]
    by_cases h1 : len < m ∧ a.headD 0 = b.headD 0
    · rw [if_pos h1, if_pos h1]
      exact ih a.tail b.tail _ m (fun p hp => ha p (List.mem_of_mem_tail hp))
        (fun p hp => hb p (List.mem_of_mem_tail hp))
        ((Nat.dvd_mod_iff hwS).mpr (Nat.dvd_add hd (Nat.dvd_refl w)))
        (Nat.mod_lt _ (Nat.two_pow_pos S))
    · rw [if_neg h1, if_neg h1]
      by_cases h2 : len < m
      · rw [if_pos h2, if_pos h2]
        have hne : a.headD 0 ≠ b.headD 0 := fun e => h1 ⟨h2, e⟩
        have hpos : 0 < a.headD 0 ^^^ b.headD 0 := by
          rcases Nat.eq_zero_or_pos (a.headD 0 ^^^ b.headD 0) with e | e
          · exact absurd (Nat.xor_eq_zero.mp e) hne
          · exact e
        obtain ⟨c1, _, _⟩ := clz_spec w (a.headD 0) (b.headD 0) (headD_lt w a ha)
          (headD_lt w b hb) hne
        have hle := add_pin_le S w len hwS hd hl
        rw [count_shift_loop_spec S w hw _ _ len m hpos
          (xor_lt_two_pow w _ _ (headD_lt w a ha) (headD_lt w b hb)) (by omega) (by omega)
          (by omega)]
        dsimp only
        rw [Nat.mod_eq_of_lt (by omega)]
      · rw [if_neg h2, if_neg h2]

theorem cbpl_shift_eq (S w : Nat) (hw : 0 < w) (hwS : w ∣ 2 ^ S) (a b : List Nat)
    (ha : ∀ p ∈ a, p < 2 ^ w) (hb : ∀ p ∈ b, p < 2 ^ w) (m : Nat) :
    RBT_COMMON_BIT_PREFIX_LEN_SHIFT S w a b m = RBT_COMMON_BIT_PREFIX_LEN S w a b m :=
  cbpl_shift_loop_eq S w hw hwS _ a b 0 m ha hb (Nat.dvd_zero w) (Nat.two_pow_pos S)

/-! ## Counting nodes -/

theorem placeholder_bound_aux (t : RBT_NODE_T V) (hn : is_NULL t = false)
    (hg : no_redundant t) : empty_total t + 1 ≤ valued_total t := by
  induction t with
  | NULL => simp [is_NULL] at hn
  | node k b v l r ihl ihr =>
    simp only [no_redundant] at hg
    obtain ⟨h1, h2, h3⟩ := hg
    have hl : empty_total l ≤ valued_total l := by
      by_cases e : is_NULL l = true
      · rw [(is_NULL_iff l).mp e]; simp [empty_total]
      · have := ihl (by simpa using e) h2
        omega
    have hr : empty_total r ≤ valued_total r := by
      by_cases e : is_NULL r = true
      · rw [(is_NULL_iff r).mp e]; simp [empty_total]
      · have := ihr (by simpa using e) h3
        omega
    simp only [empty_total, valued_total, RBT_VALUE_IS_NULL]
    by_cases hv : v = default
    · obtain ⟨e1, e2⟩ := h1 hv
      have := ihl e1 h2
      have := ihr e2 h3
      simp only [hv, decide_True, if_true]
      omega
    · simp only [hv, decide_False, Bool.false_eq_true, if_false]
      omega

theorem valued_total_empty_root (t : RBT_NODE_T V) (h : is_empty_root t) :
    valued_total t = 0 := by
  cases t with
  | NULL => rfl
  | node k b v l r =>
    simp only [is_empty_root] at h
    obtain ⟨_, hv, hl, hr⟩ := h
    rw [(is_NULL_iff l).mp hl, (is_NULL_iff r).mp hr]
    simp [valued_total, RBT_VALUE_IS_NULL, hv]

theorem count_loop_spec (S : Nat) : ∀ (fuel : Nat) (node : RBT_NODE_T V)
    (stack : List (RBT_NODE_T V)) (n : Nat),
    is_NULL node = false → (∀ e ∈ stack, is_NULL e = false) → n < 2 ^ S →
    node_total node + (stack.map node_total).sum ≤ fuel →
    count_loop S fuel node stack n =
      some ((n + valued_total node + (stack.map valued_total).sum) % 2 ^ S) := by
  intro fuel
  induction fuel with
  | zero =>
    intro node stack n hn _ _ hf
    have := node_total_pos node hn
    omega
  | succ fuel ih =>
    intro node stack n hn hs hlt hf
    cases node with
    | NULL => simp [is_NULL] at hn
    | node k b v l r =>
      simp only [count_loop, valued_total]
      simp only [node_total] at hf
      have hpos : 0 < 2 ^ S := Nat.two_pow_pos S
      generalize hn1 : (if (!RBT_VALUE_IS_NULL v) = true then (n + 1) % 2 ^ S else n) = n1
      have h1 : n1 < 2 ^ S := by
        rw [← hn1]
        split_ifs
        · exact Nat.mod_lt _ hpos
        · exact hlt
      have h2 : ∀ x, (n1 + x) % 2 ^ S =
          (n + ((if RBT_VALUE_IS_NULL v = true then 0 else 1) + x)) % 2 ^ S := by
        intro x
        rw [← hn1]
        by_cases hv : RBT_VALUE_IS_NULL v = true
        · simp [hv]
        · simp only [hv, Bool.not_false, if_true, Bool.false_eq_true, if_false]
          rw [Nat.mod_add_mod]
          congr 1
          omega
      by_cases hr : is_NULL r = true
      · have er := (is_NULL_iff r).mp hr
        subst er
        by_cases hl : is_NULL l = true
        · have el := (is_NULL_iff l).mp hl
          subst el
          simp only [is_NULL_NULL, if_true]
          cases stack with
          | nil =>
            simp only [List.map_nil, List.sum_nil, Nat.add_zero]
            have := h2 0
            simp only [Nat.add_zero] at this
            rw [Nat.mod_eq_of_lt h1] at this
            rw [this]
            simp [valued_total]
          | cons e rest =>
            have hen := hs e (by simp)
            simp only
            rw [ih e rest n1 hen (fun x hx => hs x (by simp [hx])) h1
              (by simp only [List.map_cons, List.sum_cons] at hf; omega)]
            simp only [List.map_cons, List.sum_cons]
            rw [Nat.add_assoc, h2]
            congr 2
            simp only [valued_total]
            omega
        · have hl' : is_NULL l = false := by simpa using hl
          simp only [is_NULL_NULL, hl', if_true, if_false, Bool.false_eq_true]
          rw [ih l stack n1 hl' hs h1 (by simp [node_total] at hf; omega)]
          rw [Nat.add_assoc, h2]
          congr 2
          simp only [valued_total]
          omega
      · have hr' : is_NULL r = false := by simpa using hr
        by_cases hl : is_NULL l = true
        · have el := (is_NULL_iff l).mp hl
          subst el
          simp only [is_NULL_NULL, hr', if_true, if_false, Bool.false_eq_true]
          rw [ih r stack n1 hr' hs h1 (by simp [node_total] at hf; omega)]
          rw [Nat.add_assoc, h2]
          congr 2
          simp only [valued_total]
          omega
        · have hl' : is_NULL l = false := by simpa using hl
          simp only [hl', hr', if_false, Bool.false_eq_true]
          rw [ih l (r :: stack) n1 hl'
            (by
              intro e he
              simp only [List.mem_cons] at he
              rcases he with rfl | he
              · exact hr'
              · exact hs e he) h1
            (by simp only [List.map_cons, List.sum_cons]; omega)]
          simp only [List.map_cons, List.sum_cons]
          rw [Nat.add_assoc, h2]
          congr 2
          omega

theorem count_spec (S : Nat) (T : RBT_NODE_T V) :
    RBT_NODE_COUNT S T = some (valued_total T % 2 ^ S) := by
  cases T with
  | NULL => simp [RBT_NODE_COUNT, valued_total, Nat.zero_mod]
  | node k b v l r =>
    simp only [RBT_NODE_COUNT]
    rw [count_loop_spec S _ (.node k b v l r) [] 0 rfl (by simp) (Nat.two_pow_pos S) (by simp)]
    simp

theorem valued_total_left_chain : ∀ (n d : Nat), valued_total (left_chain n d) = n := by
  intro n
  induction n with
  | zero => intro d; rfl
  | succ n ih =>
    intro d
    simp only [left_chain, valued_total, ih]
    simp [RBT_VALUE_IS_NULL]
    omega

/-! ## The mode computed by `adjust_attrib` -/

theorem and_two_pow_ne_zero (x n : Nat) : x &&& 2 ^ n ≠ 0 ↔ x.testBit n = true := by
  constructor
  · intro h
    by_contra hb
    apply h
    apply Nat.eq_of_testBit_eq
    intro i
    simp only [Nat.testBit_and, Nat.testBit_two_pow, Nat.zero_testBit]
    by_cases e : n = i
    · subst e; simp [hb]
    · simp [e]
  · intro h e
    have := congrArg (fun y => y.testBit n) e
    simp [Nat.testBit_and, Nat.testBit_two_pow, h] at this

theorem testBit_small (c n : Nat) (h : c < 2 ^ n) (i : Nat) (hi : n ≤ i) :
    c.testBit i = false :=
  Nat.testBit_lt_two_pow (lt_of_lt_of_le h (Nat.pow_le_pow_right (by decide) hi))

theorem mode_not_testBit (k i : Nat) :
    (mode_not k).testBit i = (decide (i < 32) && !k.testBit i) := by
  unfold mode_not
  rw [Nat.testBit_xor, Nat.testBit_two_pow_sub_one, Nat.testBit_mod_two_pow]
  by_cases h : i < 32 <;> simp [h]

theorem ite_or_testBit (c : Prop) [Decidable c] (x y i : Nat) :
    (if c then x ||| y else x).testBit i = (x.testBit i || (decide c && y.testBit i)) := by
  by_cases h : c <;> simp [h]

theorem testBit_closed (c : Nat) (f : Nat → Bool) (h : c < 2 ^ 16)
    (h1 : ∀ i, i < 16 → c.testBit i = f i) (h2 : ∀ i, 16 ≤ i → f i = false) (i : Nat) :
    c.testBit i = f i := by
  by_cases hi : i < 16
  · exact h1 i hi
  · rw [h2 i (by omega)]
    exact testBit_small c 16 h i (by omega)

theorem testBit_owner_type (i : Nat) : (S_IRWXU ||| S_IFMT).testBit i =
    decide (i = 6 ∨ i = 7 ∨ i = 8 ∨ (12 ≤ i ∧ i ≤ 15)) := by
  apply testBit_closed _ (fun i => decide (i = 6 ∨ i = 7 ∨ i = 8 ∨ (12 ≤ i ∧ i ≤ 15)))
    (by decide)
  · intro i hi
    interval_cases i <;> decide
  · intro i hi
    simp only [decide_eq_false_iff_not]
    omega

theorem testBit_read (i : Nat) : (S_IRGRP ||| S_IROTH).testBit i = decide (i = 5 ∨ i = 2) := by
  apply testBit_closed _ (fun i => decide (i = 5 ∨ i = 2)) (by decide)
  · intro i hi
    interval_cases i <;> decide
  · intro i hi
    simp only [decide_eq_false_iff_not]
    omega

theorem testBit_write (i : Nat) : (S_IWGRP ||| S_IWOTH).testBit i = decide (i = 4 ∨ i = 1) := by
  apply testBit_closed _ (fun i => decide (i = 4 ∨ i = 1)) (by decide)
  · intro i hi
    interval_cases i <;> decide
  · intro i hi
    simp only [decide_eq_false_iff_not]
    omega

theorem testBit_exec (i : Nat) : (S_IXGRP ||| S_IXOTH).testBit i = decide (i = 3 ∨ i = 0) := by
  apply testBit_closed _ (fun i => decide (i = 3 ∨ i = 0)) (by decide)
  · intro i hi
    interval_cases i <;> decide
  · intro i hi
    simp only [decide_eq_false_iff_not]
    omega

theorem adjust_attrib_mode_testBit (m k i : Nat) :
    (adjust_attrib_mode m k).testBit i = (mode_src m i && !k.testBit i) := by
  have e8 : S_IRUSR = 2 ^ 8 := rfl
  have e7 : S_IWUSR = 2 ^ 7 := rfl
  have e6 : S_IXUSR = 2 ^ 6 := rfl
  unfold adjust_attrib_mode
  simp only [e8, e7, e6, and_two_pow_ne_zero, ite_or_testBit, Nat.testBit_and,
    mode_not_testBit, testBit_owner_type, testBit_read, testBit_write, testBit_exec]
  by_cases hi : i < 16
  · interval_cases i <;> simp [mode_src]
  · have h5 : mode_src m i = false := by
      unfold mode_src
      rw [if_neg (by omega), if_neg (by omega), if_neg (by omega), if_neg (by omega)]
    rw [h5]
    have : ¬ (i = 6 ∨ i = 7 ∨ i = 8 ∨ (12 ≤ i ∧ i ≤ 15)) := by omega
    have : ¬ (i = 5 ∨ i = 2) := by omega
    have : ¬ (i = 4 ∨ i = 1) := by omega
    have : ¬ (i = 3 ∨ i = 0) := by omega
    simp [*]

theorem mode_src_owner (m b : Nat) (hb : b = 8 ∨ b = 7 ∨ b = 6) :
    mode_src m b = m.testBit b := by
  rcases hb with rfl | rfl | rfl <;> simp [mode_src]

theorem mode_src_type (m i : Nat) (h1 : ¬ (i = 8 ∨ i = 5 ∨ i = 2))
    (h2 : ¬ (i = 7 ∨ i = 4 ∨ i = 1)) (h3 : ¬ (i = 6 ∨ i = 3 ∨ i = 0)) (h4 : 12 ≤ i ∧ i ≤ 15) :
    mode_src m i = m.testBit i := by
  unfold mode_src
  rw [if_neg h1, if_neg h2, if_neg h3, if_pos h4]

theorem mode_src_adjust (m k i : Nat) :
    (mode_src (adjust_attrib_mode (adjust_attrib_mode m k) k) i && !k.testBit i) =
      (mode_src (adjust_attrib_mode m k) i && !k.testBit i) := by
  unfold mode_src
  split_ifs with h1 h2 h3 h4
  · simp only [adjust_attrib_mode_testBit, mode_src_owner _ 8 (Or.inl rfl)]
    cases m.testBit 8 <;> cases k.testBit 8 <;> cases k.testBit i <;> rfl
  · simp only [adjust_attrib_mode_testBit, mode_src_owner _ 7 (Or.inr (Or.inl rfl))]
    cases m.testBit 7 <;> cases k.testBit 7 <;> cases k.testBit i <;> rfl
  · simp only [adjust_attrib_mode_testBit, mode_src_owner _ 6 (Or.inr (Or.inr rfl))]
    cases m.testBit 6 <;> cases k.testBit 6 <;> cases k.testBit i <;> rfl
  · simp only [adjust_attrib_mode_testBit, mode_src_type _ i h1 h2 h3 h4]
    cases m.testBit i <;> cases k.testBit i <;> rfl
  · rfl

theorem adjust_attrib_mode_settles (m k : Nat) :
    adjust_attrib_mode (adjust_attrib_mode (adjust_attrib_mode m k) k) k =
      adjust_attrib_mode (adjust_attrib_mode m k) k := by
  apply Nat.eq_of_testBit_eq
  intro i
  rw [adjust_attrib_mode_testBit, adjust_attrib_mode_testBit _ k i]
  exact mode_src_adjust m k i

/-! ## The descent loop returns -/

theorem query_insert_eq (S w : Nat) (T : RBT_NODE_T V) (key : List Nat) (bits : Nat) (v : V)
    (hv : v ≠ default) :
    RBT_NODE_QUERY S w T key bits .INSERT v =
      some ((RBT_NODE_RETRIEVE S w T key bits .INSERT_OR_REPLACE v).1, v) := by
  simp [RBT_NODE_QUERY, query_insert, RBT_VALUE_IS_NULL, hv]

theorem reachable_example :
    Reachable 8 8 (.node [0] 1 2 .NULL (.node [0] 2 1 .NULL .NULL) : RBT_NODE_T Nat) :=
  Reachable.query (.node [0] 2 1 .NULL .NULL) _ [0] 1 .INSERT 2 2
    (Reachable.query (RBT_NODE_NEW 8) _ [0] 2 .INSERT 1 1 Reachable.new
      (by unfold key_ok; decide) (by decide))
    (by unfold key_ok; decide) (by decide)

/-- C1: evaluation of the code with a key size type of 8 bits and pins of 32
bits (`2 ^ 8 - 1 >= 248`) on the empty tree and a key of 248 bits held in a
buffer of nine pins.  The insertion fills the root with the first eight pins.
In the lookup of the same key the counter `length` of
`RBT_COMMON_BIT_PREFIX_LEN` is 256 after eight equal pins, which wraps around
to 0; the comparison goes on with the ninth pins, that of the node past the
end of its buffer (`RBT_COMMON_BIT_PREFIX_LEN_WRAP` is `none`), and ends with
28 common bits: the lookup returns the empty value, not 7. -/
theorem insert_then_retrieve_wraps :
    248 ≤ 2 ^ 8 - 1 ∧ key_ok 32 [1, 2, 3, 4, 5, 6, 7, 8, 9] 248 ∧
      RBT_NODE_QUERY 8 32 (RBT_NODE_NEW 32 : RBT_NODE_T Nat) [1, 2, 3, 4, 5, 6, 7, 8, 9] 248
        .INSERT 7 = some (.node [1, 2, 3, 4, 5, 6, 7, 8] 248 7 .NULL .NULL, 7) ∧
      RBT_COMMON_BIT_PREFIX_LEN 8 32 [1, 2, 3, 4, 5, 6, 7, 8, 9] [1, 2, 3, 4, 5, 6, 7, 8] 248 =
        28 ∧
      RBT_COMMON_BIT_PREFIX_LEN_WRAP 8 32 [1, 2, 3, 4, 5, 6, 7, 8, 9] [1, 2, 3, 4, 5, 6, 7, 8]
        0 248 = none ∧
      RBT_NODE_QUERY 8 32 (.node [1, 2, 3, 4, 5, 6, 7, 8] 248 7 .NULL .NULL : RBT_NODE_T Nat)
        [1, 2, 3, 4, 5, 6, 7, 8, 9] 248 .RETRIEVE default =
        some (.node [1, 2, 3, 4, 5, 6, 7, 8] 248 7 .NULL .NULL, 0) :=
  ⟨by decide, by unfold key_ok; decide, by decide, by decide, by decide, by decide⟩

theorem cbpl_first_pin_differs (S w x y : Nat) (a b : List Nat) (m : Nat) (hm : 0 < m)
    (hne : x ≠ y) (hS : builtin_clz w (x ^^^ y) < 2 ^ S) :
    RBT_COMMON_BIT_PREFIX_LEN S w (x :: a) (y :: b) m =
      if builtin_clz w (x ^^^ y) > m then m else builtin_clz w (x ^^^ y) := by
  unfold RBT_COMMON_BIT_PREFIX_LEN
  rw [common_bit_prefix_len_loop]
  simp only [List.headD_cons]
  rw [if_neg (fun h => hne h.2), if_pos hm]
  simp only [Nat.zero_add]
  rw [Nat.mod_eq_of_lt hS]

theorem cbpl_one_pin_equal (S w x : Nat) (a b : List Nat) (m : Nat) (hm : 0 < m) (hmw : m ≤ w)
    (hS : w < 2 ^ S) : RBT_COMMON_BIT_PREFIX_LEN S w (x :: a) (x :: b) m = m := by
  unfold RBT_COMMON_BIT_PREFIX_LEN
  have e : (x :: a).length + (x :: b).length + 2 ^ S + 1 =
      (a.length + b.length + 2 ^ S + 1) + 1 + 1 := by
    simp only [List.length_cons]; omega
  rw [e, common_bit_prefix_len_loop]
  simp only [List.headD_cons]
  rw [if_pos ⟨hm, trivial⟩, Nat.zero_add, Nat.mod_eq_of_lt hS, common_bit_prefix_len_loop,
    if_neg (fun h => absurd h.1 (by omega)), if_neg (by omega)]

/-- C7: with a key size type of at least 8 bits and pins of 8 bits or of 32
bits, starting from the empty tree and
inserting the 4-bit keys `0000`, `0001`, `1000`, `1001` (the key `x` is the
pin `x << (w - 4)`) with non-empty values `v1 .. v4` yields an empty zero-bit
root whose two children are empty placeholders holding `000` and `100`
(3 bits), each with two valued leaves; deleting `0001` afterwards replaces the
left placeholder by the childless node of `0000` with its value directly under
the root and leaves the right branch unchanged. -/
theorem four_keys_scenario (S : Nat) (hS : 8 ≤ S) (w : Nat) (hw : w = 8 ∨ w = 32) (v1 v2 v3 v4 : V)
    (h1 : v1 ≠ default) (h2 : v2 ≠ default) (h3 : v3 ≠ default) (h4 : v4 ≠ default) :
    RBT_NODE_QUERY S w (RBT_NODE_NEW w) [0 <<< (w - 4)] 4 .INSERT v1
      = some (.node [0 <<< (w - 4)] 4 v1 .NULL .NULL, v1) ∧
    RBT_NODE_QUERY S w (.node [0 <<< (w - 4)] 4 v1 .NULL .NULL) [1 <<< (w - 4)] 4 .INSERT v2
      = some (.node [0 <<< (w - 4)] 3 default (.node [0 <<< (w - 4)] 4 v1 .NULL .NULL)
          (.node [1 <<< (w - 4)] 4 v2 .NULL .NULL), v2) ∧
    RBT_NODE_QUERY S w (.node [0 <<< (w - 4)] 3 default (.node [0 <<< (w - 4)] 4 v1 .NULL .NULL)
          (.node [1 <<< (w - 4)] 4 v2 .NULL .NULL)) [8 <<< (w - 4)] 4 .INSERT v3
      = some (.node [] 0 default
          (.node [0 <<< (w - 4)] 3 default (.node [0 <<< (w - 4)] 4 v1 .NULL .NULL)
            (.node [1 <<< (w - 4)] 4 v2 .NULL .NULL))
          (.node [8 <<< (w - 4)] 4 v3 .NULL .NULL), v3) ∧
    RBT_NODE_QUERY S w (.node [] 0 default
          (.node [0 <<< (w - 4)] 3 default (.node [0 <<< (w - 4)] 4 v1 .NULL .NULL)
            (.node [1 <<< (w - 4)] 4 v2 .NULL .NULL))
          (.node [8 <<< (w - 4)] 4 v3 .NULL .NULL)) [9 <<< (w - 4)] 4 .INSERT v4
      = some (.node [] 0 default
          (.node [0 <<< (w - 4)] 3 default (.node [0 <<< (w - 4)] 4 v1 .NULL .NULL)
            (.node [1 <<< (w - 4)] 4 v2 .NULL .NULL))
          (.node [8 <<< (w - 4)] 3 default (.node [8 <<< (w - 4)] 4 v3 .NULL .NULL)
            (.node [9 <<< (w - 4)] 4 v4 .NULL .NULL)), v4) ∧
    RBT_NODE_QUERY S w (.node [] 0 default
          (.node [0 <<< (w - 4)] 3 default (.node [0 <<< (w - 4)] 4 v1 .NULL .NULL)
            (.node [1 <<< (w - 4)] 4 v2 .NULL .NULL))
          (.node [8 <<< (w - 4)] 3 default (.node [8 <<< (w - 4)] 4 v3 .NULL .NULL)
            (.node [9 <<< (w - 4)] 4 v4 .NULL .NULL))) [1 <<< (w - 4)] 4 .DELETE default
      = some (.node [] 0 default
          (.node [0 <<< (w - 4)] 4 v1 .NULL .NULL)
          (.node [8 <<< (w - 4)] 3 default (.node [8 <<< (w - 4)] 4 v3 .NULL .NULL)
            (.node [9 <<< (w - 4)] 4 v4 .NULL .NULL)), default) := by
  have h256 : 256 ≤ 2 ^ S :=
    calc 256 = 2 ^ 8 := by norm_num
      _ ≤ 2 ^ S := Nat.pow_le_pow_right (by decide) hS
  rcases hw with rfl | rfl
  · have c1 : RBT_COMMON_BIT_PREFIX_LEN S 8 [16] [0] 4 = 3 := by
      rw [cbpl_first_pin_differs S 8 16 0 [] [] 4 (by decide) (by decide)
        (lt_of_lt_of_le (by decide : builtin_clz 8 (16 ^^^ 0) < 256) h256)]
      decide
    have c2 : RBT_COMMON_BIT_PREFIX_LEN S 8 [128] [0] 3 = 0 := by
      rw [cbpl_first_pin_differs S 8 128 0 [] [] 3 (by decide) (by decide)
        (lt_of_lt_of_le (by decide : builtin_clz 8 (128 ^^^ 0) < 256) h256)]
      decide
    have c3 : RBT_COMMON_BIT_PREFIX_LEN S 8 [144] [128] 4 = 3 := by
      rw [cbpl_first_pin_differs S 8 144 128 [] [] 4 (by decide) (by decide)
        (lt_of_lt_of_le (by decide : builtin_clz 8 (144 ^^^ 128) < 256) h256)]
      decide
    have c4 : RBT_COMMON_BIT_PREFIX_LEN S 8 [16] [0] 3 = 3 := by
      rw [cbpl_first_pin_differs S 8 16 0 [] [] 3 (by decide) (by decide)
        (lt_of_lt_of_le (by decide : builtin_clz 8 (16 ^^^ 0) < 256) h256)]
      decide
    have c5 : RBT_COMMON_BIT_PREFIX_LEN S 8 [16] [16] 4 = 4 :=
      cbpl_one_pin_equal S 8 16 [] [] 4 (by decide) (by decide)
        (lt_of_lt_of_le (by decide : 8 < 256) h256)
    have n1 : N_BIT_IS_1 8 16 3 = true := by decide
    have n2 : N_BIT_IS_1 8 128 0 = true := by decide
    have n3 : N_BIT_IS_1 8 144 3 = true := by decide
    have f1 : FIRST_BIT_IS_1 8 144 = true := by decide
    have f2 : FIRST_BIT_IS_1 8 16 = false := by decide
    have b4 : BITS_TO_PINS 8 4 = 1 := by decide
    have b3 : BITS_TO_PINS 8 3 = 1 := by decide
    refine ⟨?_, ?_, ?_, ?_, ?_⟩
    · rw [query_insert_eq S 8 _ _ _ v1 h1]
      simp [RBT_NODE_NEW, RBT_NODE_CREATE, RBT_NODE_RETRIEVE, is_NULL,
        rbt_retrieve_action_t.inserts, RBT_VALUE_IS_NULL, b4]
    · rw [query_insert_eq S 8 _ _ _ v2 h2]
      simp [RBT_NODE_RETRIEVE, retrieve_loop, RBT_NODE_INSERT_SIBLING, is_NULL,
        rbt_retrieve_action_t.inserts, c1, n1, b4]
    · rw [query_insert_eq S 8 _ _ _ v3 h3]
      simp [RBT_NODE_RETRIEVE, retrieve_loop, RBT_NODE_INSERT_SIBLING, is_NULL,
        rbt_retrieve_action_t.inserts, c2, n2, b4, b3]
    · rw [query_insert_eq S 8 _ _ _ v4 h4]
      simp [RBT_NODE_RETRIEVE, retrieve_loop, RBT_NODE_INSERT_SIBLING, is_NULL,
        rbt_retrieve_action_t.inserts, c3, n3, f1, b4, below]
    · simp [RBT_NODE_QUERY, query_delete, RBT_NODE_RETRIEVE, retrieve_loop, is_NULL,
        rbt_retrieve_action_t.inserts, c4, c5, n1, f2, b4, below, value_at, remove_at,
        RBT_NODE_REMOVE, RBT_NODE_MERGE_CHILD, RBT_VALUE_IS_NULL, h2]
  · have c1 : RBT_COMMON_BIT_PREFIX_LEN S 32 [268435456] [0] 4 = 3 := by
      rw [cbpl_first_pin_differs S 32 268435456 0 [] [] 4 (by decide) (by decide)
        (lt_of_lt_of_le (by decide : builtin_clz 32 (268435456 ^^^ 0) < 256) h256)]
      decide
    have c2 : RBT_COMMON_BIT_PREFIX_LEN S 32 [2147483648] [0] 3 = 0 := by
      rw [cbpl_first_pin_differs S 32 2147483648 0 [] [] 3 (by decide) (by decide)
        (lt_of_lt_of_le (by decide : builtin_clz 32 (2147483648 ^^^ 0) < 256) h256)]
      decide
    have c3 : RBT_COMMON_BIT_PREFIX_LEN S 32 [2415919104] [2147483648] 4 = 3 := by
      rw [cbpl_first_pin_differs S 32 2415919104 2147483648 [] [] 4 (by decide) (by decide)
        (lt_of_lt_of_le (by decide : builtin_clz 32 (2415919104 ^^^ 2147483648) < 256) h256)]
      decide
    have c4 : RBT_COMMON_BIT_PREFIX_LEN S 32 [268435456] [0] 3 = 3 := by
      rw [cbpl_first_pin_differs S 32 268435456 0 [] [] 3 (by decide) (by decide)
        (lt_of_lt_of_le (by decide : builtin_clz 32 (268435456 ^^^ 0) < 256) h256)]
      decide
    have c5 : RBT_COMMON_BIT_PREFIX_LEN S 32 [268435456] [268435456] 4 = 4 :=
      cbpl_one_pin_equal S 32 268435456 [] [] 4 (by decide) (by decide)
        (lt_of_lt_of_le (by decide : 32 < 256) h256)
    have n1 : N_BIT_IS_1 32 268435456 3 = true := by decide
    have n2 : N_BIT_IS_1 32 2147483648 0 = true := by decide
    have n3 : N_BIT_IS_1 32 2415919104 3 = true := by decide
    have f1 : FIRST_BIT_IS_1 32 2415919104 = true := by decide
    have f2 : FIRST_BIT_IS_1 32 268435456 = false := by decide
    have b4 : BITS_TO_PINS 32 4 = 1 := by decide
    have b3 : BITS_TO_PINS 32 3 = 1 := by decide
    refine ⟨?_, ?_, ?_, ?_, ?_⟩
    · rw [query_insert_eq S 32 _ _ _ v1 h1]
      simp [RBT_NODE_NEW, RBT_NODE_CREATE, RBT_NODE_RETRIEVE, is_NULL,
        rbt_retrieve_action_t.inserts, RBT_VALUE_IS_NULL, b4]
    · rw [query_insert_eq S 32 _ _ _ v2 h2]
      simp [RBT_NODE_RETRIEVE, retrieve_loop, RBT_NODE_INSERT_SIBLING, is_NULL,
        rbt_retrieve_action_t.inserts, c1, n1, b4]
    · rw [query_insert_eq S 32 _ _ _ v3 h3]
      simp [RBT_NODE_RETRIEVE, retrieve_loop, RBT_NODE_INSERT_SIBLING, is_NULL,
        rbt_retrieve_action_t.inserts, c2, n2, b4, b3]
    · rw [query_insert_eq S 32 _ _ _ v4 h4]
      simp [RBT_NODE_RETRIEVE, retrieve_loop, RBT_NODE_INSERT_SIBLING, is_NULL,
        rbt_retrieve_action_t.inserts, c3, n3, f1, b4, below]
    · simp [RBT_NODE_QUERY, query_delete, RBT_NODE_RETRIEVE, retrieve_loop, is_NULL,
        rbt_retrieve_action_t.inserts, c4, c5, n1, f2, b4, below, value_at, remove_at,
        RBT_NODE_REMOVE, RBT_NODE_MERGE_CHILD, RBT_VALUE_IS_NULL, h2]

theorem four_keys_scenario_witness :
    (8 ≤ 8 ∧ (32 = 8 ∨ 32 = 32) ∧ (1 : Nat) ≠ default ∧ (2 : Nat) ≠ default ∧ (3 : Nat) ≠ default ∧
      (4 : Nat) ≠ default) ∧
    RBT_NODE_QUERY 8 32 (.node [] 0 default
          (.node [0 <<< (32 - 4)] 3 default (.node [0 <<< (32 - 4)] 4 1 .NULL .NULL)
            (.node [1 <<< (32 - 4)] 4 2 .NULL .NULL))
          (.node [8 <<< (32 - 4)] 3 default (.node [8 <<< (32 - 4)] 4 3 .NULL .NULL)
            (.node [9 <<< (32 - 4)] 4 4 .NULL .NULL))) [1 <<< (32 - 4)] 4 .DELETE default
      = some (.node [] 0 default
          (.node [0 <<< (32 - 4)] 4 1 .NULL .NULL)
          (.node [8 <<< (32 - 4)] 3 default (.node [8 <<< (32 - 4)] 4 3 .NULL .NULL)
            (.node [9 <<< (32 - 4)] 4 4 .NULL .NULL)), (default : Nat)) :=
  ⟨⟨by decide, by decide, by decide, by decide, by decide, by decide⟩,
    (four_keys_scenario 8 (by decide) 32 (by decide) 1 2 3 4 (by decide) (by decide) (by decide)
      (by decide)).2.2.2.2⟩
/-- C6: evaluation of the code with a key size type of 8 bits and pins of 32
bits on the empty tree and a key of 248 bits held in a buffer of nine pins.
The first insertion (value 7) fills the root.  In the second insertion of the
same key (value 9) the counter `length` of `RBT_COMMON_BIT_PREFIX_LEN` wraps
around after eight equal pins and the comparison ends with 27 common bits:
the root is split into a placeholder of 27 bits with two children that both
hold the whole key, one with 7 and one with 9.  `RBT_NODE_IS_COPY` of this
tree and of the tree with the single node that the insertion of 9 into the
empty tree gives returns 0. -/
theorem insert_twice_splits :
    RBT_NODE_QUERY 8 32 (RBT_NODE_NEW 32 : RBT_NODE_T Nat)
        [11, 12, 13, 14, 15, 16, 17, 18, 19] 248 .INSERT 7 =
        some (.node [11, 12, 13, 14, 15, 16, 17, 18] 248 7 .NULL .NULL, 7) ∧
      RBT_NODE_QUERY 8 32
        (.node [11, 12, 13, 14, 15, 16, 17, 18] 248 7 .NULL .NULL : RBT_NODE_T Nat)
        [11, 12, 13, 14, 15, 16, 17, 18, 19] 248 .INSERT 9 =
        some (.node [11] 27 0
          (.node [11, 12, 13, 14, 15, 16, 17, 18] 248 9 .NULL .NULL)
          (.node [11, 12, 13, 14, 15, 16, 17, 18] 248 7 .NULL .NULL), 9) ∧
      RBT_NODE_QUERY 8 32 (RBT_NODE_NEW 32 : RBT_NODE_T Nat)
        [11, 12, 13, 14, 15, 16, 17, 18, 19] 248 .INSERT 9 =
        some (.node [11, 12, 13, 14, 15, 16, 17, 18] 248 9 .NULL .NULL, 9) ∧
      RBT_NODE_IS_COPY 8 32
        (.node [11] 27 0
          (.node [11, 12, 13, 14, 15, 16, 17, 18] 248 9 .NULL .NULL)
          (.node [11, 12, 13, 14, 15, 16, 17, 18] 248 7 .NULL .NULL) : RBT_NODE_T Nat)
        (.node [11, 12, 13, 14, 15, 16, 17, 18] 248 9 .NULL .NULL) = some false :=
  ⟨by decide, by decide, by decide, by decide⟩

theorem reachable_two_bits_example :
    Reachable 8 8 (.node [0] 1 0 (.node [0] 2 5 .NULL .NULL) (.node [0] 2 1 .NULL .NULL) :
      RBT_NODE_T Nat) := by
  have h0 : Reachable 8 8 (.node [0] 1 2 .NULL (.node [0] 2 1 .NULL .NULL) : RBT_NODE_T Nat) :=
    reachable_example
  have k : key_ok 8 [0] 2 := ⟨by decide, by decide⟩
  have k1 : key_ok 8 [0] 1 := ⟨by decide, by decide⟩
  have h1 : Reachable 8 8
      (.node [0] 1 2 (.node [0] 2 5 .NULL .NULL) (.node [0] 2 1 .NULL .NULL) : RBT_NODE_T Nat) :=
    Reachable.query _ _ [0] 2 .INSERT 5 5 h0 k (by decide)
  exact Reachable.query _ _ [0] 1 .DELETE 0 0 h1 k1 (by decide)

/-- C3: in every tree reachable from the empty tree by insert, delete,
retrieve, retrieve-and-insert and swap (no allocation fails), every node with
the empty value has both a left and a right child, unless the tree is the
empty tree: a root without bits, value and children. -/
theorem reachable_no_redundant (S w : Nat) (T : RBT_NODE_T V) (hT : Reachable S w T) :
    is_empty_root T ∨ (is_NULL T = false ∧ no_redundant T) :=
  reachable_invariant S w T hT

/-- C3, witness: the reachable tree whose root is a placeholder (the empty
value 0) for the bit 0 with two children. -/
theorem reachable_no_redundant_witness :
    Reachable 8 8 (.node [0] 1 0 (.node [0] 2 5 .NULL .NULL) (.node [0] 2 1 .NULL .NULL) :
      RBT_NODE_T Nat) ∧
    (is_empty_root (.node [0] 1 0 (.node [0] 2 5 .NULL .NULL) (.node [0] 2 1 .NULL .NULL) :
        RBT_NODE_T Nat) ∨
      (is_NULL (.node [0] 1 0 (.node [0] 2 5 .NULL .NULL) (.node [0] 2 1 .NULL .NULL) :
          RBT_NODE_T Nat) = false ∧
        no_redundant (.node [0] 1 0 (.node [0] 2 5 .NULL .NULL) (.node [0] 2 1 .NULL .NULL) :
          RBT_NODE_T Nat))) :=
  ⟨reachable_two_bits_example, reachable_no_redundant 8 8 _ reachable_two_bits_example⟩

/-- C2: evaluation of the code at a reachable tree where the claim fails.  The
tree holds the 2-bit key 00 twice, as left child (value 5) and, misplaced by
`RBT_NODE_INSERT_PARENT`, as right child (value 1) of the 1-bit node 0.
Inserting 7 under 00 and deleting 00 removes the left child and merges the
right child into the root; retrieving 00 then returns 1, not the empty value,
and `RBT_HAS_KEY` is true. -/
theorem insert_delete_retrieve_stale :
    Reachable 8 8 (.node [0] 1 0 (.node [0] 2 5 .NULL .NULL) (.node [0] 2 1 .NULL .NULL) :
        RBT_NODE_T Nat) ∧
      RBT_NODE_QUERY 8 8 (.node [0] 1 0 (.node [0] 2 5 .NULL .NULL) (.node [0] 2 1 .NULL .NULL) :
        RBT_NODE_T Nat) [0] 2 .INSERT 7 =
        some (.node [0] 1 0 (.node [0] 2 7 .NULL .NULL) (.node [0] 2 1 .NULL .NULL), 7) ∧
      RBT_NODE_QUERY 8 8 (.node [0] 1 0 (.node [0] 2 7 .NULL .NULL) (.node [0] 2 1 .NULL .NULL) :
        RBT_NODE_T Nat) [0] 2 .DELETE default = some (.node [0] 2 1 .NULL .NULL, 0) ∧
      RBT_NODE_QUERY 8 8 (.node [0] 2 1 .NULL .NULL : RBT_NODE_T Nat) [0] 2 .RETRIEVE default =
        some (.node [0] 2 1 .NULL .NULL, 1) ∧
      RBT_HAS_KEY 8 8 (.node [0] 2 1 .NULL .NULL : RBT_NODE_T Nat) [0] 2 = some true :=
  ⟨reachable_two_bits_example, by decide, by decide, by decide, by decide⟩

/-- C4: evaluation of the code at a reachable tree where the child-side
invariant fails.  Inserting the 2-bit key 00 and then the 1-bit key 0 into the
empty tree makes `RBT_NODE_INSERT_PARENT` hang the node of 00 on the right of
the node of 0, although the bit that follows the parent's bit is 0; a
find-only retrieve of 00 then looks on the left and returns the empty value. -/
theorem insert_parent_wrong_side :
    RBT_NODE_QUERY 8 8 (RBT_NODE_NEW 8 : RBT_NODE_T Nat) [0] 2 .INSERT 1 =
        some (.node [0] 2 1 .NULL .NULL, 1) ∧
      RBT_NODE_QUERY 8 8 (.node [0] 2 1 .NULL .NULL : RBT_NODE_T Nat) [0] 1 .INSERT 2 =
        some (.node [0] 1 2 .NULL (.node [0] 2 1 .NULL .NULL), 2) ∧
      first_own_bit 8 1 (.node [0] 2 1 .NULL .NULL : RBT_NODE_T Nat) = false ∧
      child_sides_ok 8 (.node [0] 1 2 .NULL (.node [0] 2 1 .NULL .NULL) : RBT_NODE_T Nat) =
        false ∧
      RBT_NODE_QUERY 8 8 (.node [0] 1 2 .NULL (.node [0] 2 1 .NULL .NULL) : RBT_NODE_T Nat)
        [0] 2 .RETRIEVE default =
        some (.node [0] 1 2 .NULL (.node [0] 2 1 .NULL .NULL), 0) :=
  ⟨by decide, by decide, by decide, by decide, by decide⟩

/-- C5: evaluation of the code on the pairs (0, 2) and (00, 1) in both orders.
Inserting 00 first and 0 second puts the node of 00 on the right of the node
of 0 (`RBT_NODE_INSERT_PARENT`), the other order puts it on the left, and
`RBT_NODE_IS_COPY` of the two trees returns 0. -/
theorem insert_order_dependent :
    RBT_NODE_QUERY 8 8 (RBT_NODE_NEW 8 : RBT_NODE_T Nat) [0] 2 .INSERT 1 =
        some (.node [0] 2 1 .NULL .NULL, 1) ∧
      RBT_NODE_QUERY 8 8 (.node [0] 2 1 .NULL .NULL : RBT_NODE_T Nat) [0] 1 .INSERT 2 =
        some (.node [0] 1 2 .NULL (.node [0] 2 1 .NULL .NULL), 2) ∧
      RBT_NODE_QUERY 8 8 (RBT_NODE_NEW 8 : RBT_NODE_T Nat) [0] 1 .INSERT 2 =
        some (.node [0] 1 2 .NULL .NULL, 2) ∧
      RBT_NODE_QUERY 8 8 (.node [0] 1 2 .NULL .NULL : RBT_NODE_T Nat) [0] 2 .INSERT 1 =
        some (.node [0] 1 2 (.node [0] 2 1 .NULL .NULL) .NULL, 1) ∧
      RBT_NODE_IS_COPY 8 8
        (.node [0] 1 2 .NULL (.node [0] 2 1 .NULL .NULL) : RBT_NODE_T Nat)
        (.node [0] 1 2 (.node [0] 2 1 .NULL .NULL) .NULL) = some false :=
  ⟨by decide, by decide, by decide, by decide, by decide⟩

/-- C8: evaluation of the code with pins of 4 bytes (32 bits) on the tree that
holds the single 32-bit key with pin 5.  `RBT_NODE_TRAVERSE_WITH_KEY` hands
the callback `bits = 128` (`bytes * RBT_PIN_SIZE_BITS`, 4 * 32) for the root,
whose key has 32 bits. -/
theorem traverse_with_key_bits_wrong :
    RBT_NODE_QUERY 8 32 (RBT_NODE_NEW 32 : RBT_NODE_T Nat) [5] 32 .INSERT 7 =
        some (.node [5] 32 7 .NULL .NULL, 7) ∧
      (RBT_NODE_TRAVERSE_WITH_KEY 4 (.node [5] 32 7 .NULL .NULL : RBT_NODE_T Nat)
        (fun _ _ => false)).map (fun calls => calls.map (fun c => (c.1.key, c.1.bits, c.1.bytes)))
        = some [([5], 128, 4)] :=
  ⟨by decide, by decide⟩

/-- C10: evaluation of the code on the reachable tree that holds the 1-bit key
0 (value 1) with the 2-bit key 00 (value 2) as its left child, filtered with
the predicate that is true on every value.  The root is removed by merging
its child into it, the loop goes on below the root without offering the
merged value to the predicate, and the tree that is left still holds 00. -/
theorem filter_root_merge_unfiltered :
    RBT_NODE_QUERY 8 8 (RBT_NODE_NEW 8 : RBT_NODE_T Nat) [0] 1 .INSERT 1 =
        some (.node [0] 1 1 .NULL .NULL, 1) ∧
      RBT_NODE_QUERY 8 8 (.node [0] 1 1 .NULL .NULL : RBT_NODE_T Nat) [0] 2 .INSERT 2 =
        some (.node [0] 1 1 (.node [0] 2 2 .NULL .NULL) .NULL, 2) ∧
      RBT_NODE_FILTER 8 (.node [0] 1 1 (.node [0] 2 2 .NULL .NULL) .NULL : RBT_NODE_T Nat)
        (fun _ => true) false = some (.node [0] 2 2 .NULL .NULL) ∧
      RBT_HAS_KEY 8 8 (.node [0] 2 2 .NULL .NULL : RBT_NODE_T Nat) [0] 2 = some true :=
  ⟨by decide, by decide, by decide, by decide⟩

/-! ## Retrieve, retrieve-and-insert and swap -/

set_option maxRecDepth 100000

/-- C15: for every tree `T`, key and bit count, `RBT_NODE_RETRIEVE` with
`RBT_RETRIEVE_ACTION_NOTHING` leaves the tree as it is, and `RBT_NODE_QUERY`
with `RBT_QUERY_ACTION_RETRIEVE` returns a value and leaves the tree as it is
(every key fragment, bit count, value and child link), whether or not the key
is found. -/
theorem retrieve_read_only (S w : Nat) (T : RBT_NODE_T V) (key : List Nat) (bits : Nat)
    (value : V) :
    (RBT_NODE_RETRIEVE S w T key bits .NOTHING value).1 = T ∧
      ∃ ret, RBT_NODE_QUERY S w T key bits .RETRIEVE value = some (T, ret) := by
  refine ⟨(retrieve_nothing S w value T key bits).1, ?_⟩
  obtain ⟨h1, h2⟩ := retrieve_nothing S w (default : V) T key bits
  simp only [RBT_NODE_QUERY, query_retrieve, h1]
  cases hp : (RBT_NODE_RETRIEVE S w T key bits .NOTHING (default : V)).2 with
  | none => exact ⟨default, rfl⟩
  | some p =>
    obtain ⟨tv, htv⟩ := h2 p hp
    exact ⟨tv, by simp [htv]⟩

/-- C13: evaluation of the code at a reachable tree where the claim fails for
the empty new value.  The tree holds the 2-bit key 00 twice (left child with
value 5 and, misplaced by `RBT_NODE_INSERT_PARENT`, right child with value 1).
Retrieve-and-insert of the empty value under 00 returns 5, the value that
retrieve returned before, but a retrieve of 00 afterwards returns 1: the key
is not absent. -/
theorem retrieve_and_insert_empty_stale :
    Reachable 8 8 (.node [0] 1 0 (.node [0] 2 5 .NULL .NULL) (.node [0] 2 1 .NULL .NULL) :
        RBT_NODE_T Nat) ∧
      RBT_NODE_QUERY 8 8 (.node [0] 1 0 (.node [0] 2 5 .NULL .NULL) (.node [0] 2 1 .NULL .NULL) :
        RBT_NODE_T Nat) [0] 2 .RETRIEVE default =
        some (.node [0] 1 0 (.node [0] 2 5 .NULL .NULL) (.node [0] 2 1 .NULL .NULL), 5) ∧
      RBT_NODE_QUERY 8 8 (.node [0] 1 0 (.node [0] 2 5 .NULL .NULL) (.node [0] 2 1 .NULL .NULL) :
        RBT_NODE_T Nat) [0] 2 .RETRIEVE_AND_INSERT default =
        some (.node [0] 2 1 .NULL .NULL, 5) ∧
      RBT_NODE_QUERY 8 8 (.node [0] 2 1 .NULL .NULL : RBT_NODE_T Nat) [0] 2 .RETRIEVE default =
        some (.node [0] 2 1 .NULL .NULL, 1) :=
  ⟨reachable_two_bits_example, by decide, by decide, by decide⟩
/-! ## Sets -/

/-- C17: evaluation of the code on `a = {00, 01}` (2-bit keys) and `b = {0}`
(1-bit key), pins of one byte.  In `a` the key 0 is the placeholder root with
the empty value; the callback of `RBT_SET_MODIFY_UNION` retrieves it with
`RBT_RETRIEVE_ACTION_INSERT`, which leaves the value of an existing node as it
is, so `a` is unchanged and does not include 0 after the union. -/
theorem union_misses_placeholder_key :
    set_from 8 1 [([0x00], 2), ([0x40], 2)] =
        some (.node [0] 1 0 (.node [0] 2 1 .NULL .NULL) (.node [0x40] 2 1 .NULL .NULL)) ∧
      set_from 8 1 [([0x00], 1)] = some (.node [0] 1 1 .NULL .NULL) ∧
      RBT_SET_INCLUDES 8 1 (.node [0] 1 1 .NULL .NULL) [0x00] 1 = some true ∧
      RBT_SET_MODIFY_UNION 8 1
          (.node [0] 1 0 (.node [0] 2 1 .NULL .NULL) (.node [0x40] 2 1 .NULL .NULL))
          (.node [0] 1 1 .NULL .NULL) =
        some (.node [0] 1 0 (.node [0] 2 1 .NULL .NULL) (.node [0x40] 2 1 .NULL .NULL)) ∧
      RBT_SET_INCLUDES 8 1
          (.node [0] 1 0 (.node [0] 2 1 .NULL .NULL) (.node [0x40] 2 1 .NULL .NULL))
          [0x00] 1 = some false :=
  ⟨by decide, by decide, by decide, by decide, by decide⟩

/-- C19: evaluation of the code on `a = {1, 2, 3}` and `b = {2, 3, 4}` (8-bit
keys, pins of one byte).  For the key 1 of `a` the lookup in `b` returns
`NULL`, and the callback of `RBT_SET_DIFFERENCE` then evaluates `b->value` on
that `NULL` pointer: the call does not return a set. -/
theorem difference_dereferences_null :
    set_from 8 1 [([1], 8), ([2], 8), ([3], 8)] =
        some (.node [1] 6 0 (.node [1] 8 1 .NULL .NULL)
          (.node [2] 7 0 (.node [2] 8 1 .NULL .NULL) (.node [3] 8 1 .NULL .NULL))) ∧
      set_from 8 1 [([2], 8), ([3], 8), ([4], 8)] =
        some (.node [2] 5 0
          (.node [2] 7 0 (.node [2] 8 1 .NULL .NULL) (.node [3] 8 1 .NULL .NULL))
          (.node [4] 8 1 .NULL .NULL)) ∧
      RBT_SET_DIFFERENCE 8 1
          (.node [1] 6 0 (.node [1] 8 1 .NULL .NULL)
            (.node [2] 7 0 (.node [2] 8 1 .NULL .NULL) (.node [3] 8 1 .NULL .NULL)))
          (.node [2] 5 0
            (.node [2] 7 0 (.node [2] 8 1 .NULL .NULL) (.node [3] 8 1 .NULL .NULL))
            (.node [4] 8 1 .NULL .NULL)) = none :=
  ⟨by decide, by decide, by decide⟩

/-- C20: evaluation of the code on `a = {00}` (2-bit key) and `b = {0}`
(1-bit key), pins of one byte.  The callback of
`RBT_SET_MODIFY_EXCLUSIVE_DISJUNCTION` inserts the node of 0 above the node of
00, `RBT_NODE_INSERT_PARENT` hangs 00 on the right although its next bit is 0,
and afterwards `a` does not include 00, a key of exactly one of the sets. -/
theorem exclusive_disjunction_loses_key :
    set_from 8 1 [([0x00], 2)] = some (.node [0] 2 1 .NULL .NULL) ∧
      set_from 8 1 [([0x00], 1)] = some (.node [0] 1 1 .NULL .NULL) ∧
      RBT_SET_INCLUDES 8 1 (.node [0] 2 1 .NULL .NULL) [0x00] 2 = some true ∧
      RBT_SET_INCLUDES 8 1 (.node [0] 1 1 .NULL .NULL) [0x00] 2 = some false ∧
      RBT_SET_MODIFY_EXCLUSIVE_DISJUNCTION 8 1 (.node [0] 2 1 .NULL .NULL)
          (.node [0] 1 1 .NULL .NULL) =
        some (.node [0] 1 1 .NULL (.node [0] 2 1 .NULL .NULL)) ∧
      RBT_SET_INCLUDES 8 1 (.node [0] 1 1 .NULL (.node [0] 2 1 .NULL .NULL)) [0x00] 2 =
        some false :=
  ⟨by decide, by decide, by decide, by decide, by decide, by decide⟩
/-- C11: evaluation of the code on the tree that holds the 16-bit keys 0x8000,
0x8040 and 0x8060 (values 1, 2, 3; pins of one byte), filtered with the
callback that is non-zero on the value 2.  Removing the node of 0x8040 merges
its sibling, the node of 0x8060, into their parent; the walk jumps back to the
parent with `key_data.bytes = 0` (`stack` is empty) although the key prefix of
the parent is one byte, and the callback is handed the key `[0x60, 0x40]` with
8 bits for the node of value 3, whose key is `[0x80, 0x60]` with 16 bits. -/
theorem filter_with_key_wrong_key :
    RBT_NODE_QUERY 8 8 (RBT_NODE_NEW 8 : RBT_NODE_T Nat) [0x80, 0x00] 16 .INSERT 1 =
        some (.node [0x80, 0x00] 16 1 .NULL .NULL, 1) ∧
      RBT_NODE_QUERY 8 8 (.node [0x80, 0x00] 16 1 .NULL .NULL : RBT_NODE_T Nat)
          [0x80, 0x40] 16 .INSERT 2 =
        some (.node [0x80, 0x00] 9 0 (.node [0x00] 8 1 .NULL .NULL)
          (.node [0x40] 8 2 .NULL .NULL), 2) ∧
      RBT_NODE_QUERY 8 8 (.node [0x80, 0x00] 9 0 (.node [0x00] 8 1 .NULL .NULL)
          (.node [0x40] 8 2 .NULL .NULL) : RBT_NODE_T Nat) [0x80, 0x60] 16 .INSERT 3 =
        some (.node [0x80, 0x00] 9 0 (.node [0x00] 8 1 .NULL .NULL)
          (.node [0x40] 2 0 (.node [0x40] 8 2 .NULL .NULL) (.node [0x60] 8 3 .NULL .NULL)),
          3) ∧
      (RBT_NODE_FILTER_WITH_KEY 1
          (.node [0x80, 0x00] 9 0 (.node [0x00] 8 1 .NULL .NULL)
            (.node [0x40] 2 0 (.node [0x40] 8 2 .NULL .NULL) (.node [0x60] 8 3 .NULL .NULL)) :
            RBT_NODE_T Nat)
          (fun key_data => decide (key_data.node.value = 2)) false).map
          (fun r => (r.1, r.2.map (fun c => (c.key, c.bits, c.node.value)))) =
        some (.node [0x80, 0x00] 9 0 (.node [0x00] 8 1 .NULL .NULL)
            (.node [0x60] 8 3 .NULL .NULL),
          [([0x80, 0x00], 16, 1), ([0x80, 0x40], 16, 2), ([0x60, 0x40], 8, 3)]) ∧
      RBT_NODE_QUERY 8 8 (.node [0x80, 0x00] 9 0 (.node [0x00] 8 1 .NULL .NULL)
          (.node [0x60] 8 3 .NULL .NULL) : RBT_NODE_T Nat) [0x80, 0x60] 16 .RETRIEVE default =
        some (.node [0x80, 0x00] 9 0 (.node [0x00] 8 1 .NULL .NULL)
          (.node [0x60] 8 3 .NULL .NULL), 3) :=
  ⟨by decide, by decide, by decide, by decide, by decide⟩

/-- C18: evaluation of the code on `a = {0x8000, 0x8040, 0x8060}` and
`b = {0x8000, 0x8060}` (16-bit keys, pins of one byte).  After 0x8040 is
removed from `a` the node of 0x8060 is offered to the callback of
`RBT_SET_MODIFY_INTERSECTION` with the key `[0x60, 0x40]` of 8 bits, which is
not in `b`, and is removed: `a` is left as `{0x8000}` and does not include
0x8060, a key of both sets. -/
theorem intersection_loses_common_key :
    set_from 8 1 [([0x80, 0x00], 16), ([0x80, 0x40], 16), ([0x80, 0x60], 16)] =
        some (.node [0x80, 0x00] 9 0 (.node [0x00] 8 1 .NULL .NULL)
          (.node [0x40] 2 0 (.node [0x40] 8 1 .NULL .NULL) (.node [0x60] 8 1 .NULL .NULL))) ∧
      set_from 8 1 [([0x80, 0x00], 16), ([0x80, 0x60], 16)] =
        some (.node [0x80, 0x00] 9 0 (.node [0x00] 8 1 .NULL .NULL)
          (.node [0x60] 8 1 .NULL .NULL)) ∧
      RBT_SET_INCLUDES 8 1
          (.node [0x80, 0x00] 9 0 (.node [0x00] 8 1 .NULL .NULL)
            (.node [0x40] 2 0 (.node [0x40] 8 1 .NULL .NULL) (.node [0x60] 8 1 .NULL .NULL)))
          [0x80, 0x60] 16 = some true ∧
      RBT_SET_INCLUDES 8 1
          (.node [0x80, 0x00] 9 0 (.node [0x00] 8 1 .NULL .NULL)
            (.node [0x60] 8 1 .NULL .NULL)) [0x80, 0x60] 16 = some true ∧
      RBT_SET_MODIFY_INTERSECTION 8 1
          (.node [0x80, 0x00] 9 0 (.node [0x00] 8 1 .NULL .NULL)
            (.node [0x40] 2 0 (.node [0x40] 8 1 .NULL .NULL) (.node [0x60] 8 1 .NULL .NULL)))
          (.node [0x80, 0x00] 9 0 (.node [0x00] 8 1 .NULL .NULL)
            (.node [0x60] 8 1 .NULL .NULL)) =
        some (.node [0x80, 0x00] 16 1 .NULL .NULL) ∧
      RBT_SET_INCLUDES 8 1 (.node [0x80, 0x00] 16 1 .NULL .NULL) [0x80, 0x60] 16 =
        some false :=
  ⟨by decide, by decide, by decide, by decide, by decide, by decide⟩
/-- C12: evaluation of the code with a key size type of 8 bits and pins of 32
bits on the reachable tree that holds one key of 248 bits.  `RBT_NODE_COPY`
returns a tree with the same node, and `RBT_NODE_IS_COPY` of the copy and the
tree returns 0: the comparison of the two key fragments wraps `length` around
after eight equal pins and goes on past the end of both buffers
(`RBT_COMMON_BIT_PREFIX_LEN_WRAP` is `none`). -/
theorem copy_not_recognised :
    RBT_NODE_QUERY 8 32 (RBT_NODE_NEW 32 : RBT_NODE_T Nat) [31, 32, 33, 34, 35, 36, 37, 38]
        248 .INSERT 4 = some (.node [31, 32, 33, 34, 35, 36, 37, 38] 248 4 .NULL .NULL, 4) ∧
      RBT_NODE_COPY 32
        (.node [31, 32, 33, 34, 35, 36, 37, 38] 248 4 .NULL .NULL : RBT_NODE_T Nat) =
        some (.node [31, 32, 33, 34, 35, 36, 37, 38] 248 4 .NULL .NULL) ∧
      RBT_COMMON_BIT_PREFIX_LEN_WRAP 8 32 [31, 32, 33, 34, 35, 36, 37, 38]
        [31, 32, 33, 34, 35, 36, 37, 38] 0 248 = none ∧
      RBT_NODE_IS_COPY 8 32
        (.node [31, 32, 33, 34, 35, 36, 37, 38] 248 4 .NULL .NULL : RBT_NODE_T Nat)
        (.node [31, 32, 33, 34, 35, 36, 37, 38] 248 4 .NULL .NULL) = some false :=
  ⟨by decide, by decide, by decide, by decide⟩

/-- C16: evaluation of the code with a key size type of 8 bits and pins of 32
bits (`2 ^ 8 - 1 >= 248`) on two buffers of nine pins whose first eight pins
(256 bits) are equal and whose ninth pins differ in the first bit, with
`max = 248`.  The first 248 bits agree, so the largest `r <= max` with equal
first `r` bits is 248; the function returns 0 on both paths, because `length`
is 256 after eight pins, which wraps around to 0, and the ninth pins, at the
positions 256 and above, are compared. -/
theorem common_bit_prefix_len_not_largest :
    248 ≤ 2 ^ 8 - 1 ∧
      (∀ i, i < 248 →
        key_bit 32 [41, 42, 43, 44, 45, 46, 47, 48, 0x80000000] i =
          key_bit 32 [41, 42, 43, 44, 45, 46, 47, 48, 0] i) ∧
      RBT_COMMON_BIT_PREFIX_LEN 8 32 [41, 42, 43, 44, 45, 46, 47, 48, 0x80000000]
        [41, 42, 43, 44, 45, 46, 47, 48, 0] 248 = 0 ∧
      RBT_COMMON_BIT_PREFIX_LEN_SHIFT 8 32 [41, 42, 43, 44, 45, 46, 47, 48, 0x80000000]
        [41, 42, 43, 44, 45, 46, 47, 48, 0] 248 = 0 ∧
      RBT_COMMON_BIT_PREFIX_LEN_WRAP 8 32 [41, 42, 43, 44, 45, 46, 47, 48, 0x80000000]
        [41, 42, 43, 44, 45, 46, 47, 48, 0] 0 248 = some 0 :=
  ⟨by decide, by decide, by decide, by decide, by decide⟩

/-! ## Sets: subset test and the variants that copy -/

/-- C21: evaluation of the code on `a = {0}` (1-bit key) and `b = {00, 01}`
(2-bit keys), pins of one byte.  In `b` the key 0 is the placeholder root with
the empty value, so `b` does not include 0; the callback of
`RBT_SET_IS_SUBSET` only tests the node returned by the lookup against `NULL`,
and the function returns non-zero. -/
theorem is_subset_counts_placeholder :
    set_from 8 1 [([0x00], 1)] = some (.node [0] 1 1 .NULL .NULL) ∧
      set_from 8 1 [([0x00], 2), ([0x40], 2)] =
        some (.node [0] 1 0 (.node [0] 2 1 .NULL .NULL) (.node [0x40] 2 1 .NULL .NULL)) ∧
      RBT_SET_INCLUDES 8 1 (.node [0] 1 1 .NULL .NULL) [0x00] 1 = some true ∧
      RBT_SET_INCLUDES 8 1
          (.node [0] 1 0 (.node [0] 2 1 .NULL .NULL) (.node [0x40] 2 1 .NULL .NULL))
          [0x00] 1 = some false ∧
      RBT_SET_IS_SUBSET 8 1 (.node [0] 1 1 .NULL .NULL)
          (.node [0] 1 0 (.node [0] 2 1 .NULL .NULL) (.node [0x40] 2 1 .NULL .NULL)) =
        some true :=
  ⟨by decide, by decide, by decide, by decide, by decide⟩

/-- C22: evaluation of the scenario `A = {1, 2, 3}`, `B = {2, 3, 4}` with
8-bit integer keys and pins of one byte.  Union, intersection, exclusive
disjunction and the subset test give the expected sets, but
`RBT_SET_DIFFERENCE(A, B)` dereferences `NULL` for the key 1 and returns no
set. -/
theorem set_scenario_difference_fails :
    set_from 8 1 [([1], 8), ([2], 8), ([3], 8)] =
        some (.node [1] 6 0 (.node [1] 8 1 .NULL .NULL)
          (.node [2] 7 0 (.node [2] 8 1 .NULL .NULL) (.node [3] 8 1 .NULL .NULL))) ∧
      set_from 8 1 [([2], 8), ([3], 8), ([4], 8)] =
        some (.node [2] 5 0
          (.node [2] 7 0 (.node [2] 8 1 .NULL .NULL) (.node [3] 8 1 .NULL .NULL))
          (.node [4] 8 1 .NULL .NULL)) ∧
      set_from 8 1 [([2], 8), ([3], 8)] =
        some (.node [2] 7 0 (.node [2] 8 1 .NULL .NULL) (.node [3] 8 1 .NULL .NULL)) ∧
      (RBT_SET_UNION 8 1
          (.node [1] 6 0 (.node [1] 8 1 .NULL .NULL)
            (.node [2] 7 0 (.node [2] 8 1 .NULL .NULL) (.node [3] 8 1 .NULL .NULL)))
          (.node [2] 5 0
            (.node [2] 7 0 (.node [2] 8 1 .NULL .NULL) (.node [3] 8 1 .NULL .NULL))
            (.node [4] 8 1 .NULL .NULL))).bind
          (fun c => [1, 2, 3, 4, 5].mapM (fun k => RBT_SET_INCLUDES 8 1 c [k] 8)) =
        some [true, true, true, true, false] ∧
      (RBT_SET_INTERSECTION 8 1
          (.node [1] 6 0 (.node [1] 8 1 .NULL .NULL)
            (.node [2] 7 0 (.node [2] 8 1 .NULL .NULL) (.node [3] 8 1 .NULL .NULL)))
          (.node [2] 5 0
            (.node [2] 7 0 (.node [2] 8 1 .NULL .NULL) (.node [3] 8 1 .NULL .NULL))
            (.node [4] 8 1 .NULL .NULL))).bind
          (fun c => [1, 2, 3, 4, 5].mapM (fun k => RBT_SET_INCLUDES 8 1 c [k] 8)) =
        some [false, true, true, false, false] ∧
      (RBT_SET_EXCLUSIVE_DISJUNCTION 8 1
          (.node [1] 6 0 (.node [1] 8 1 .NULL .NULL)
            (.node [2] 7 0 (.node [2] 8 1 .NULL .NULL) (.node [3] 8 1 .NULL .NULL)))
          (.node [2] 5 0
            (.node [2] 7 0 (.node [2] 8 1 .NULL .NULL) (.node [3] 8 1 .NULL .NULL))
            (.node [4] 8 1 .NULL .NULL))).bind
          (fun c => [1, 2, 3, 4, 5].mapM (fun k => RBT_SET_INCLUDES 8 1 c [k] 8)) =
        some [true, false, false, true, false] ∧
      RBT_SET_IS_SUBSET 8 1
          (.node [2] 7 0 (.node [2] 8 1 .NULL .NULL) (.node [3] 8 1 .NULL .NULL))
          (.node [1] 6 0 (.node [1] 8 1 .NULL .NULL)
            (.node [2] 7 0 (.node [2] 8 1 .NULL .NULL) (.node [3] 8 1 .NULL .NULL))) =
        some true ∧
      (RBT_SET_DIFFERENCE 8 1
          (.node [1] 6 0 (.node [1] 8 1 .NULL .NULL)
            (.node [2] 7 0 (.node [2] 8 1 .NULL .NULL) (.node [3] 8 1 .NULL .NULL)))
          (.node [2] 5 0
            (.node [2] 7 0 (.node [2] 8 1 .NULL .NULL) (.node [3] 8 1 .NULL .NULL))
            (.node [4] 8 1 .NULL .NULL))).isSome = false :=
  ⟨by decide, by decide, by decide, by decide, by decide, by decide, by decide, by decide⟩

/-- C23: evaluation of the code on `A = {00}` (2-bit key) and `B = {0}`
(1-bit key), pins of one byte.  `RBT_SET_UNION(A, B)` inserts 0 above 00 and
`RBT_NODE_INSERT_PARENT` hangs 00 on the right; `RBT_SET_UNION(B, A)` inserts
00 below 0 on the left; `RBT_NODE_IS_COPY` of the two unions returns 0. -/
theorem union_not_commutative :
    set_from 8 1 [([0x00], 2)] = some (.node [0] 2 1 .NULL .NULL) ∧
      set_from 8 1 [([0x00], 1)] = some (.node [0] 1 1 .NULL .NULL) ∧
      RBT_SET_UNION 8 1 (.node [0] 2 1 .NULL .NULL) (.node [0] 1 1 .NULL .NULL) =
        some (.node [0] 1 1 .NULL (.node [0] 2 1 .NULL .NULL)) ∧
      RBT_SET_UNION 8 1 (.node [0] 1 1 .NULL .NULL) (.node [0] 2 1 .NULL .NULL) =
        some (.node [0] 1 1 (.node [0] 2 1 .NULL .NULL) .NULL) ∧
      RBT_NODE_IS_COPY 8 8 (.node [0] 1 1 .NULL (.node [0] 2 1 .NULL .NULL) : RBT_NODE_T Int)
        (.node [0] 1 1 (.node [0] 2 1 .NULL .NULL) .NULL) = some false :=
  ⟨by decide, by decide, by decide, by decide, by decide⟩

/-- C24: evaluation of the code on `a = {1, 2, 3}` and `b = {2, 3, 4}` (8-bit
keys, pins of one byte).  `RBT_SET_MODIFY_DIFFERENCE` on `RBT_NODE_COPY(a)`
and `b` leaves the set `{1}`, while `RBT_SET_DIFFERENCE(a, b)` dereferences
`NULL` and returns no set. -/
theorem difference_variants_differ :
    (RBT_NODE_COPY 8
          (.node [1] 6 0 (.node [1] 8 1 .NULL .NULL)
            (.node [2] 7 0 (.node [2] 8 1 .NULL .NULL) (.node [3] 8 1 .NULL .NULL)) :
            RBT_NODE_T Int)).bind
          (fun c => RBT_SET_MODIFY_DIFFERENCE 8 1 c
            (.node [2] 5 0
              (.node [2] 7 0 (.node [2] 8 1 .NULL .NULL) (.node [3] 8 1 .NULL .NULL))
              (.node [4] 8 1 .NULL .NULL))) =
        some (.node [1] 8 1 .NULL .NULL) ∧
      RBT_SET_DIFFERENCE 8 1
          (.node [1] 6 0 (.node [1] 8 1 .NULL .NULL)
            (.node [2] 7 0 (.node [2] 8 1 .NULL .NULL) (.node [3] 8 1 .NULL .NULL)))
          (.node [2] 5 0
            (.node [2] 7 0 (.node [2] 8 1 .NULL .NULL) (.node [3] 8 1 .NULL .NULL))
            (.node [4] 8 1 .NULL .NULL)) = none ∧
      (∀ a b : RBT_NODE_T Int, RBT_SET_UNION 8 1 a b =
        (RBT_NODE_COPY 8 a).bind (fun c => RBT_SET_MODIFY_UNION 8 1 c b)) ∧
      (∀ a b : RBT_NODE_T Int, RBT_SET_EXCLUSIVE_DISJUNCTION 8 1 a b =
        (RBT_NODE_COPY 8 a).bind (fun c => RBT_SET_MODIFY_EXCLUSIVE_DISJUNCTION 8 1 c b)) :=
  ⟨by decide, by decide, fun _ _ => rfl, fun _ _ => rfl⟩

/-! ## Counting -/

/-- C26: every reachable tree that holds at least one non-empty value has
fewer nodes with the empty value than nodes with a non-empty value: with `n`
values at most `n - 1` placeholders. -/
theorem reachable_placeholder_bound (S w : Nat) (T : RBT_NODE_T V) (hT : Reachable S w T)
    (hn : 1 ≤ valued_total T) : empty_total T + 1 ≤ valued_total T := by
  rcases reachable_invariant S w T hT with he | ⟨h1, h2⟩
  · rw [valued_total_empty_root T he] at hn
    omega
  · exact placeholder_bound_aux T h1 h2

theorem reachable_placeholder_bound_witness :
    (Reachable 8 8 (.node [0] 1 0 (.node [0] 2 5 .NULL .NULL) (.node [0] 2 1 .NULL .NULL) :
        RBT_NODE_T Nat) ∧
      1 ≤ valued_total (.node [0] 1 0 (.node [0] 2 5 .NULL .NULL)
        (.node [0] 2 1 .NULL .NULL) : RBT_NODE_T Nat)) ∧
    empty_total (.node [0] 1 0 (.node [0] 2 5 .NULL .NULL) (.node [0] 2 1 .NULL .NULL) :
        RBT_NODE_T Nat) + 1 ≤
      valued_total (.node [0] 1 0 (.node [0] 2 5 .NULL .NULL) (.node [0] 2 1 .NULL .NULL) :
        RBT_NODE_T Nat) :=
  ⟨⟨reachable_two_bits_example, by decide⟩,
    reachable_placeholder_bound 8 8 _ reachable_two_bits_example (by decide)⟩

/-- C25: with a key size type of `S` bits `RBT_NODE_COUNT` returns the number
of nodes with a non-empty value modulo `2 ^ S`, for every tree; with the 8-bit
type a tree that holds 300 values yields 44, not 300. -/
theorem node_count_wraps :
    (∀ (S : Nat) (T : RBT_NODE_T Nat), RBT_NODE_COUNT S T = some (valued_total T % 2 ^ S)) ∧
      valued_total (left_chain 300 0) = 300 ∧
      RBT_NODE_COUNT 8 (left_chain 300 0) = some 44 := by
  refine ⟨fun S T => count_spec S T, valued_total_left_chain 300 0, ?_⟩
  rw [count_spec, valued_total_left_chain]
  rfl
/-! ## Release, allocation failure and the key size type -/

/-- C27: evaluation of `RBT_NODE_FREE` on the tree reached by inserting the
keys 0, 1, 110 and 111 (pins of one byte), laid out at the addresses 0 to 5.
The root has two children, so `descendent` is set and ends at the node of 1;
that node has only a right child and is released while `descendent` still
points to it; at the node below with two children `descendent->left = orphan`
writes to the released node.  On the tree without the key 111 every node is
released. -/
theorem free_writes_to_released_node :
    RBT_NODE_QUERY 8 8 (RBT_NODE_NEW 8 : RBT_NODE_T Nat) [0x00] 1 .INSERT 1 =
        some (.node [0x00] 1 1 .NULL .NULL, 1) ∧
      RBT_NODE_QUERY 8 8 (.node [0x00] 1 1 .NULL .NULL : RBT_NODE_T Nat) [0x80] 1 .INSERT 2 =
        some (.node [] 0 0 (.node [0x00] 1 1 .NULL .NULL) (.node [0x80] 1 2 .NULL .NULL), 2) ∧
      RBT_NODE_QUERY 8 8 (.node [] 0 0 (.node [0x00] 1 1 .NULL .NULL)
          (.node [0x80] 1 2 .NULL .NULL) : RBT_NODE_T Nat) [0xC0] 3 .INSERT 3 =
        some (.node [] 0 0 (.node [0x00] 1 1 .NULL .NULL)
          (.node [0x80] 1 2 .NULL (.node [0xC0] 3 3 .NULL .NULL)), 3) ∧
      RBT_NODE_QUERY 8 8 (.node [] 0 0 (.node [0x00] 1 1 .NULL .NULL)
          (.node [0x80] 1 2 .NULL (.node [0xC0] 3 3 .NULL .NULL)) : RBT_NODE_T Nat)
          [0xE0] 3 .INSERT 4 =
        some (.node [] 0 0 (.node [0x00] 1 1 .NULL .NULL)
          (.node [0x80] 1 2 .NULL
            (.node [0xC0] 2 0 (.node [0xC0] 3 3 .NULL .NULL) (.node [0xE0] 3 4 .NULL .NULL))),
          4) ∧
      Heap.alloc_tree (.node [] 0 0 (.node [0x00] 1 1 .NULL .NULL)
          (.node [0x80] 1 2 .NULL
            (.node [0xC0] 2 0 (.node [0xC0] 3 3 .NULL .NULL) (.node [0xE0] 3 4 .NULL .NULL))) :
          RBT_NODE_T Nat) [] =
        (some 0,
          [some { key := [], bits := 0, value := 0, left := some 1, right := some 2 },
           some { key := [0x00], bits := 1, value := 1, left := none, right := none },
           some { key := [0x80], bits := 1, value := 2, left := none, right := some 3 },
           some { key := [0xC0], bits := 2, value := 0, left := some 4, right := some 5 },
           some { key := [0xC0], bits := 3, value := 3, left := none, right := none },
           some { key := [0xE0], bits := 3, value := 4, left := none, right := none }]) ∧
      Heap.RBT_NODE_FREE
          ([some { key := [], bits := 0, value := 0, left := some 1, right := some 2 },
            some { key := [0x00], bits := 1, value := 1, left := none, right := none },
            some { key := [0x80], bits := 1, value := 2, left := none, right := some 3 },
            some { key := [0xC0], bits := 2, value := 0, left := some 4, right := some 5 },
            some { key := [0xC0], bits := 3, value := 3, left := none, right := none },
            some { key := [0xE0], bits := 3, value := 4, left := none, right := none }] :
            List (Option (Heap.node_t Nat))) (some 0) = none ∧
      Heap.RBT_NODE_FREE
          ([some { key := [], bits := 0, value := 0, left := some 1, right := some 2 },
            some { key := [0x00], bits := 1, value := 1, left := none, right := none },
            some { key := [0x80], bits := 1, value := 2, left := none, right := some 3 },
            some { key := [0xC0], bits := 3, value := 3, left := none, right := none }] :
            List (Option (Heap.node_t Nat))) (some 0) = some [none, none, none, none] :=
  ⟨by decide, by decide, by decide, by decide, by decide, by decide, by decide⟩

/-- C28: evaluation of `RBT_NODE_INSERT_SIBLING` with a failing `realloc` on
the tree that holds the keys 010 and 011 (pins of one byte, addresses 0 to 2)
when the key 00 is inserted: one bit is common, the pin of the parent is
reallocated.  Both nodes are created, `realloc` fails, and
`RBT_NODE_FREE(sibling)` releases `sibling` together with the children of
`node` that it was given: the call returns `NULL`, but the root still points
to the released nodes 1 and 2. -/
theorem insert_sibling_failure_frees_children :
    RBT_NODE_QUERY 8 8 (RBT_NODE_NEW 8 : RBT_NODE_T Nat) [0x40] 3 .INSERT 1 =
        some (.node [0x40] 3 1 .NULL .NULL, 1) ∧
      RBT_NODE_QUERY 8 8 (.node [0x40] 3 1 .NULL .NULL : RBT_NODE_T Nat) [0x60] 3 .INSERT 2 =
        some (.node [0x40] 2 0 (.node [0x40] 3 1 .NULL .NULL)
          (.node [0x60] 3 2 .NULL .NULL), 2) ∧
      Heap.alloc_tree (.node [0x40] 2 0 (.node [0x40] 3 1 .NULL .NULL)
          (.node [0x60] 3 2 .NULL .NULL) : RBT_NODE_T Nat) [] =
        (some 0,
          [some { key := [0x40], bits := 2, value := 0, left := some 1, right := some 2 },
           some { key := [0x40], bits := 3, value := 1, left := none, right := none },
           some { key := [0x60], bits := 3, value := 2, left := none, right := none }]) ∧
      RBT_COMMON_BIT_PREFIX_LEN 8 8 [0x00] [0x40] 2 = 1 ∧
      Heap.RBT_NODE_INSERT_SIBLING 8
          ([some { key := [0x40], bits := 2, value := 0, left := some 1, right := some 2 },
            some { key := [0x40], bits := 3, value := 1, left := none, right := none },
            some { key := [0x60], bits := 3, value := 2, left := none, right := none }] :
            List (Option (Heap.node_t Nat))) 0 [0x00] 2 1 0 1 7 true true false =
        some ([some { key := [0x40], bits := 2, value := 0, left := some 1, right := some 2 },
            none, none, none, none], none) ∧
      Heap.read_tree
          ([some { key := [0x40], bits := 2, value := 0, left := some 1, right := some 2 },
            none, none, none, none] : List (Option (Heap.node_t Nat))) 6 (some 0) = none ∧
      Heap.RBT_NODE_INSERT_SIBLING 8
          ([some { key := [0x40], bits := 2, value := 0, left := some 1, right := some 2 },
            some { key := [0x40], bits := 3, value := 1, left := none, right := none },
            some { key := [0x60], bits := 3, value := 2, left := none, right := none }] :
            List (Option (Heap.node_t Nat))) 0 [0x00] 2 1 0 1 7 true false true =
        some ([some { key := [0x40], bits := 2, value := 0, left := some 1, right := some 2 },
            some { key := [0x40], bits := 3, value := 1, left := none, right := none },
            some { key := [0x60], bits := 3, value := 2, left := none, right := none },
            none], none) :=
  ⟨by decide, by decide, by decide, by decide, by decide, by decide, by decide⟩

/-- C30: evaluation of `RBT_COMMON_BIT_PREFIX_LEN` with a key size type of 8
bits and pins of 32 bits on two identical keys of 248 bits (8 pins) and
`max = 248`, although `2 ^ 8 - 1 >= 248`.  After seven pins `length` is 224;
the eighth pin makes it 256, which wraps around to 0, and the loop reads the
ninth pin, past the end of both keys.  Without wrap-around, with a key size
type of 16 bits, the result is 248. -/
theorem common_bit_prefix_len_wraps :
    248 ≤ 2 ^ 8 - 1 ∧
      RBT_COMMON_BIT_PREFIX_LEN_WRAP 8 32 (List.replicate 8 5) (List.replicate 8 5) 0 248 =
        none ∧
      RBT_COMMON_BIT_PREFIX_LEN 16 32 (List.replicate 8 5) (List.replicate 8 5) 248 = 248 ∧
      RBT_COMMON_BIT_PREFIX_LEN_WRAP 8 32 (List.replicate 4 5) (List.replicate 4 5) 0 128 =
        some 128 :=
  ⟨by decide, by decide, by decide, by decide⟩

/-! ## Cache, mode, frame and filter -/

theorem cache_release_count (c : Nat) : ∀ (k : Nat), k ≤ c + 1 →
    ((List.range k).foldl (RBT_NODE_CACHE_OR_FREE c) { node := [], n := 0 }).n = k := by
  intro k
  induction k with
  | zero => intro _; rfl
  | succ k ih =>
    intro hk
    rw [List.range_succ, List.foldl_append]
    simp only [List.foldl_cons, List.foldl_nil]
    have h := ih (by omega)
    generalize (List.range k).foldl (RBT_NODE_CACHE_OR_FREE c) { node := [], n := 0 } = s at h
    unfold RBT_NODE_CACHE_OR_FREE
    rw [if_pos (by omega)]
    simp only [h]

/-- C31: for every value `c` of `RBT_NODE_CACHE_SIZE`, releasing `c + 1` nodes
into the empty cache leaves `c + 1` nodes in the cache: the test
`RBT_NODE_CACHE.n <= RBT_NODE_CACHE_SIZE` still admits a node when the cache
holds `c` nodes.  With `c = 2` the counter reaches 3. -/
theorem cache_exceeds_size :
    (∀ c : Nat,
        ((List.range (c + 1)).foldl (RBT_NODE_CACHE_OR_FREE c) { node := [], n := 0 }).n
          = c + 1) ∧
      RBT_NODE_CACHE_OR_FREE 2
          (RBT_NODE_CACHE_OR_FREE 2
            (RBT_NODE_CACHE_OR_FREE 2 { node := [], n := 0 } 10) 11) 12 =
        { node := [12, 11, 10], n := 3 } :=
  ⟨fun c => cache_release_count c (c + 1) (Nat.le_refl _), by decide⟩

/-- C32: evaluation of the mode computed by `adjust_attrib` for the current
mode 0700 and the mask 0200.  The owner bits are copied to group and others
before the mask is applied, so the result is 0577; the mode that the header
documents (owner part of the mask first, then the copy) is 0555. -/
theorem adjust_attrib_copies_before_mask :
    adjust_attrib_mode 0o700 0o200 = 0o577 ∧ documented_mode 0o700 0o200 = 0o555 :=
  ⟨by decide, by decide⟩

/-- C33: evaluation of the code on the tree that holds the 2-bit key 00 with
value 1 (pins of one byte) when the 1-bit key 0 is inserted with value 2.
Before the insert a retrieve of 00 returns 1; after it, the node of 00 hangs
on the right of the node of 0 (`RBT_NODE_INSERT_PARENT`) and a retrieve of 00
returns the empty value. -/
theorem insert_parent_hides_key :
    RBT_NODE_QUERY 8 8 (RBT_NODE_NEW 8 : RBT_NODE_T Nat) [0x00] 2 .INSERT 1 =
        some (.node [0] 2 1 .NULL .NULL, 1) ∧
      RBT_NODE_QUERY 8 8 (.node [0] 2 1 .NULL .NULL : RBT_NODE_T Nat) [0x00] 2 .RETRIEVE default =
        some (.node [0] 2 1 .NULL .NULL, 1) ∧
      (RBT_NODE_QUERY 8 8 (.node [0] 2 1 .NULL .NULL : RBT_NODE_T Nat) [0x00] 1 .INSERT 2).bind
          (fun r => (RBT_NODE_QUERY 8 8 r.1 [0x00] 2 .RETRIEVE default).map (fun r1 => r1.2)) =
        some 0 :=
  ⟨by decide, by decide, by decide⟩

/-- C37: evaluation of the filters on reachable trees (pins of one byte).
(1) On the tree with the keys 0xAA (value 1), 0xAA00 (2) and 0xAA80 (3),
`RBT_NODE_FILTER_WITH_KEY` with a callback that is non-zero on the value 2
offers the node of value 3 twice: after the left leaf is detached from its
valued parent the walk jumps to the sibling, whose entry stays on the stack.
(2) On the tree with the keys 0, 00 and 01 (values 1, 2, 3), `RBT_NODE_FILTER`
with a callback that is non-zero on 2 and 3 releases the sibling at the jump
and dereferences it again when its stack entry is popped.
(3) On the tree with the keys 0xAA and 0xAA00, `RBT_NODE_FILTER_WITH_KEY`
removes the only child, sets `node` to the `NULL` sibling and dereferences it
in the key section. -/
theorem filter_offers_twice_or_after_release :
    (RBT_NODE_QUERY 8 8 (RBT_NODE_NEW 8 : RBT_NODE_T Nat) [0xAA] 8 .INSERT 1).bind
          (fun r => (RBT_NODE_QUERY 8 8 r.1 [0xAA, 0x00] 16 .INSERT 2).bind
            (fun r => RBT_NODE_QUERY 8 8 r.1 [0xAA, 0x80] 16 .INSERT 3)) =
        some (.node [0xAA] 8 1 (.node [0x00] 8 2 .NULL .NULL) (.node [0x80] 8 3 .NULL .NULL),
          3) ∧
      (RBT_NODE_FILTER_WITH_KEY 1
          (.node [0xAA] 8 1 (.node [0x00] 8 2 .NULL .NULL) (.node [0x80] 8 3 .NULL .NULL) :
            RBT_NODE_T Nat)
          (fun key_data => decide (key_data.node.value = 2)) false).map
          (fun r => r.2.map (fun c => (c.key, c.bits, c.node.value))) =
        some [([0xAA], 8, 1), ([0xAA, 0x00], 16, 2), ([0xAA, 0x80], 16, 3),
          ([0xAA, 0x80], 16, 3)] ∧
      (RBT_NODE_QUERY 8 8 (RBT_NODE_NEW 8 : RBT_NODE_T Nat) [0x00] 1 .INSERT 1).bind
          (fun r => (RBT_NODE_QUERY 8 8 r.1 [0x00] 2 .INSERT 2).bind
            (fun r => RBT_NODE_QUERY 8 8 r.1 [0x40] 2 .INSERT 3)) =
        some (.node [0] 1 1 (.node [0] 2 2 .NULL .NULL) (.node [0x40] 2 3 .NULL .NULL), 3) ∧
      RBT_NODE_FILTER 8
          (.node [0] 1 1 (.node [0] 2 2 .NULL .NULL) (.node [0x40] 2 3 .NULL .NULL) :
            RBT_NODE_T Nat)
          (fun v => decide (v = 2 ∨ v = 3)) false = none ∧
      (RBT_NODE_QUERY 8 8 (RBT_NODE_NEW 8 : RBT_NODE_T Nat) [0xAA] 8 .INSERT 1).bind
          (fun r => RBT_NODE_QUERY 8 8 r.1 [0xAA, 0x00] 16 .INSERT 2) =
        some (.node [0xAA] 8 1 (.node [0x00] 8 2 .NULL .NULL) .NULL, 2) ∧
      RBT_NODE_FILTER_WITH_KEY 1
          (.node [0xAA] 8 1 (.node [0x00] 8 2 .NULL .NULL) .NULL : RBT_NODE_T Nat)
          (fun key_data => decide (key_data.node.value = 2)) false = none ∧
      RBT_NODE_FILTER 8
          (.node [0xAA] 8 1 (.node [0x00] 8 2 .NULL .NULL) .NULL : RBT_NODE_T Nat)
          (fun v => decide (v = 2)) false = some (.node [0xAA] 8 1 .NULL .NULL) :=
  ⟨by decide, by decide, by decide, by decide, by decide, by decide, by decide⟩

/-- C39: for a key size type of `S` bits and pins of `w > 0` bits where `w`
divides `2 ^ S` (the widths of the unsigned types are powers of two: pins of
32 and 64 bits for the types the built-ins handle, key size types of 8 bits
and more), all key buffers `a` and `b` of `w`-bit pins and every `max`, the
path of `RBT_COMMON_BIT_PREFIX_LEN` that adds the leading-zero count of the
XOR and clamps to `max` returns the same value as the path with the
shift-and-count loop. -/
theorem builtin_path_agrees_with_shift_path (S w : Nat) (hw : 0 < w) (hwS : w ∣ 2 ^ S)
    (a b : List Nat) (ha : ∀ p ∈ a, p < 2 ^ w) (hb : ∀ p ∈ b, p < 2 ^ w) (max : Nat) :
    RBT_COMMON_BIT_PREFIX_LEN S w a b max = RBT_COMMON_BIT_PREFIX_LEN_SHIFT S w a b max :=
  (cbpl_shift_eq S w hw hwS a b ha hb max).symm

theorem builtin_path_agrees_with_shift_path_witness :
    (0 < 32 ∧ 32 ∣ 2 ^ 8 ∧ (∀ p ∈ [0x12345678, 0x9ABCDEF0], p < 2 ^ 32) ∧
      (∀ p ∈ [0x12345678, 0x9ABCDEF3], p < 2 ^ 32)) ∧
    RBT_COMMON_BIT_PREFIX_LEN 8 32 [0x12345678, 0x9ABCDEF0] [0x12345678, 0x9ABCDEF3] 64 =
      RBT_COMMON_BIT_PREFIX_LEN_SHIFT 8 32 [0x12345678, 0x9ABCDEF0] [0x12345678, 0x9ABCDEF3] 64 :=
  ⟨⟨by decide, by decide, by decide, by decide⟩,
    builtin_path_agrees_with_shift_path 8 32 (by decide) (by decide) _ _ (by decide)
      (by decide) 64⟩

/-- C40: for every current mode `m` and every mask `k`, the mode that
`adjust_attrib` computes from the mode it computed from the mode it computed
from `m` is the mode of the second step: the second iterate is a fixed point,
so repeated rescans change the computed mode at most twice. -/
theorem adjust_attrib_settles_in_two_steps (m k : Nat) :
    adjust_attrib_mode (adjust_attrib_mode (adjust_attrib_mode m k) k) k =
      adjust_attrib_mode (adjust_attrib_mode m k) k ∧
    ∀ i, (adjust_attrib_mode m k).testBit i = (mode_src m i && !k.testBit i) :=
  ⟨adjust_attrib_mode_settles m k, adjust_attrib_mode_testBit m k⟩

/-- C36: evaluation of the code with a key size type of 8 bits and pins of 32
bits on the reachable tree that holds a key of 128 bits (value 1) and, as its
only child, a key of 248 bits (value 2, a fragment of 120 bits), which a
retrieve finds.  `RBT_NODE_REMOVE` on the root, as called by the deletion of
the first key, merges the child into it: the node takes the value 2 and the
child links of the child, 128 + 120 = 248 bits and the four pins of the child
behind its own four.  A retrieve of the second key on the merged node wraps
`length` around after eight equal pins, reads past the end of the node's key
(`RBT_COMMON_BIT_PREFIX_LEN_WRAP` is `none`) and returns the empty value: the
key stored in the child is no longer retrieved. -/
theorem one_child_merge_loses_key :
    RBT_NODE_QUERY 8 32 (RBT_NODE_NEW 32 : RBT_NODE_T Nat) [51, 52, 53, 54] 128 .INSERT 1 =
        some (.node [51, 52, 53, 54] 128 1 .NULL .NULL, 1) ∧
      RBT_NODE_QUERY 8 32 (.node [51, 52, 53, 54] 128 1 .NULL .NULL : RBT_NODE_T Nat)
        [51, 52, 53, 54, 55, 56, 57, 0x58000000, 9] 248 .INSERT 2 =
        some (.node [51, 52, 53, 54] 128 1
          (.node [55, 56, 57, 0x58000000] 120 2 .NULL .NULL) .NULL, 2) ∧
      RBT_NODE_QUERY 8 32
        (.node [51, 52, 53, 54] 128 1 (.node [55, 56, 57, 0x58000000] 120 2 .NULL .NULL) .NULL :
          RBT_NODE_T Nat)
        [51, 52, 53, 54, 55, 56, 57, 0x58000000, 9] 248 .RETRIEVE default =
        some (.node [51, 52, 53, 54] 128 1
          (.node [55, 56, 57, 0x58000000] 120 2 .NULL .NULL) .NULL, 2) ∧
      RBT_NODE_REMOVE 32
        (.node [51, 52, 53, 54] 128 1 (.node [55, 56, 57, 0x58000000] 120 2 .NULL .NULL) .NULL :
          RBT_NODE_T Nat) none =
        some (.node [51, 52, 53, 54, 55, 56, 57, 0x58000000] 248 2 .NULL .NULL) ∧
      RBT_NODE_QUERY 8 32
        (.node [51, 52, 53, 54] 128 1 (.node [55, 56, 57, 0x58000000] 120 2 .NULL .NULL) .NULL :
          RBT_NODE_T Nat)
        [51, 52, 53, 54] 128 .DELETE default =
        some (.node [51, 52, 53, 54, 55, 56, 57, 0x58000000] 248 2 .NULL .NULL, 0) ∧
      RBT_COMMON_BIT_PREFIX_LEN_WRAP 8 32 [51, 52, 53, 54, 55, 56, 57, 0x58000000, 9]
        [51, 52, 53, 54, 55, 56, 57, 0x58000000] 0 248 = none ∧
      RBT_NODE_QUERY 8 32
        (.node [51, 52, 53, 54, 55, 56, 57, 0x58000000] 248 2 .NULL .NULL : RBT_NODE_T Nat)
        [51, 52, 53, 54, 55, 56, 57, 0x58000000, 9] 248 .RETRIEVE default =
        some (.node [51, 52, 53, 54, 55, 56, 57, 0x58000000] 248 2 .NULL .NULL, 0) :=
  ⟨by decide, by decide, by decide, by decide, by decide, by decide, by decide⟩

/-- C35: evaluation of the code with a key size type of 8 bits and pins of 32
bits on the empty tree and a key of 248 bits held in a buffer of nine pins.  A
retrieve of the key on the empty tree returns the empty value and the
insertion of 5 fills the root.  The lookup of the deletion wraps `length`
around after eight equal pins, reads past the end of the node's key
(`RBT_COMMON_BIT_PREFIX_LEN_WRAP` is `none`) and finds nothing: the deletion
leaves the node in place, and `RBT_NODE_IS_COPY` of the tree after it and the
empty tree returns 0. -/
theorem delete_leaves_inserted_key :
    RBT_NODE_QUERY 8 32 (RBT_NODE_NEW 32 : RBT_NODE_T Nat)
        [61, 62, 63, 64, 65, 66, 67, 68, 3] 248 .RETRIEVE default =
        some (RBT_NODE_NEW 32, 0) ∧
      RBT_NODE_QUERY 8 32 (RBT_NODE_NEW 32 : RBT_NODE_T Nat)
        [61, 62, 63, 64, 65, 66, 67, 68, 3] 248 .INSERT 5 =
        some (.node [61, 62, 63, 64, 65, 66, 67, 68] 248 5 .NULL .NULL, 5) ∧
      RBT_COMMON_BIT_PREFIX_LEN_WRAP 8 32 [61, 62, 63, 64, 65, 66, 67, 68, 3]
        [61, 62, 63, 64, 65, 66, 67, 68] 0 248 = none ∧
      RBT_NODE_QUERY 8 32
        (.node [61, 62, 63, 64, 65, 66, 67, 68] 248 5 .NULL .NULL : RBT_NODE_T Nat)
        [61, 62, 63, 64, 65, 66, 67, 68, 3] 248 .DELETE default =
        some (.node [61, 62, 63, 64, 65, 66, 67, 68] 248 5 .NULL .NULL, 0) ∧
      RBT_NODE_IS_COPY 8 32
        (.node [61, 62, 63, 64, 65, 66, 67, 68] 248 5 .NULL .NULL : RBT_NODE_T Nat)
        (RBT_NODE_NEW 32) = some false :=
  ⟨by decide, by decide, by decide, by decide, by decide⟩

/-! ## Keys of one length -/

/-- C34: evaluation of the code with a key size type of 8 bits and pins of 32
bits on keys of 248 bits (`2 ^ 8 - 1 >= 248`), each held in a buffer of nine
pins.  After the insertion of 7 under the first key and the swap of 8 under
the second key, applied to the empty tree, the reference map holds 7 for the
first key; a retrieve of the first key descends to its node, wraps `length`
around after eight equal pins in the comparison with the node's key and
returns the empty value. -/
theorem fixed_length_keys_lookup_misses :
    248 ≤ 2 ^ 8 - 1 ∧
      key_ok 32 [0x71000000, 72, 73, 74, 75, 76, 77, 78, 6] 248 ∧
      key_ok 32 [0x11000000, 72, 73, 74, 75, 76, 77, 78, 6] 248 ∧
      run_queries 8 32 248 (RBT_NODE_NEW 32 : RBT_NODE_T Nat)
        [(.INSERT, [0x71000000, 72, 73, 74, 75, 76, 77, 78, 6], 7),
          (.SWAP, [0x11000000, 72, 73, 74, 75, 76, 77, 78, 6], 8)] =
        some (.node [0x71000000] 1 0
          (.node [0x11000000, 72, 73, 74, 75, 76, 77, 78] 248 8 .NULL .NULL)
          (.node [0x71000000, 72, 73, 74, 75, 76, 77, 78] 248 7 .NULL .NULL)) ∧
      ref_lookup
        (ref_run 32 248 ([] : List (List Bool × Nat))
          [(.INSERT, [0x71000000, 72, 73, 74, 75, 76, 77, 78, 6], 7),
            (.SWAP, [0x11000000, 72, 73, 74, 75, 76, 77, 78, 6], 8)])
        (key_bits 32 [0x71000000, 72, 73, 74, 75, 76, 77, 78, 6] 248) = 7 ∧
      RBT_NODE_QUERY 8 32
        (.node [0x71000000] 1 0
          (.node [0x11000000, 72, 73, 74, 75, 76, 77, 78] 248 8 .NULL .NULL)
          (.node [0x71000000, 72, 73, 74, 75, 76, 77, 78] 248 7 .NULL .NULL) : RBT_NODE_T Nat)
        [0x71000000, 72, 73, 74, 75, 76, 77, 78, 6] 248 .RETRIEVE default =
        some (.node [0x71000000] 1 0
          (.node [0x11000000, 72, 73, 74, 75, 76, 77, 78] 248 8 .NULL .NULL)
          (.node [0x71000000, 72, 73, 74, 75, 76, 77, 78] 248 7 .NULL .NULL), 0) :=
  ⟨by decide, by unfold key_ok; decide, by unfold key_ok; decide, by decide, by decide,
    by decide⟩

end Rbt
